import Mathlib

/-!
Verification development for the lacc C front end (src/core/parse.c).

The development shallowly embeds the parser, type resolver and CFG/IR
emitter of parse.c as executable Lean functions over an explicit state.
Collaborator layers that are outside the repository snapshot (token
interface, symbol table, type algebra, IR builder) are modelled from the
specification; every such definition carries a doc comment starting with
"Modelled from the spec:".  All parsing functions are fuel-indexed so
that the embedding is a total, structurally recursive program that the
kernel can evaluate on concrete inputs.
-/

set_option maxHeartbeats 0

/-- Token kinds of the preprocessed C token stream consumed by the core
(section 6 of the spec lists the kinds the core references). -/
inductive Tok : Type where
  | VOID | CHAR | SHORT | INTKW | SIGNED | UNSIGNED | LONG | FLOATKW | DOUBLEKW
  | CONST | VOLATILE | STRUCT | UNION | ENUM
  | AUTO | REGISTER | STATIC | EXTERNKW | TYPEDEFKW
  | IF | ELSE | WHILE | DO | FOR | SWITCH | CASE | DEFAULT
  | BREAK | CONTINUE | RETURN | GOTO | SIZEOF
  | IDENTIFIER (s : String)
  | INTEGER_CONSTANT (v : Int)
  | STRING (s : String)
  | lpar | rpar | lbrace | rbrace | lbrack | rbrack
  | semi | comma | colon | question | assign | dot
  | plus | minus | star | slash | percent
  | amp | pipe | caret | tilde | bang | ltTok | gtTok
  | LSHIFT | RSHIFT | LEQ | GEQ | EQ | NEQ
  | LOGICAL_AND | LOGICAL_OR | ARROW | INCREMENT | DECREMENT | DOTS
  | MUL_ASSIGN | DIV_ASSIGN | MOD_ASSIGN | PLUS_ASSIGN | MINUS_ASSIGN
  | AND_ASSIGN | OR_ASSIGN | XOR_ASSIGN
  | END
deriving BEq, Repr

/-- Kind equality used by consume: payload-carrying tokens match on the
constructor only (consume(IDENTIFIER) accepts any identifier). -/
def Tok.sameKind : Tok → Tok → Bool
  | .IDENTIFIER _, .IDENTIFIER _ => true
  | .INTEGER_CONSTANT _, .INTEGER_CONSTANT _ => true
  | .STRING _, .STRING _ => true
  | a, b => a == b

/-- FIRST(type_name) from the macros at the top of parse.c: type
qualifiers plus type specifiers. -/
def Tok.isTypeNameFirst : Tok → Bool
  | .CONST | .VOLATILE => true
  | .VOID | .CHAR | .SHORT | .INTKW | .LONG | .FLOATKW | .DOUBLEKW => true
  | .SIGNED | .UNSIGNED | .STRUCT | .UNION | .ENUM => true
  | _ => false

/-- Type-tree node kinds (spec data model, section 3). -/
inductive TKind : Type where
  | T_VOID | T_SIGNED | T_UNSIGNED | T_FLOAT | T_DOUBLE
  | T_POINTER | T_ARRAY | T_FUNCTION | T_STRUCT | T_UNION
deriving DecidableEq, Repr

/-- Modelled from the spec: a node of the type tree (section 3).  size
is the byte size stored on the node (0 marks an incomplete array,
struct or function); qualifier is the const/volatile bitmask; next is
the inner type for pointer/array/function nodes; members carries
(name, type, offset) triples for struct/union members and function
parameters; vararg is the Function vararg flag. -/
inductive Typ : Type where
  | mk (kind : TKind) (size : Nat) (qualifier : Nat) (next : Option Typ)
       (members : List (Option String × Typ × Nat)) (vararg : Bool)

def Typ.kind : Typ → TKind
  | .mk k _ _ _ _ _ => k

def Typ.size : Typ → Nat
  | .mk _ sz _ _ _ _ => sz

def Typ.qualifier : Typ → Nat
  | .mk _ _ q _ _ _ => q

def Typ.next : Typ → Option Typ
  | .mk _ _ _ n _ _ => n

def Typ.members : Typ → List (Option String × Typ × Nat)
  | .mk _ _ _ _ m _ => m

def Typ.vararg : Typ → Bool
  | .mk _ _ _ _ _ v => v

def Typ.withSize : Typ → Nat → Typ
  | .mk k _ q n m v, sz => .mk k sz q n m v

def Typ.withQualifier : Typ → Nat → Typ
  | .mk k sz _ n m v, q => .mk k sz q n m v

/-- Qualifier bit Q_CONST. -/
def Q_CONST : Nat := 1

/-- Qualifier bit Q_VOLATILE. -/
def Q_VOLATILE : Nat := 2

/-- Modelled from the spec: size_of of the type algebra; sizes are
precomputed on the nodes, so it reads the stored size. -/
def size_of (t : Typ) : Nat := t.size

/-- Modelled from the spec: canonical basic types of the type algebra
(widths 1/2/4/8 for char/short/int/long as in section 4.2's table and
the byte offsets of scenario S3). -/
def basic_type__void : Typ := .mk .T_VOID 0 0 none [] false

def basic_type__char : Typ := .mk .T_SIGNED 1 0 none [] false

def basic_type__unsigned_char : Typ := .mk .T_UNSIGNED 1 0 none [] false

def basic_type__short : Typ := .mk .T_SIGNED 2 0 none [] false

def basic_type__unsigned_short : Typ := .mk .T_UNSIGNED 2 0 none [] false

def basic_type__int : Typ := .mk .T_SIGNED 4 0 none [] false

def basic_type__unsigned_int : Typ := .mk .T_UNSIGNED 4 0 none [] false

def basic_type__long : Typ := .mk .T_SIGNED 8 0 none [] false

def basic_type__unsigned_long : Typ := .mk .T_UNSIGNED 8 0 none [] false

def basic_type__float : Typ := .mk .T_FLOAT 4 0 none [] false

def basic_type__double : Typ := .mk .T_DOUBLE 8 0 none [] false

/-- Modelled from the spec: type_init(T_POINTER, inner); pointers are 8
bytes wide (section 4.5 null pointer constant of width 8). -/
def typeInitPointer (inner : Option Typ) : Typ := .mk .T_POINTER 8 0 inner [] false

/-- Modelled from the spec: type_init(T_ARRAY, element, length); an
array node stores its total byte size, 0 when the length is 0
(incomplete). -/
def typeInitArray (elem : Option Typ) (len : Nat) : Typ :=
  .mk .T_ARRAY (len * (match elem with | some e => size_of e | none => 0)) 0 elem [] false

/-- Modelled from the spec: type_init(T_FUNCTION) with return type as
the next field. -/
def typeInitFunction (ret : Option Typ) : Typ := .mk .T_FUNCTION 0 0 ret [] false

/-- Modelled from the spec: type_init(T_STRUCT) / type_init(T_UNION),
an initially incomplete (size 0) aggregate. -/
def typeInitAggregate (k : TKind) : Typ := .mk k 0 0 none [] false

/-- Modelled from the spec: type_init(T_SIGNED, width). -/
def typeInitSigned (w : Nat) : Typ := .mk .T_SIGNED w 0 none [] false

/-- Modelled from the spec: type_add_member of the type algebra.  For a
function it appends a parameter; for a struct the member offset is the
running size and the size grows by the member size (scenario S6 has
offsets 0 and 4 for two ints); for a union members sit at offset 0 and
the size is the maximum member size. -/
def typeAddMember (t : Typ) (name : Option String) (mty : Typ) : Typ :=
  match t with
  | .mk .T_FUNCTION sz q n ms va => .mk .T_FUNCTION sz q n (ms ++ [(name, mty, 0)]) va
  | .mk .T_STRUCT sz q n ms va =>
      .mk .T_STRUCT (sz + size_of mty) q n (ms ++ [(name, mty, sz)]) va
  | .mk .T_UNION sz q n ms va =>
      .mk .T_UNION (max sz (size_of mty)) q n (ms ++ [(name, mty, 0)]) va
  | other => other

/-- Modelled from the spec: mark a function type variadic (the source
registers the pseudo-member "..." for this). -/
def typeSetVararg : Typ → Typ
  | .mk k sz q n ms _ => .mk k sz q n ms true

/-- Modelled from the spec: nmembers of the type algebra. -/
def nmembersF (t : Typ) : Nat := t.members.length

/-- Modelled from the spec: get_member(type, i). -/
def getMemberF (t : Typ) (i : Nat) : Option String × Typ × Nat :=
  t.members.getD i (none, basic_type__int, 0)

/-- Modelled from the spec: find_type_member(type, name). -/
def findTypeMember (t : Typ) (name : String) : Option (Option String × Typ × Nat) :=
  t.members.find? (fun m => m.1 = some name)

/-- Modelled from the spec: unwrapped strips the qualifiers from the
root node. -/
def unwrapped (t : Typ) : Typ := t.withQualifier 0

/-- Modelled from the spec: type predicate is_integer. -/
def isInteger (t : Typ) : Bool := t.kind == .T_SIGNED || t.kind == .T_UNSIGNED

/-- Modelled from the spec: type predicate is_void. -/
def isVoid (t : Typ) : Bool := t.kind == .T_VOID

/-- Modelled from the spec: type predicate is_pointer. -/
def isPointer (t : Typ) : Bool := t.kind == .T_POINTER

/-- Modelled from the spec: type predicate is_function. -/
def isFunction (t : Typ) : Bool := t.kind == .T_FUNCTION

/-- Modelled from the spec: type predicate is_array. -/
def isArray (t : Typ) : Bool := t.kind == .T_ARRAY

/-- Modelled from the spec: type predicate is_struct_or_union. -/
def isStructOrUnion (t : Typ) : Bool := t.kind == .T_STRUCT || t.kind == .T_UNION

/-- Modelled from the spec: type predicate is_vararg. -/
def isVararg (t : Typ) : Bool := t.vararg

/-- Modelled from the spec: type_deref strips one pointer level. -/
def typeDeref (t : Typ) : Typ := t.next.getD basic_type__int

/-- Operand kinds of an IR variable (spec data model Var.kind). -/
inductive VKind : Type where
  | DIRECT | DEREF | IMMEDIATE
deriving DecidableEq, Repr

/-- Modelled from the spec: an IR operand descriptor (Var).  imm holds
the integer immediate; string the string-literal immediate. -/
structure Var : Type where
  kind : VKind
  type : Typ
  symbol : Option Nat
  offset : Int
  imm : Int
  string : Option String
  lvalue : Bool

/-- Default operand used for freshly minted blocks. -/
def Var.defaultVar : Var :=
  { kind := .DIRECT, type := basic_type__int, symbol := none, offset := 0,
    imm := 0, string := none, lvalue := false }

/-- IR opcodes referenced by parse.c. -/
inductive IrOp : Type where
  | IR_OP_MUL | IR_OP_DIV | IR_OP_MOD | IR_OP_ADD | IR_OP_SUB
  | IR_OP_SHL | IR_OP_SHR | IR_OP_AND | IR_OP_OR | IR_OP_XOR
  | IR_OP_EQ | IR_OP_GT | IR_OP_GE | IR_NOT
deriving DecidableEq, Repr

/-- Modelled from the spec: a three-address IR operation (glossary: an
opcode, up to two operand Vars and a result Var), plus the assignment,
parameter, call, return and cast operations minted by the eval layer. -/
inductive Ir : Type where
  | binop (op : IrOp) (res : Var) (l : Var) (r : Var)
  | unop (op : IrOp) (res : Var) (v : Var)
  | assign (target : Var) (value : Var)
  | paramOp (v : Var)
  | callOp (res : Var) (f : Var)
  | retOp (v : Var)
  | addrOp (res : Var) (v : Var)
  | castOp (res : Var) (v : Var)

/-- A basic block: ordered IR code, the live expression operand and up
to two jump successors (spec data model Block). -/
structure BlockT : Type where
  code : List Ir
  expr : Var
  jump0 : Option Nat
  jump1 : Option Nat

/-- A freshly minted, empty block. -/
def BlockT.empty : BlockT :=
  { code := [], expr := Var.defaultVar, jump0 := none, jump1 := none }

/-- Symb kinds (spec data model Symb.symtype). -/
inductive Symtype : Type where
  | SYM_DECLARATION | SYM_TENTATIVE | SYM_DEFINITION | SYM_TYPEDEF | SYM_ENUM_VALUE
deriving DecidableEq, Repr

/-- Linkage values (spec data model Symb.linkage). -/
inductive Linkage : Type where
  | LINK_NONE | LINK_INTERN | LINK_EXTERN
deriving DecidableEq, Repr

/-- Modelled from the spec: a symbol-table entry.  n is the allocation
counter consulted by the declaration initializer dispatch; it is 0 for
symbols that have not been laid out yet. -/
structure Symb : Type where
  name : String
  type : Typ
  symtype : Symtype
  linkage : Linkage
  depth : Nat
  enum_value : Int
  n : Nat

/-- Modelled from the spec: a scoped namespace.  entries maps names to
symbol ids together with the depth they were declared at (innermost
first); pushes and pops count the push_scope/pop_scope calls performed
on this namespace. -/
structure NamespaceT : Type where
  entries : List (String × Nat × Nat)
  currentDepth : Nat
  pushes : Nat
  pops : Nat

def NamespaceT.empty : NamespaceT :=
  { entries := [], currentDepth := 0, pushes := 0, pops := 0 }

/-- Modelled from the spec: push_scope on a namespace value. -/
def pushScopeV (ns : NamespaceT) : NamespaceT :=
  { ns with currentDepth := ns.currentDepth + 1, pushes := ns.pushes + 1 }

/-- Modelled from the spec: pop_scope on a namespace value; block-scope
symbols of the popped depth are destroyed. -/
def popScopeV (ns : NamespaceT) : NamespaceT :=
  { ns with
    entries := ns.entries.filter (fun e => decide (e.2.2 ≠ ns.currentDepth)),
    currentDepth := ns.currentDepth - 1,
    pops := ns.pops + 1 }

/-- The switch context of parse.c: the optional default label and the
collected case labels and values. -/
structure SwitchContext : Type where
  default_label : Option Nat
  case_label : List Nat
  case_value : List Var
  n : Nat

def SwitchContext.empty : SwitchContext :=
  { default_label := none, case_label := [], case_value := [], n := 0 }

/-- The explicit parser state: the token cursor, the CFG block arena,
the symbol arena, both namespaces, the current-CFG handle, the loop
targets, the innermost switch context and the diagnostics emitted so
far. -/
structure St : Type where
  toks : List Tok
  blocks : List BlockT
  syms : List Symb
  nsIdent : NamespaceT
  nsTag : NamespaceT
  cfgHead : Nat
  cfgBody : Nat
  cfgFun : Option Nat
  breakTarget : Option Nat
  continueTarget : Option Nat
  switchCtx : Option SwitchContext
  errors : List String

/-- Outcome of running an embedded front-end action: normal result,
process exit after a fatal diagnostic, or fuel exhaustion of the
embedding (never the program's own behaviour). -/
inductive Res (α : Type) : Type where
  | ok (a : α) (s : St)
  | exited (s : St)
  | fuelOut

/-- The embedding monad: explicit state threading with early process
exit. -/
abbrev EM (α : Type) : Type := St → Res α

instance : Monad EM where
  pure a := fun s => .ok a s
  bind x f := fun s =>
    match x s with
    | .ok a s1 => f a s1
    | .exited s1 => .exited s1
    | .fuelOut => .fuelOut

def getS : EM St := fun s => .ok s s

def setS (s1 : St) : EM Unit := fun _ => .ok () s1

def modifyS (f : St → St) : EM Unit := fun s => .ok () (f s)

/-- Modelled from the spec: the error diagnostic sink; it records the
message and continues (a fatal site additionally calls exit(1)). -/
def errorM (msg : String) : EM Unit :=
  modifyS (fun s => { s with errors := s.errors ++ [msg] })

/-- exit(1): abandon the translation unit immediately. -/
def exitOne {α : Type} : EM α := fun s => .exited s

/-- Modelled from the spec: peek() of the token interface. -/
def peekS : EM Tok := fun s => .ok (s.toks.headD Tok.END) s

/-- Modelled from the spec: peekn(2) of the token interface. -/
def peekn2 : EM Tok := fun s => .ok ((s.toks.drop 1).headD Tok.END) s

/-- Modelled from the spec: next() of the token interface. -/
def nextS : EM Tok := fun s =>
  .ok (s.toks.headD Tok.END) { s with toks := s.toks.drop 1 }

/-- Modelled from the spec: consume(kind) of the token interface; a
kind mismatch is a fatal grammatical error. -/
def consume (k : Tok) : EM Tok := do
  let t ← peekS
  if t.sameKind k then nextS
  else do
    errorM "Unexpected token."
    exitOne

/-- List update at an index (identity when out of range). -/
def listSet {α : Type} : List α → Nat → α → List α
  | [], _, _ => []
  | _ :: xs, 0, a => a :: xs
  | x :: xs, n + 1, a => x :: listSet xs n a

/-- Read a block of the arena. -/
def blk (s : St) (i : Nat) : BlockT := s.blocks.getD i BlockT.empty

/-- Read a symbol of the arena. -/
def symAt (s : St) (i : Nat) : Symb :=
  s.syms.getD i
    { name := "", type := basic_type__int, symtype := .SYM_DEFINITION,
      linkage := .LINK_NONE, depth := 0, enum_value := 0, n := 0 }

def updBlock (s : St) (i : Nat) (f : BlockT → BlockT) : St :=
  { s with blocks := listSet s.blocks i (f (blk s i)) }

def updSym (s : St) (i : Nat) (f : Symb → Symb) : St :=
  { s with syms := listSet s.syms i (f (symAt s i)) }

def updBlockM (i : Nat) (f : BlockT → BlockT) : EM Unit :=
  modifyS (fun s => updBlock s i f)

def updSymM (i : Nat) (f : Symb → Symb) : EM Unit :=
  modifyS (fun s => updSym s i f)

/-- Read the live expression operand of a block. -/
def getExpr (b : Nat) : EM Var := fun s => .ok ((blk s b).expr) s

def setExprM (b : Nat) (v : Var) : EM Unit := updBlockM b (fun bl => { bl with expr := v })

def setJump0 (b : Nat) (t : Option Nat) : EM Unit :=
  updBlockM b (fun bl => { bl with jump0 := t })

def setJump1 (b : Nat) (t : Option Nat) : EM Unit :=
  updBlockM b (fun bl => { bl with jump1 := t })

/-- Modelled from the spec: cfg_block_init mints a fresh empty block in
the CFG arena and returns its handle. -/
def cfgBlockInitM : EM Nat := fun s =>
  .ok s.blocks.length { s with blocks := s.blocks ++ [BlockT.empty] }

/-- Modelled from the spec: emit one IR operation into a block. -/
def emitIr (b : Nat) (op : Ir) : EM Unit :=
  updBlockM b (fun bl => { bl with code := bl.code ++ [op] })

/-- Modelled from the spec: var_int mints an immediate int operand. -/
def var_int (v : Int) : Var :=
  { kind := .IMMEDIATE, type := basic_type__int, symbol := none, offset := 0,
    imm := v, string := none, lvalue := false }

/-- Modelled from the spec: var_direct references a symbol directly. -/
def var_direct (symId : Nat) (sym : Symb) : Var :=
  { kind := .DIRECT, type := sym.type, symbol := some symId, offset := 0,
    imm := 0, string := none, lvalue := true }

/-- Modelled from the spec: var_string mints an immediate of type
char [n+1] that records the literal. -/
def var_string (str : String) : Var :=
  { kind := .IMMEDIATE,
    type := typeInitArray (some basic_type__char) (str.length + 1),
    symbol := none, offset := 0, imm := 0, string := some str, lvalue := false }

/-- Modelled from the spec: var_zero(width), the zero immediate of a
given width. -/
def var_zero (w : Nat) : Var :=
  { kind := .IMMEDIATE, type := .mk .T_UNSIGNED w 0 none [] false,
    symbol := none, offset := 0, imm := 0, string := none, lvalue := false }

/-- Modelled from the spec: create_var mints a fresh temporary of the
given type, backed by a fresh anonymous symbol. -/
def createVar (ty : Typ) : EM Var := fun s =>
  let sym : Symb :=
    { name := "t", type := ty, symtype := .SYM_DEFINITION, linkage := .LINK_NONE,
      depth := 0, enum_value := 0, n := 0 }
  .ok { kind := .DIRECT, type := ty, symbol := some s.syms.length, offset := 0,
        imm := 0, string := none, lvalue := false }
      { s with syms := s.syms ++ [sym] }

/-- Modelled from the spec: constant folding performed by the eval
layer on two integer immediates (S1: additive results may be folded;
glossary: a constant expression reduces to an IMMEDIATE without
appending IR).  Comparisons and the remaining opcodes always emit. -/
def foldBinop (op : IrOp) (l r : Int) : Option Int :=
  match op with
  | .IR_OP_ADD => some (l + r)
  | .IR_OP_SUB => some (l - r)
  | .IR_OP_MUL => some (l * r)
  | _ => none

/-- Result type of a binary IR operation: comparisons yield int,
anything else keeps the left operand's type. -/
def binopResultType (op : IrOp) (l : Var) : Typ :=
  match op with
  | .IR_OP_EQ | .IR_OP_GT | .IR_OP_GE => basic_type__int
  | _ => l.type

/-- Modelled from the spec: eval_expr for a binary opcode.  Two integer
immediates under a foldable opcode reduce to an immediate without
appending IR; otherwise the operation is emitted into the block and a
fresh temporary carries the result. -/
def evalExprB (b : Nat) (op : IrOp) (l r : Var) : EM Var :=
  if l.kind == .IMMEDIATE && r.kind == .IMMEDIATE
      && isInteger l.type && isInteger r.type then
    match foldBinop op l.imm r.imm with
    | some v => pure (var_int v)
    | none => do
        let t ← createVar (binopResultType op l)
        emitIr b (.binop op t l r)
        pure t
  else do
    let t ← createVar (binopResultType op l)
    emitIr b (.binop op t l r)
    pure t

/-- Modelled from the spec: eval_expr for the unary opcode IR_NOT. -/
def evalExprU (b : Nat) (op : IrOp) (v : Var) : EM Var := do
  let t ← createVar v.type
  emitIr b (.unop op t v)
  pure t

/-- Modelled from the spec: eval_assign emits an assignment into the
block; the overall expression yields the assigned value. -/
def evalAssign (b : Nat) (target value : Var) : EM Var := do
  emitIr b (.assign target value)
  pure value

/-- Modelled from the spec: eval_deref turns an operand into a
dereference of one pointer level. -/
def evalDeref (_b : Nat) (v : Var) : EM Var :=
  pure { v with kind := .DEREF, type := typeDeref v.type, lvalue := true }

/-- Modelled from the spec: eval_addr takes the address of an operand
into a fresh temporary of pointer type. -/
def evalAddr (b : Nat) (v : Var) : EM Var := do
  let t ← createVar (typeInitPointer (some v.type))
  emitIr b (.addrOp t v)
  pure t

/-- Modelled from the spec: eval_cast converts an operand to the given
type through a fresh temporary. -/
def evalCast (b : Nat) (v : Var) (ty : Typ) : EM Var := do
  let t ← createVar ty
  emitIr b (.castOp t v)
  pure t

/-- Modelled from the spec: param(block, arg) emits one argument. -/
def paramEmit (b : Nat) (v : Var) : EM Unit := emitIr b (.paramOp v)

/-- Modelled from the spec: eval_call emits the call and yields a fresh
temporary of the callee's return type. -/
def evalCall (b : Nat) (f : Var) : EM Var := do
  let t ← createVar (f.type.next.getD basic_type__int)
  emitIr b (.callOp t f)
  pure t

/-- Modelled from the spec: eval_return emits the return of the block's
expression operand. -/
def evalReturn (b : Nat) (_retTy : Typ) : EM Var := do
  let v ← getExpr b
  emitIr b (.retOp v)
  pure v

/-- Modelled from the spec: eval_conditional produces the merged value
of a ternary through a fresh temporary. -/
def evalConditional (_c : Var) (_t _f : Nat) : EM Var := fun s =>
  (createVar ((blk s _t).expr.type)) s

/-- Modelled from the spec: eval_logical_and wires the short-circuit
branch targets (the right operand is reached only on the nonzero edge)
and produces a fresh 0/1 int result in a fresh merge block. -/
def evalLogicalAnd (left rightHead rightTail : Nat) : EM Nat := do
  let nxt ← cfgBlockInitM
  setJump0 left (some nxt)
  setJump1 left (some rightHead)
  setJump0 rightTail (some nxt)
  let t ← createVar basic_type__int
  setExprM nxt t
  pure nxt

/-- Modelled from the spec: eval_logical_or wires the short-circuit
branch targets (the right operand is reached only on the zero edge)
and produces a fresh 0/1 int result in a fresh merge block. -/
def evalLogicalOr (left rightHead rightTail : Nat) : EM Nat := do
  let nxt ← cfgBlockInitM
  setJump0 left (some rightHead)
  setJump1 left (some nxt)
  setJump0 rightTail (some nxt)
  let t ← createVar basic_type__int
  setExprM nxt t
  pure nxt

/-- Modelled from the spec: sym_lookup searches a namespace innermost
first. -/
def nsLookup (ns : NamespaceT) (name : String) : Option Nat :=
  (ns.entries.find? (fun e => e.1 = name)).map (fun e => e.2.1)

/-- Modelled from the spec: sym_add on a namespace value.  Redeclaring
a name at the depth it already has at the namespace's current depth
returns the existing symbol (file-scope symbols are process-lifetime
and tentative redeclarations merge); otherwise a fresh symbol is
recorded at the current depth. -/
def nsAdd (ns : NamespaceT) (syms : List Symb) (name : String) (ty : Typ)
    (symtype : Symtype) (linkage : Linkage) : Nat × NamespaceT × List Symb :=
  match ns.entries.find? (fun e => e.1 = name && e.2.2 == ns.currentDepth) with
  | some e => (e.2.1, ns, syms)
  | none =>
      let sym : Symb :=
        { name := name, type := ty, symtype := symtype, linkage := linkage,
          depth := ns.currentDepth, enum_value := 0, n := 0 }
      (syms.length, { ns with entries := (name, syms.length, ns.currentDepth) :: ns.entries },
       syms ++ [sym])

def symLookupIdent (name : String) : EM (Option Nat) := fun s =>
  .ok (nsLookup s.nsIdent name) s

def symLookupTag (name : String) : EM (Option Nat) := fun s =>
  .ok (nsLookup s.nsTag name) s

def symAddIdent (name : String) (ty : Typ) (symtype : Symtype) (linkage : Linkage) :
    EM Nat := fun s =>
  let (i, ns, syms) := nsAdd s.nsIdent s.syms name ty symtype linkage
  .ok i { s with nsIdent := ns, syms := syms }

def symAddTag (name : String) (ty : Typ) (symtype : Symtype) (linkage : Linkage) :
    EM Nat := fun s =>
  let (i, ns, syms) := nsAdd s.nsTag s.syms name ty symtype linkage
  .ok i { s with nsTag := ns, syms := syms }

def pushScopeIdent : EM Unit := modifyS (fun s => { s with nsIdent := pushScopeV s.nsIdent })

def popScopeIdent : EM Unit := modifyS (fun s => { s with nsIdent := popScopeV s.nsIdent })

def pushScopeTag : EM Unit := modifyS (fun s => { s with nsTag := pushScopeV s.nsTag })

def popScopeTag : EM Unit := modifyS (fun s => { s with nsTag := popScopeV s.nsTag })

/-- Modelled from the spec: cfg_init_current mints the head and body
blocks of a fresh per-declaration CFG. -/
def cfgInitCurrent : EM Unit := do
  let h ← cfgBlockInitM
  let b ← cfgBlockInitM
  modifyS (fun s => { s with cfgHead := h, cfgBody := b, cfgFun := none })

/-- Modelled from the spec: cfg_register_local; registration with the
CFG arena has no observable effect in this embedding. -/
def cfgRegisterLocal (_sym : Nat) : EM Unit := pure ()

/-- Modelled from the spec: cfg_register_param. -/
def cfgRegisterParam (_sym : Nat) : EM Unit := pure ()

/-- Convenience fuel-exhaustion action of the embedding. -/
def fuelOutM {α : Type} : EM α := fun _ => Res.fuelOut

/-- parse.c is_immediate_true: an integer immediate with nonzero value. -/
def is_immediate_true (e : Var) : Bool :=
  e.kind == .IMMEDIATE && isInteger e.type && e.imm != 0

/-- parse.c is_immediate_false: an integer immediate with value zero. -/
def is_immediate_false (e : Var) : Bool :=
  e.kind == .IMMEDIATE && isInteger e.type && e.imm == 0

/-- parse.c add_switch_case: append a (label, value) pair to the
innermost switch context. -/
def add_switch_case (label : Nat) (value : Var) : EM Unit :=
  modifyS (fun s =>
    match s.switchCtx with
    | some ctx =>
        let ctx2 :=
          { ctx with n := ctx.n + 1,
                     case_label := ctx.case_label ++ [label],
                     case_value := ctx.case_value ++ [value] }
        { s with switchCtx := some ctx2 }
    | none => s)

/-- parse.c get_basic_type_from_specifier: the fixed table mapping a
specifier bitmask to a canonical basic type; combinations outside the
table are a fatal error. -/
def get_basic_type_from_specifier (spec : Nat) : EM Typ :=
  if spec = 0x0001 then pure basic_type__void
  else if spec = 0x0002 ∨ spec = 0x0012 then pure basic_type__char
  else if spec = 0x0022 then pure basic_type__unsigned_char
  else if spec = 0x0004 ∨ spec = 0x0014 ∨ spec = 0x000C ∨ spec = 0x001C then
    pure basic_type__short
  else if spec = 0x0024 ∨ spec = 0x002C then pure basic_type__unsigned_short
  else if spec = 0x0008 ∨ spec = 0x0010 ∨ spec = 0x0018 then pure basic_type__int
  else if spec = 0x0020 ∨ spec = 0x0028 then pure basic_type__unsigned_int
  else if spec = 0x0040 ∨ spec = 0x0050 ∨ spec = 0x0048 ∨ spec = 0x0058
       ∨ spec = 0x00C0 ∨ spec = 0x00D0 ∨ spec = 0x00D8 then pure basic_type__long
  else if spec = 0x0060 ∨ spec = 0x0068 ∨ spec = 0x00E0 ∨ spec = 0x00E8 then
    pure basic_type__unsigned_long
  else if spec = 0x0100 then pure basic_type__float
  else if spec = 0x0200 ∨ spec = 0x0240 then pure basic_type__double
  else do
    errorM "Invalid type specification."
    exitOne

/-- The splice step of parse.c direct_declarator: the inner declarator
chain (pointer/array/function nodes only) has a null innermost next;
assigning through the retained tail pointer amounts to replacing that
innermost hole with the outer type. -/
def spliceTail : Typ → Typ → Typ
  | .mk k sz q none ms va, outer => .mk k sz q (some outer) ms va
  | .mk k sz q (some inner) ms va, outer => .mk k sz q (some (spliceTail inner outer)) ms va

/-- Apply the splice when an inner parenthesized declarator chain is
present. -/
def applySplice (hole : Option Typ) (suff : Option Typ) : Option Typ :=
  match hole, suff with
  | some chain, some s => some (spliceTail chain s)
  | some chain, none => some chain
  | none, s => s

/-- The comparison-chain loop of parse.c switch_statement: one fresh
block per collected case, testing EQ(case value, switch expression),
with jump[1] to the case label and the previous block (initially the
parent) falling through on jump[0]; returns the last chain block. -/
def switchWireLoop (e : Var) : List (Var × Nat) → Nat → EM Nat
  | [], condId => pure condId
  | (value, label) :: rest, condId => do
      let c ← cfgBlockInitM
      let r ← evalExprB c .IR_OP_EQ value e
      setExprM c r
      setJump1 c (some label)
      setJump0 condId (some c)
      switchWireLoop e rest c

/-- The chain-synthesis tail of parse.c switch_statement (the code
after the body has been parsed): no cases and no default wire the
parent directly to the post-switch block; otherwise the comparison
chain is built and its tail falls through to the default label when
one was declared, else to the post-switch block. -/
def switchWire (e : Var) (ctx : SwitchContext) (parent nxt : Nat) : EM Unit := do
  if ctx.n == 0 && ctx.default_label.isNone then
    setJump0 parent (some nxt)
  else do
    let cond ← switchWireLoop e (ctx.case_value.zip ctx.case_label) parent
    setJump0 cond (some (ctx.default_label.getD nxt))

/-- parse.c define_builtin__func__: define __func__ as a static string
constant assigned in the CFG head block. -/
def define_builtin__func__ (name : String) : EM Unit := do
  let str := var_string name
  let symId ← symAddIdent "__func__" str.type .SYM_DEFINITION .LINK_INTERN
  let s ← getS
  let _ ← evalAssign s.cfgHead (var_direct symId (symAt s symId)) str
  pure ()

/-- Modelled from the spec: sym_add into a caller-owned namespace value
(the fresh namespace of a member declaration list). -/
def symAddLocal (ns : NamespaceT) (name : String) (ty : Typ)
    (symtype : Symtype) (linkage : Linkage) : EM (Nat × NamespaceT) := fun s =>
  let (i, ns2, syms) := nsAdd ns s.syms name ty symtype linkage
  .ok (i, ns2) { s with syms := syms }

/-- The function record of the fuel-indexed interpreter.  Each field
is one function of parse.c; interpStep below holds the translated
bodies, and one fuel unit is consumed per call, so interp n behaves
as the mutually recursive source truncated at recursion depth n. -/
structure Interp : Type where
  zeroInitialize : Nat → Var → EM Unit
  zeroInitMembers : Nat → Var → Typ → Nat → EM Unit
  zeroInitElems : Nat → Var → Typ → Nat → EM Unit
  primary_expression : Nat → EM Nat
  postfix_expression : Nat → EM Nat
  postfixLoop : Nat → Var → EM Nat
  unary_expression : Nat → EM Nat
  cast_expression : Nat → EM Nat
  multiplicative_expression : Nat → EM Nat
  multiplicativeLoop : Nat → EM Nat
  additive_expression : Nat → EM Nat
  additiveLoop : Nat → EM Nat
  shift_expression : Nat → EM Nat
  shiftLoop : Nat → EM Nat
  relational_expression : Nat → EM Nat
  relationalLoop : Nat → EM Nat
  equality_expression : Nat → EM Nat
  equalityLoop : Nat → EM Nat
  and_expression : Nat → EM Nat
  andLoop : Nat → EM Nat
  exclusive_or_expression : Nat → EM Nat
  xorLoop : Nat → EM Nat
  inclusive_or_expression : Nat → EM Nat
  orLoop : Nat → EM Nat
  logical_and_expression : Nat → EM Nat
  logical_or_expression : Nat → EM Nat
  conditional_expression : Nat → EM Nat
  constant_expression : EM Var
  assignment_expression : Nat → EM Nat
  compoundAssign : Nat → Var → Tok → IrOp → EM Nat
  expression : Nat → EM Nat
  expressionCommaLoop : Nat → EM Nat
  if_statement : Nat → EM Nat
  do_statement : Nat → EM Nat
  while_statement : Nat → EM Nat
  for_statement : Nat → EM Nat
  switch_statement : Nat → EM Nat
  statement : Nat → EM Nat
  exprStatement : Nat → EM Nat
  block : Nat → EM Nat
  blockLoop : Nat → EM Nat
  parameter_list : Option Typ → EM Typ
  parameterLoop : Typ → EM Typ
  direct_declarator_array : Option Typ → EM (Option Typ)
  pointer : Option Typ → EM Typ
  pointerQualLoop : Typ → EM Typ
  declarator : Option Typ → Bool → EM (Option Typ × Option String)
  declPointerLoop : Option Typ → EM (Option Typ)
  direct_declarator : Option Typ → Bool → EM (Option Typ × Option String)
  directDeclSuffixLoop : Option Typ → Option Typ → Option Typ → Option String → EM (Option Typ × Option String)
  member_declaration_list : Typ → EM Typ
  memberDeclLoop : NamespaceT → Typ → EM (NamespaceT × Typ)
  memberDeclaratorLoop : NamespaceT → Typ → Typ → EM (NamespaceT × Typ)
  struct_or_union_declaration : EM (Option Typ)
  enumerator_list : EM Unit
  enumeratorLoop : Int → EM Unit
  enum_declaration : EM Typ
  dsAfter : Bool → Option Typ → Nat → Nat → Option Tok → EM (Option Typ × Nat × Nat × Option Tok)
  dsLoop : Bool → Option Typ → Nat → Nat → Option Tok → EM (Option Typ × Nat × Nat × Option Tok)
  dsSetSpecifier : Bool → Option Typ → Nat → Nat → Option Tok → Nat → EM (Option Typ × Nat × Nat × Option Tok)
  dsSetQualifier : Bool → Option Typ → Nat → Nat → Option Tok → Nat → EM (Option Typ × Nat × Nat × Option Tok)
  dsSetStorageClass : Bool → Option Typ → Nat → Nat → Option Tok → Tok → EM (Option Typ × Nat × Nat × Option Tok)
  declaration_specifiers : Bool → EM (Typ × Option Tok)
  declaration : Nat → EM Nat
  declarationLoop : Nat → Typ → Symtype → Linkage → EM Nat
  paramRegLoop : Nat → Nat → EM Unit
  initializer : Nat → Var → EM Nat
  object_initializer : Nat → Var → EM Nat
  structInitLoop : Nat → Var → Typ → Int → Nat → EM (Nat × Nat)
  structZeroTail : Nat → Var → Typ → Int → Nat → EM Unit
  arrayInitLoop : Nat → Var → Typ → Typ → Int → Nat → EM (Nat × Nat)
  arrayZeroTail : Nat → Var → Typ → Int → Nat → Nat → EM Unit
  parse : EM Int
  parseLoop : EM Int

/-- The fuel-exhausted interpreter. -/
def interpNone : Interp where
  zeroInitialize := fun _ _ => fuelOutM
  zeroInitMembers := fun _ _ _ _ => fuelOutM
  zeroInitElems := fun _ _ _ _ => fuelOutM
  primary_expression := fun _ => fuelOutM
  postfix_expression := fun _ => fuelOutM
  postfixLoop := fun _ _ => fuelOutM
  unary_expression := fun _ => fuelOutM
  cast_expression := fun _ => fuelOutM
  multiplicative_expression := fun _ => fuelOutM
  multiplicativeLoop := fun _ => fuelOutM
  additive_expression := fun _ => fuelOutM
  additiveLoop := fun _ => fuelOutM
  shift_expression := fun _ => fuelOutM
  shiftLoop := fun _ => fuelOutM
  relational_expression := fun _ => fuelOutM
  relationalLoop := fun _ => fuelOutM
  equality_expression := fun _ => fuelOutM
  equalityLoop := fun _ => fuelOutM
  and_expression := fun _ => fuelOutM
  andLoop := fun _ => fuelOutM
  exclusive_or_expression := fun _ => fuelOutM
  xorLoop := fun _ => fuelOutM
  inclusive_or_expression := fun _ => fuelOutM
  orLoop := fun _ => fuelOutM
  logical_and_expression := fun _ => fuelOutM
  logical_or_expression := fun _ => fuelOutM
  conditional_expression := fun _ => fuelOutM
  constant_expression := fuelOutM
  assignment_expression := fun _ => fuelOutM
  compoundAssign := fun _ _ _ _ => fuelOutM
  expression := fun _ => fuelOutM
  expressionCommaLoop := fun _ => fuelOutM
  if_statement := fun _ => fuelOutM
  do_statement := fun _ => fuelOutM
  while_statement := fun _ => fuelOutM
  for_statement := fun _ => fuelOutM
  switch_statement := fun _ => fuelOutM
  statement := fun _ => fuelOutM
  exprStatement := fun _ => fuelOutM
  block := fun _ => fuelOutM
  blockLoop := fun _ => fuelOutM
  parameter_list := fun _ => fuelOutM
  parameterLoop := fun _ => fuelOutM
  direct_declarator_array := fun _ => fuelOutM
  pointer := fun _ => fuelOutM
  pointerQualLoop := fun _ => fuelOutM
  declarator := fun _ _ => fuelOutM
  declPointerLoop := fun _ => fuelOutM
  direct_declarator := fun _ _ => fuelOutM
  directDeclSuffixLoop := fun _ _ _ _ => fuelOutM
  member_declaration_list := fun _ => fuelOutM
  memberDeclLoop := fun _ _ => fuelOutM
  memberDeclaratorLoop := fun _ _ _ => fuelOutM
  struct_or_union_declaration := fuelOutM
  enumerator_list := fuelOutM
  enumeratorLoop := fun _ => fuelOutM
  enum_declaration := fuelOutM
  dsAfter := fun _ _ _ _ _ => fuelOutM
  dsLoop := fun _ _ _ _ _ => fuelOutM
  dsSetSpecifier := fun _ _ _ _ _ _ => fuelOutM
  dsSetQualifier := fun _ _ _ _ _ _ => fuelOutM
  dsSetStorageClass := fun _ _ _ _ _ _ => fuelOutM
  declaration_specifiers := fun _ => fuelOutM
  declaration := fun _ => fuelOutM
  declarationLoop := fun _ _ _ _ => fuelOutM
  paramRegLoop := fun _ _ => fuelOutM
  initializer := fun _ _ => fuelOutM
  object_initializer := fun _ _ => fuelOutM
  structInitLoop := fun _ _ _ _ _ => fuelOutM
  structZeroTail := fun _ _ _ _ _ => fuelOutM
  arrayInitLoop := fun _ _ _ _ _ _ => fuelOutM
  arrayZeroTail := fun _ _ _ _ _ _ => fuelOutM
  parse := fuelOutM
  parseLoop := fuelOutM

/-- One recursion level of the interpreter: the bodies below are the
translations of the parse.c functions, with every (mutually)
recursive call going through the previous level prev. -/
def interpStep (prev : Interp) : Interp where
  /- parse.c zero_initialize: emit simple assignments setting the target
  to zero, recursing structurally through aggregate types. -/
  zeroInitialize := fun b target0 =>
    match target0.type.kind with
    | .T_STRUCT | .T_UNION => do
        let target := { target0 with type := unwrapped target0.type }
        prev.zeroInitMembers b target target.type 0
    | .T_ARRAY => do
        let elemTy := target0.type.next.getD basic_type__int
        prev.zeroInitElems b target0 elemTy 0
    | .T_POINTER => do
        let v0 := var_zero 8
        let v := { v0 with type := typeInitPointer (some basic_type__void) }
        let _ ← evalAssign b target0 v
        pure ()
    | .T_UNSIGNED | .T_SIGNED => do
        let _ ← evalAssign b target0 (var_zero target0.type.size)
        pure ()
    | _ => do
        errorM "Invalid type to zero-initialize."
        exitOne
  /- The struct/union member loop of zero_initialize. -/
  zeroInitMembers := fun b varT ty i =>
    if i < nmembersF ty then do
      let m := getMemberF ty i
      prev.zeroInitialize b
        { varT with type := m.2.1, offset := varT.offset + (m.2.2 : Int) }
      prev.zeroInitMembers b varT ty (i + 1)
    else pure ()
  /- The array element loop of zero_initialize. -/
  zeroInitElems := fun b varT elemTy i =>
    if i < varT.type.size / elemTy.size then do
      prev.zeroInitialize b
        { varT with type := elemTy,
                    offset := varT.offset + (i : Int) * (elemTy.size : Int) }
      prev.zeroInitElems b varT elemTy (i + 1)
    else pure ()
  /- parse.c primary_expression.  The va_start/va_arg builtin
  interception and floating constants are outside the embedded fragment;
  every other branch is translated directly. -/
  primary_expression := fun b => do
    let tok ← nextS
    match tok with
    | .IDENTIFIER nm => do
        let so ← symLookupIdent nm
        match so with
        | none => do
            errorM ("Undefined symbol " ++ nm ++ ".")
            exitOne
        | some si => do
            let s ← getS
            setExprM b (var_direct si (symAt s si))
            pure b
    | .INTEGER_CONSTANT v => do
        setExprM b (var_int v)
        pure b
    | .lpar => do
        let b ← prev.expression b
        let _ ← consume .rpar
        pure b
    | .STRING str => do
        setExprM b (var_string str)
        pure b
    | _ => do
        errorM "Unexpected token, not a valid primary expression."
        exitOne
  /- parse.c postfix_expression.  The index, call and member-access
  suffixes are outside the embedded fragment; the increment and
  decrement suffixes are translated directly. -/
  postfix_expression := fun b => do
    let b ← prev.primary_expression b
    let root ← getExpr b
    prev.postfixLoop b root
  /- The suffix loop of parse.c postfix_expression. -/
  postfixLoop := fun b root => do
    let t ← peekS
    match t with
    | .INCREMENT => do
        let _ ← consume .INCREMENT
        let copy ← createVar root.type
        let _ ← evalAssign b copy root
        let e ← evalExprB b .IR_OP_ADD root (var_int 1)
        let _ ← evalAssign b root e
        prev.postfixLoop b copy
    | .DECREMENT => do
        let _ ← consume .DECREMENT
        let copy ← createVar root.type
        let _ ← evalAssign b copy root
        let e ← evalExprB b .IR_OP_SUB root (var_int 1)
        let _ ← evalAssign b root e
        prev.postfixLoop b copy
    | _ => do
        setExprM b root
        pure b
  /- parse.c unary_expression. -/
  unary_expression := fun b => do
    let t ← peekS
    match t with
    | .amp => do
        let _ ← consume .amp
        let b ← prev.cast_expression b
        let e ← getExpr b
        let v ← evalAddr b e
        setExprM b v
        pure b
    | .star => do
        let _ ← consume .star
        let b ← prev.cast_expression b
        let e ← getExpr b
        let v ← evalDeref b e
        setExprM b v
        pure b
    | .bang => do
        let _ ← consume .bang
        let b ← prev.cast_expression b
        let e ← getExpr b
        let v ← evalExprB b .IR_OP_EQ (var_int 0) e
        setExprM b v
        pure b
    | .tilde => do
        let _ ← consume .tilde
        let b ← prev.cast_expression b
        let e ← getExpr b
        let v ← evalExprU b .IR_NOT e
        setExprM b v
        pure b
    | .plus => do
        let _ ← consume .plus
        let b ← prev.cast_expression b
        let e ← getExpr b
        setExprM b { e with lvalue := false }
        pure b
    | .minus => do
        let _ ← consume .minus
        let b ← prev.cast_expression b
        let e ← getExpr b
        let v ← evalExprB b .IR_OP_SUB (var_int 0) e
        setExprM b v
        pure b
    | .SIZEOF => do
        let head ← cfgBlockInitM
        let _ ← consume .SIZEOF
        let p ← peekS
        let ty ←
          if p == .lpar then do
            let p2 ← peekn2
            if p2.isTypeNameFirst then do
              let _ ← consume .lpar
              let (ty0, _) ← prev.declaration_specifiers false
              let p3 ← peekS
              let ty ←
                if p3 != .rpar then do
                  let (o, _) ← prev.declarator (some ty0) false
                  pure (o.getD ty0)
                else pure ty0
              let _ ← consume .rpar
              pure ty
            else do
              let tail ← prev.unary_expression head
              let e ← getExpr tail
              pure e.type
          else do
            let tail ← prev.unary_expression head
            let e ← getExpr tail
            pure e.type
        if isFunction ty then
          errorM "Cannot apply sizeof to function type."
        if size_of ty == 0 then
          errorM "Cannot apply sizeof to incomplete type."
        setExprM b (var_int (size_of ty))
        pure b
    | .INCREMENT => do
        let _ ← consume .INCREMENT
        let b ← prev.unary_expression b
        let value ← getExpr b
        let e ← evalExprB b .IR_OP_ADD value (var_int 1)
        setExprM b e
        let e2 ← getExpr b
        let v ← evalAssign b value e2
        setExprM b v
        pure b
    | .DECREMENT => do
        let _ ← consume .DECREMENT
        let b ← prev.unary_expression b
        let value ← getExpr b
        let e ← evalExprB b .IR_OP_SUB value (var_int 1)
        setExprM b e
        let e2 ← getExpr b
        let v ← evalAssign b value e2
        setExprM b v
        pure b
    | _ => prev.postfix_expression b
  /- parse.c cast_expression with its two-token lookahead; an identifier
  falls through to the cast branch exactly when it is currently bound as
  a typedef in ns_ident. -/
  cast_expression := fun b => do
    let t ← peekS
    if t == .lpar then do
      let t2 ← peekn2
      let isCast ←
        match t2 with
        | .IDENTIFIER nm => do
            let so ← symLookupIdent nm
            let s ← getS
            match so with
            | some si => pure ((symAt s si).symtype == Symtype.SYM_TYPEDEF)
            | none => pure false
        | _ => pure t2.isTypeNameFirst
      if isCast then do
        let _ ← consume .lpar
        let (ty0, _) ← prev.declaration_specifiers false
        let p ← peekS
        let ty ←
          if p != .rpar then do
            let (o, _) ← prev.declarator (some ty0) false
            pure (o.getD ty0)
          else pure ty0
        let _ ← consume .rpar
        let b ← prev.cast_expression b
        let e ← getExpr b
        let v ← evalCast b e ty
        setExprM b v
        pure b
      else prev.unary_expression b
    else prev.unary_expression b
  /- parse.c multiplicative_expression. -/
  multiplicative_expression := fun b => do
    let b ← prev.cast_expression b
    prev.multiplicativeLoop b
  multiplicativeLoop := fun b => do
    let value ← getExpr b
    let t ← peekS
    if t == .star then do
      let _ ← consume .star
      let b ← prev.cast_expression b
      let e ← getExpr b
      let v ← evalExprB b .IR_OP_MUL value e
      setExprM b v
      prev.multiplicativeLoop b
    else if t == .slash then do
      let _ ← consume .slash
      let b ← prev.cast_expression b
      let e ← getExpr b
      let v ← evalExprB b .IR_OP_DIV value e
      setExprM b v
      prev.multiplicativeLoop b
    else if t == .percent then do
      let _ ← consume .percent
      let b ← prev.cast_expression b
      let e ← getExpr b
      let v ← evalExprB b .IR_OP_MOD value e
      setExprM b v
      prev.multiplicativeLoop b
    else pure b
  /- parse.c additive_expression. -/
  additive_expression := fun b => do
    let b ← prev.multiplicative_expression b
    prev.additiveLoop b
  additiveLoop := fun b => do
    let value ← getExpr b
    let t ← peekS
    if t == .plus then do
      let _ ← consume .plus
      let b ← prev.multiplicative_expression b
      let e ← getExpr b
      let v ← evalExprB b .IR_OP_ADD value e
      setExprM b v
      prev.additiveLoop b
    else if t == .minus then do
      let _ ← consume .minus
      let b ← prev.multiplicative_expression b
      let e ← getExpr b
      let v ← evalExprB b .IR_OP_SUB value e
      setExprM b v
      prev.additiveLoop b
    else pure b
  /- parse.c shift_expression. -/
  shift_expression := fun b => do
    let b ← prev.additive_expression b
    prev.shiftLoop b
  shiftLoop := fun b => do
    let value ← getExpr b
    let t ← peekS
    if t == .LSHIFT then do
      let _ ← consume .LSHIFT
      let b ← prev.additive_expression b
      let e ← getExpr b
      let v ← evalExprB b .IR_OP_SHL value e
      setExprM b v
      prev.shiftLoop b
    else if t == .RSHIFT then do
      let _ ← consume .RSHIFT
      let b ← prev.additive_expression b
      let e ← getExpr b
      let v ← evalExprB b .IR_OP_SHR value e
      setExprM b v
      prev.shiftLoop b
    else pure b
  /- parse.c relational_expression: comparisons are normalized onto
  IR_OP_GT and IR_OP_GE with the operand order of the source. -/
  relational_expression := fun b => do
    let b ← prev.shift_expression b
    prev.relationalLoop b
  relationalLoop := fun b => do
    let value ← getExpr b
    let t ← peekS
    match t with
    | .ltTok => do
        let _ ← consume .ltTok
        let b ← prev.shift_expression b
        let e ← getExpr b
        let v ← evalExprB b .IR_OP_GT e value
        setExprM b v
        prev.relationalLoop b
    | .gtTok => do
        let _ ← consume .gtTok
        let b ← prev.shift_expression b
        let e ← getExpr b
        let v ← evalExprB b .IR_OP_GT value e
        setExprM b v
        prev.relationalLoop b
    | .LEQ => do
        let _ ← consume .LEQ
        let b ← prev.shift_expression b
        let e ← getExpr b
        let v ← evalExprB b .IR_OP_GE e value
        setExprM b v
        prev.relationalLoop b
    | .GEQ => do
        let _ ← consume .GEQ
        let b ← prev.shift_expression b
        let e ← getExpr b
        let v ← evalExprB b .IR_OP_GE value e
        setExprM b v
        prev.relationalLoop b
    | _ => pure b
  /- parse.c equality_expression: a != b is EQ(0, EQ(a, b)). -/
  equality_expression := fun b => do
    let b ← prev.relational_expression b
    prev.equalityLoop b
  equalityLoop := fun b => do
    let value ← getExpr b
    let t ← peekS
    if t == .EQ then do
      let _ ← consume .EQ
      let b ← prev.relational_expression b
      let e ← getExpr b
      let v ← evalExprB b .IR_OP_EQ value e
      setExprM b v
      prev.equalityLoop b
    else if t == .NEQ then do
      let _ ← consume .NEQ
      let b ← prev.relational_expression b
      let e ← getExpr b
      let inner ← evalExprB b .IR_OP_EQ value e
      let v ← evalExprB b .IR_OP_EQ (var_int 0) inner
      setExprM b v
      prev.equalityLoop b
    else pure b
  /- parse.c and_expression. -/
  and_expression := fun b => do
    let b ← prev.equality_expression b
    prev.andLoop b
  andLoop := fun b => do
    let t ← peekS
    if t == .amp then do
      let _ ← consume .amp
      let value ← getExpr b
      let b ← prev.equality_expression b
      let e ← getExpr b
      let v ← evalExprB b .IR_OP_AND value e
      setExprM b v
      prev.andLoop b
    else pure b
  /- parse.c exclusive_or_expression. -/
  exclusive_or_expression := fun b => do
    let b ← prev.and_expression b
    prev.xorLoop b
  xorLoop := fun b => do
    let t ← peekS
    if t == .caret then do
      let _ ← consume .caret
      let value ← getExpr b
      let b ← prev.and_expression b
      let e ← getExpr b
      let v ← evalExprB b .IR_OP_XOR value e
      setExprM b v
      prev.xorLoop b
    else pure b
  /- parse.c inclusive_or_expression. -/
  inclusive_or_expression := fun b => do
    let b ← prev.exclusive_or_expression b
    prev.orLoop b
  orLoop := fun b => do
    let t ← peekS
    if t == .pipe then do
      let _ ← consume .pipe
      let value ← getExpr b
      let b ← prev.exclusive_or_expression b
      let e ← getExpr b
      let v ← evalExprB b .IR_OP_OR value e
      setExprM b v
      prev.orLoop b
    else pure b
  /- parse.c logical_and_expression: the right operand is parsed into a
  freshly created block and the wiring is delegated to eval_logical_and. -/
  logical_and_expression := fun b => do
    let b ← prev.inclusive_or_expression b
    let t ← peekS
    if t == .LOGICAL_AND then do
      let _ ← consume .LOGICAL_AND
      let right ← cfgBlockInitM
      let rtail ← prev.logical_and_expression right
      evalLogicalAnd b right rtail
    else pure b
  /- parse.c logical_or_expression. -/
  logical_or_expression := fun b => do
    let b ← prev.logical_and_expression b
    let t ← peekS
    if t == .LOGICAL_OR then do
      let _ ← consume .LOGICAL_OR
      let right ← cfgBlockInitM
      let rtail ← prev.logical_or_expression right
      evalLogicalOr b right rtail
    else pure b
  /- parse.c conditional_expression: allocate t, f and next blocks, wire
  jump[0]=f and jump[1]=t on the condition block, route both branch
  tails into next. -/
  conditional_expression := fun b => do
    let b ← prev.logical_or_expression b
    let t ← peekS
    if t == .question then do
      let s ← getS
      let condition := (blk s b).expr
      let tB ← cfgBlockInitM
      let fB ← cfgBlockInitM
      let nB ← cfgBlockInitM
      let _ ← consume .question
      setJump0 b (some fB)
      setJump1 b (some tB)
      let tTail ← prev.expression tB
      setJump0 tTail (some nB)
      let _ ← consume .colon
      let fTail ← prev.conditional_expression fB
      setJump0 fTail (some nB)
      let v ← evalConditional condition tTail fTail
      setExprM nB v
      pure nB
    else pure b
  /- parse.c constant_expression: parse a conditional-expression into a
  fresh head block, require that the tail still is the head and that the
  result operand is IMMEDIATE. -/
  constant_expression := do
    let head ← cfgBlockInitM
    let tail ← prev.conditional_expression head
    let s ← getS
    if tail ≠ head ∨ (blk s tail).expr.kind ≠ VKind.IMMEDIATE then do
      errorM "Constant expression must be computable at compile time."
      exitOne
    else pure ((blk s tail).expr)
  /- parse.c assignment_expression: plain and compound assignments; the
  overall expression yields the assigned value. -/
  assignment_expression := fun b => do
    let b ← prev.conditional_expression b
    let target ← getExpr b
    let t ← peekS
    match t with
    | .assign => do
        let _ ← consume .assign
        let b ← prev.assignment_expression b
        let e ← getExpr b
        let v ← evalAssign b target e
        setExprM b v
        pure b
    | .MUL_ASSIGN => prev.compoundAssign b target .MUL_ASSIGN .IR_OP_MUL
    | .DIV_ASSIGN => prev.compoundAssign b target .DIV_ASSIGN .IR_OP_DIV
    | .MOD_ASSIGN => prev.compoundAssign b target .MOD_ASSIGN .IR_OP_MOD
    | .PLUS_ASSIGN => prev.compoundAssign b target .PLUS_ASSIGN .IR_OP_ADD
    | .MINUS_ASSIGN => prev.compoundAssign b target .MINUS_ASSIGN .IR_OP_SUB
    | .AND_ASSIGN => prev.compoundAssign b target .AND_ASSIGN .IR_OP_AND
    | .OR_ASSIGN => prev.compoundAssign b target .OR_ASSIGN .IR_OP_OR
    | .XOR_ASSIGN => prev.compoundAssign b target .XOR_ASSIGN .IR_OP_XOR
    | _ => pure b
  /- A compound-assignment arm of parse.c assignment_expression: compute
  the binary operation on (target, rhs), then assign into the target. -/
  compoundAssign := fun b target tk op => do
    let _ ← consume tk
    let b ← prev.assignment_expression b
    let e ← getExpr b
    let v ← evalExprB b op target e
    setExprM b v
    let e2 ← getExpr b
    let v2 ← evalAssign b target e2
    setExprM b v2
    pure b
  /- parse.c expression: the comma operator evaluates left, discards,
  and yields the right operand. -/
  expression := fun b => do
    let b ← prev.assignment_expression b
    prev.expressionCommaLoop b
  expressionCommaLoop := fun b => do
    let t ← peekS
    if t == .comma then do
      let _ ← consume .comma
      let b ← prev.assignment_expression b
      prev.expressionCommaLoop b
    else pure b
  /- parse.c if_statement: allocate the taken block and the join block,
  prune on integer-immediate conditions, and wire an optional else
  branch. -/
  if_statement := fun parent => do
    let right ← cfgBlockInitM
    let nxt ← cfgBlockInitM
    let _ ← consume .IF
    let _ ← consume .lpar
    let parent ← prev.expression parent
    let _ ← consume .rpar
    let s ← getS
    let e := (blk s parent).expr
    if is_immediate_true e then
      setJump0 parent (some right)
    else if is_immediate_false e then
      setJump0 parent (some nxt)
    else do
      setJump0 parent (some nxt)
      setJump1 parent (some right)
    let rightT ← prev.statement right
    setJump0 rightT (some nxt)
    let t ← peekS
    if t == .ELSE then do
      let left ← cfgBlockInitM
      let _ ← consume .ELSE
      setJump0 parent (some left)
      let leftT ← prev.statement left
      setJump0 leftT (some nxt)
      pure nxt
    else pure nxt
  /- parse.c do_statement. -/
  do_statement := fun parent => do
    let top ← cfgBlockInitM
    let cond ← cfgBlockInitM
    let nxt ← cfgBlockInitM
    let s0 ← getS
    let oldBreak := s0.breakTarget
    let oldContinue := s0.continueTarget
    modifyS (fun s => { s with breakTarget := some nxt, continueTarget := some cond })
    setJump0 parent (some top)
    let _ ← consume .DO
    let body ← prev.statement top
    setJump0 body (some cond)
    let _ ← consume .WHILE
    let _ ← consume .lpar
    let tail ← prev.expression cond
    let _ ← consume .rpar
    let s1 ← getS
    let e := (blk s1 tail).expr
    if is_immediate_true e then
      setJump0 tail (some top)
    else if is_immediate_false e then
      setJump0 tail (some nxt)
    else do
      setJump0 tail (some nxt)
      setJump1 tail (some top)
    modifyS (fun s => { s with breakTarget := oldBreak, continueTarget := oldContinue })
    pure nxt
  /- parse.c while_statement. -/
  while_statement := fun parent => do
    let top ← cfgBlockInitM
    let body ← cfgBlockInitM
    let nxt ← cfgBlockInitM
    let s0 ← getS
    let oldBreak := s0.breakTarget
    let oldContinue := s0.continueTarget
    modifyS (fun s => { s with breakTarget := some nxt, continueTarget := some top })
    setJump0 parent (some top)
    let _ ← consume .WHILE
    let _ ← consume .lpar
    let cond ← prev.expression top
    let _ ← consume .rpar
    let s1 ← getS
    let e := (blk s1 cond).expr
    if is_immediate_true e then
      setJump0 cond (some body)
    else if is_immediate_false e then
      setJump0 cond (some nxt)
    else do
      setJump0 cond (some nxt)
      setJump1 cond (some body)
    let bodyT ← prev.statement body
    setJump0 bodyT (some top)
    modifyS (fun s => { s with breakTarget := oldBreak, continueTarget := oldContinue })
    pure nxt
  /- parse.c for_statement. -/
  for_statement := fun parent => do
    let top ← cfgBlockInitM
    let body ← cfgBlockInitM
    let increment ← cfgBlockInitM
    let nxt ← cfgBlockInitM
    let s0 ← getS
    let oldBreak := s0.breakTarget
    let oldContinue := s0.continueTarget
    modifyS (fun s => { s with breakTarget := some nxt, continueTarget := some increment })
    let _ ← consume .FOR
    let _ ← consume .lpar
    let t1 ← peekS
    let parent ←
      if t1 != .semi then prev.expression parent
      else pure parent
    let _ ← consume .semi
    let t2 ← peekS
    let top ←
      if t2 != .semi then do
        setJump0 parent (some top)
        let topTail ← prev.expression top
        let s1 ← getS
        let e := (blk s1 topTail).expr
        if is_immediate_true e then
          setJump0 topTail (some body)
        else if is_immediate_false e then
          setJump0 topTail (some nxt)
        else do
          setJump0 topTail (some nxt)
          setJump1 topTail (some body)
        let s2 ← getS
        pure ((blk s2 parent).jump0.getD top)
      else do
        setJump0 parent (some body)
        pure body
    let _ ← consume .semi
    let t3 ← peekS
    if t3 != .rpar then do
      let incrTail ← prev.expression increment
      setJump0 incrTail (some top)
    let _ ← consume .rpar
    let bodyT ← prev.statement body
    setJump0 bodyT (some increment)
    modifyS (fun s => { s with breakTarget := oldBreak, continueTarget := oldContinue })
    pure nxt
  /- parse.c switch_statement: evaluate the controlling expression in
  the parent, parse the body with a fresh switch context, then
  synthesize the comparison chain after the parent. -/
  switch_statement := fun parent => do
    let body ← cfgBlockInitM
    let nxt ← cfgBlockInitM
    let s0 ← getS
    let oldBreak := s0.breakTarget
    let oldCtx := s0.switchCtx
    modifyS (fun s => { s with breakTarget := some nxt, switchCtx := some SwitchContext.empty })
    let _ ← consume .SWITCH
    let _ ← consume .lpar
    let parent ← prev.expression parent
    let _ ← consume .rpar
    let last ← prev.statement body
    setJump0 last (some nxt)
    let s1 ← getS
    let ctx := s1.switchCtx.getD SwitchContext.empty
    switchWire ((blk s1 parent).expr) ctx parent nxt
    modifyS (fun s => { s with breakTarget := oldBreak, switchCtx := oldCtx })
    pure nxt
  /- parse.c statement: the statement-leader dispatch. -/
  statement := fun parent => do
    let tok ← peekS
    match tok with
    | .semi => do
        let _ ← consume .semi
        pure parent
    | .lbrace => prev.block parent
    | .IF => prev.if_statement parent
    | .DO => prev.do_statement parent
    | .WHILE => prev.while_statement parent
    | .FOR => prev.for_statement parent
    | .GOTO => do
        let _ ← consume .GOTO
        let _ ← consume (.IDENTIFIER "")
        let _ ← consume .semi
        pure parent
    | .CONTINUE => do
        let _ ← nextS
        modifyS (fun s => updBlock s parent (fun bl => { bl with jump0 := s.continueTarget }))
        let _ ← consume .semi
        cfgBlockInitM
    | .BREAK => do
        let _ ← nextS
        modifyS (fun s => updBlock s parent (fun bl => { bl with jump0 := s.breakTarget }))
        let _ ← consume .semi
        cfgBlockInitM
    | .RETURN => do
        let _ ← consume .RETURN
        let s ← getS
        let retTy :=
          match s.cfgFun with
          | some f => (symAt s f).type.next.getD basic_type__void
          | none => basic_type__void
        let _ ←
          if !(isVoid retTy) then do
            let parent ← prev.expression parent
            let v ← evalReturn parent retTy
            setExprM parent v
            pure parent
          else pure parent
        let _ ← consume .semi
        cfgBlockInitM
    | .SWITCH => prev.switch_statement parent
    | .CASE => do
        let _ ← consume .CASE
        let s ← getS
        match s.switchCtx with
        | none => do
            errorM "Stray case label, must be inside a switch statement."
            pure parent
        | some _ => do
            let nxt ← cfgBlockInitM
            let e ← prev.constant_expression
            let _ ← consume .colon
            add_switch_case nxt e
            setJump0 parent (some nxt)
            prev.statement nxt
    | .DEFAULT => do
        let _ ← consume .DEFAULT
        let _ ← consume .colon
        let s ← getS
        match s.switchCtx with
        | none => do
            errorM "Stray default label, must be inside a switch statement."
            pure parent
        | some ctx =>
            if ctx.default_label.isSome then do
              errorM "Multiple default labels inside the same switch."
              pure parent
            else do
              let nxt ← cfgBlockInitM
              setJump0 parent (some nxt)
              modifyS (fun s2 =>
                match s2.switchCtx with
                | some c => { s2 with switchCtx := some { c with default_label := some nxt } }
                | none => s2)
              prev.statement nxt
    | .IDENTIFIER nm => do
        let so ← symLookupIdent nm
        let s ← getS
        match so with
        | some si =>
            if (symAt s si).symtype == Symtype.SYM_TYPEDEF then
              prev.declaration parent
            else prev.exprStatement parent
        | none => prev.exprStatement parent
    | .INTEGER_CONSTANT _ => prev.exprStatement parent
    | .STRING _ => prev.exprStatement parent
    | .star => prev.exprStatement parent
    | .lpar => prev.exprStatement parent
    | _ => prev.declaration parent
  /- An expression statement: parse expression, consume the semicolon. -/
  exprStatement := fun parent => do
    let parent ← prev.expression parent
    let _ ← consume .semi
    pure parent
  /- parse.c block (compound statement): push both namespaces, parse
  declarations and statements until the closing brace, pop both. -/
  block := fun parent => do
    let _ ← consume .lbrace
    pushScopeIdent
    pushScopeTag
    let parent ← prev.blockLoop parent
    let _ ← consume .rbrace
    popScopeTag
    popScopeIdent
    pure parent
  blockLoop := fun parent => do
    let t ← peekS
    if t == .rbrace then pure parent
    else do
      let parent ← prev.statement parent
      prev.blockLoop parent
  /- parse.c parameter_list: build a function type from base, appending
  one member per parameter; (void) yields an empty parameter list and a
  trailing ", ..." sets the vararg flag. -/
  parameter_list := fun base => prev.parameterLoop (typeInitFunction base)
  parameterLoop := fun func => do
    let t ← peekS
    if t == .rpar then pure func
    else do
      let (ty, _) ← prev.declaration_specifiers false
      let (o, name) ← prev.declarator (some ty) true
      let ty := o.getD ty
      if isVoid ty then do
        if nmembersF func != 0 then
          errorM "Incomplete type in parameter list."
        pure func
      else do
        let func := typeAddMember func name ty
        let t2 ← peekS
        if t2 != .comma then pure func
        else do
          let _ ← consume .comma
          let t3 ← peekS
          if t3 == .rpar then do
            errorM "Unexpected trailing comma in parameter list."
            exitOne
          else if t3 == .DOTS then do
            let _ ← consume .DOTS
            pure (typeSetVararg func)
          else prev.parameterLoop func
  /- parse.c direct_declarator_array: parse [s0][s1]..[sn]; only the
  first dimension may be empty, and the element type must be complete. -/
  direct_declarator_array := fun base => do
    let t ← peekS
    if t == .lbrack then do
      let _ ← consume .lbrack
      let t2 ← peekS
      let length ←
        if t2 == .rbrack then pure (0 : Nat)
        else do
          let e ← prev.constant_expression
          if !(isInteger e.type) || e.imm < 1 then do
            errorM "Array dimension must be a natural number."
            exitOne
          else pure e.imm.toNat
      let _ ← consume .rbrack
      let base ← prev.direct_declarator_array base
      if (match base with | some bb => size_of bb | none => 0) == 0 then do
        errorM "Array has incomplete element type."
        exitOne
      else pure (some (typeInitArray base length))
    else pure base
  /- parse.c pointer: one pointer level with its qualifier list. -/
  pointer := fun base => do
    let _ ← consume .star
    prev.pointerQualLoop (typeInitPointer base)
  pointerQualLoop := fun ty => do
    let t ← peekS
    if t == .CONST then do
      if (ty.qualifier &&& Q_CONST) != 0 then
        errorM "Duplicate type qualifier."
      let ty := ty.withQualifier (ty.qualifier ||| Q_CONST)
      let _ ← nextS
      prev.pointerQualLoop ty
    else if t == .VOLATILE then do
      if (ty.qualifier &&& Q_VOLATILE) != 0 then
        errorM "Duplicate type qualifier."
      let ty := ty.withQualifier (ty.qualifier ||| Q_VOLATILE)
      let _ ← nextS
      prev.pointerQualLoop ty
    else pure ty
  /- parse.c declarator: pointer levels followed by a direct
  declarator.  The returned name is the declared symbol (when the
  context provides a symbol slot). -/
  declarator := fun base wantSymbol => do
    let base ← prev.declPointerLoop base
    prev.direct_declarator base wantSymbol
  declPointerLoop := fun base => do
    let t ← peekS
    if t == .star then do
      let ty ← prev.pointer base
      prev.declPointerLoop (some ty)
    else pure base
  /- parse.c direct_declarator: an identifier, a parenthesized inner
  declarator (spliced onto the outer type afterwards), and the suffix
  loop for array and function declarators. -/
  direct_declarator := fun base wantSymbol => do
    let t ← peekS
    match t with
    | .IDENTIFIER _ => do
        let _ ← consume (.IDENTIFIER "")
        if !wantSymbol then do
          errorM "Unexpected identifier in abstract declarator."
          exitOne
        else
          match t with
          | .IDENTIFIER nm => prev.directDeclSuffixLoop base none base (some nm)
          | _ => prev.directDeclSuffixLoop base none base none
    | .lpar => do
        let _ ← consume .lpar
        let (inner, nm) ← prev.declarator none wantSymbol
        let _ ← consume .rpar
        prev.directDeclSuffixLoop (inner <|> base) inner (inner <|> base) nm
    | _ => prev.directDeclSuffixLoop base none base none
  /- The suffix loop of parse.c direct_declarator: each suffix is built
  on the base and, when an inner chain exists, spliced into its hole;
  the result becomes the base of the following suffix. -/
  directDeclSuffixLoop := fun base hole ty nm => do
    let t ← peekS
    if t == .lbrack then do
      let suff ← prev.direct_declarator_array base
      let newTy := applySplice hole suff
      prev.directDeclSuffixLoop newTy hole newTy nm
    else if t == .lpar then do
      let _ ← consume .lpar
      let suff ← prev.parameter_list base
      let _ ← consume .rpar
      let newTy := applySplice hole (some suff)
      prev.directDeclSuffixLoop newTy hole newTy nm
    else pure (ty, nm)
  /- parse.c member_declaration_list: members are declared in a fresh
  namespace scoped to the list; each member is added to the aggregate
  type being completed. -/
  member_declaration_list := fun ty => do
    let ns := pushScopeV NamespaceT.empty
    let (ns2, ty) ← prev.memberDeclLoop ns ty
    let _ := popScopeV ns2
    pure ty
  memberDeclLoop := fun ns ty => do
    let (declBase, _) ← prev.declaration_specifiers false
    let (ns, ty) ← prev.memberDeclaratorLoop ns ty declBase
    let _ ← consume .semi
    let t ← peekS
    if t == .rbrace then pure (ns, ty)
    else prev.memberDeclLoop ns ty
  memberDeclaratorLoop := fun ns ty declBase => do
    let (o, name) ← prev.declarator (some declBase) true
    let declType := o.getD declBase
    match name with
    | none => do
        errorM "Missing name in member declarator."
        exitOne
    | some nm =>
        if size_of declType == 0 then do
          errorM "Field has incomplete type."
          exitOne
        else do
          let (_, ns) ← symAddLocal ns nm declType .SYM_DECLARATION .LINK_NONE
          let ty := typeAddMember ty (some nm) declType
          let t ← peekS
          if t == .comma then do
            let _ ← consume .comma
            prev.memberDeclaratorLoop ns ty declBase
          else do
            let t2 ← peekS
            if t2 != .semi then prev.memberDeclaratorLoop ns ty declBase
            else pure (ns, ty)
  /- parse.c struct_or_union_declaration: tag lookup and registration in
  ns_tag, kind and redefinition checks, and in-place completion of the
  tag's type from the member list (written back to the tag symbol). -/
  struct_or_union_declaration := do
    let tk ← nextS
    let kind := if tk == .STRUCT then TKind.T_STRUCT else TKind.T_UNION
    let t ← peekS
    match t with
    | .IDENTIFIER nm => do
        let _ ← consume (.IDENTIFIER "")
        let so ← symLookupTag nm
        let symId ←
          match so with
          | none => symAddTag nm (typeInitAggregate kind) .SYM_TYPEDEF .LINK_NONE
          | some si => do
              let s ← getS
              if isInteger (symAt s si).type then do
                errorM ("Tag " ++ nm ++ " was previously declared as enum.")
                exitOne
              else if (symAt s si).type.kind ≠ kind then do
                errorM ("Tag " ++ nm ++ " was previously declared as another aggregate kind.")
                exitOne
              else pure si
        let s ← getS
        let ty := (symAt s symId).type
        let t2 ← peekS
        if t2 == .lbrace && ty.size != 0 then do
          errorM ("Redefiniton of " ++ nm ++ ".")
          exitOne
        else if t2 == .lbrace then do
          let _ ← consume .lbrace
          let ty2 ← prev.member_declaration_list ty
          updSymM symId (fun sy => { sy with type := ty2 })
          let _ ← consume .rbrace
          let s2 ← getS
          pure (some ((symAt s2 symId).type))
        else pure (some ty)
    | _ => do
        let t2 ← peekS
        if t2 == .lbrace then do
          let _ ← consume .lbrace
          let ty ← prev.member_declaration_list (typeInitAggregate kind)
          let _ ← consume .rbrace
          pure (some ty)
        else pure none
  /- parse.c enumerator_list. -/
  enumerator_list := do
    let _ ← consume .lbrace
    prev.enumeratorLoop 0
    let _ ← consume .rbrace
    pure ()
  enumeratorLoop := fun ev => do
    let nameTok ← consume (.IDENTIFIER "")
    let nm := match nameTok with | .IDENTIFIER s => s | _ => ""
    let t ← peekS
    let ev ←
      if t == .assign then do
        let _ ← consume .assign
        let val ← prev.constant_expression
        if !(isInteger val.type) then
          errorM "Implicit conversion from non-integer type in enum."
        pure val.imm
      else pure ev
    let symId ← symAddIdent nm basic_type__int .SYM_ENUM_VALUE .LINK_NONE
    updSymM symId (fun sy => { sy with enum_value := ev })
    let t2 ← peekS
    if t2 != .comma then pure ()
    else do
      let _ ← consume .comma
      let t3 ← peekS
      if t3 == .rbrace then pure ()
      else prev.enumeratorLoop (ev + 1)
  /- parse.c enum_declaration: enums are always signed 32-bit; the tag
  is stored in ns_tag with a sentinel enum_value detecting
  redefinition. -/
  enum_declaration := do
    let ty := typeInitSigned 4
    let _ ← consume .ENUM
    let t ← peekS
    match t with
    | .IDENTIFIER nm => do
        let _ ← consume (.IDENTIFIER "")
        let so ← symLookupTag nm
        let tagId ←
          match so with
          | none => symAddTag nm ty .SYM_TYPEDEF .LINK_NONE
          | some si => do
              let s ← getS
              if (symAt s si).depth < s.nsTag.currentDepth then
                symAddTag nm ty .SYM_TYPEDEF .LINK_NONE
              else if !(isInteger (symAt s si).type) then do
                errorM ("Tag " ++ nm ++ " was previously defined as aggregate type.")
                exitOne
              else pure si
        let t2 ← peekS
        if t2 == .lbrace then do
          let s2 ← getS
          if (symAt s2 tagId).enum_value != 0 then
            errorM ("Redefiniton of enum " ++ nm ++ ".")
          prev.enumerator_list
          updSymM tagId (fun sy => { sy with enum_value := 1 })
          pure ty
        else pure ty
    | _ => do
        prev.enumerator_list
        pure ty
  /- One continuing step of the declaration-specifier loop: the source
  checks after every iteration that a tag/typedef type and a basic
  specifier mask are not combined. -/
  dsAfter := fun hasStc typeOpt spec qual stc =>
    if typeOpt.isSome && spec != 0 then do
      errorM "Invalid combination of declaration specifiers."
      exitOne
    else prev.dsLoop hasStc typeOpt spec qual stc
  /- The token loop of parse.c declaration_specifiers, accumulating the
  specifier bitmask, the qualifier bits and at most one storage class. -/
  dsLoop := fun hasStc typeOpt spec qual stc => do
    let tok ← peekS
    match tok with
    | .VOID => prev.dsSetSpecifier hasStc typeOpt spec qual stc 0x001
    | .CHAR => prev.dsSetSpecifier hasStc typeOpt spec qual stc 0x002
    | .SHORT => prev.dsSetSpecifier hasStc typeOpt spec qual stc 0x004
    | .INTKW => prev.dsSetSpecifier hasStc typeOpt spec qual stc 0x008
    | .SIGNED => prev.dsSetSpecifier hasStc typeOpt spec qual stc 0x010
    | .UNSIGNED => prev.dsSetSpecifier hasStc typeOpt spec qual stc 0x020
    | .LONG =>
        if (spec &&& 0x040) != 0 then
          prev.dsSetSpecifier hasStc typeOpt spec qual stc 0x080
        else
          prev.dsSetSpecifier hasStc typeOpt spec qual stc 0x040
    | .FLOATKW => prev.dsSetSpecifier hasStc typeOpt spec qual stc 0x100
    | .DOUBLEKW => prev.dsSetSpecifier hasStc typeOpt spec qual stc 0x200
    | .CONST => prev.dsSetQualifier hasStc typeOpt spec qual stc Q_CONST
    | .VOLATILE => prev.dsSetQualifier hasStc typeOpt spec qual stc Q_VOLATILE
    | .IDENTIFIER nm => do
        let so ← symLookupIdent nm
        let s ← getS
        match so with
        | some si =>
            if (symAt s si).symtype == Symtype.SYM_TYPEDEF && typeOpt.isNone then do
              let _ ← consume (.IDENTIFIER "")
              prev.dsAfter hasStc (some ((symAt s si).type)) spec qual stc
            else pure (typeOpt, spec, qual, stc)
        | none => pure (typeOpt, spec, qual, stc)
    | .UNION =>
        if typeOpt.isNone then do
          let ty ← prev.struct_or_union_declaration
          prev.dsAfter hasStc ty spec qual stc
        else pure (typeOpt, spec, qual, stc)
    | .STRUCT =>
        if typeOpt.isNone then do
          let ty ← prev.struct_or_union_declaration
          prev.dsAfter hasStc ty spec qual stc
        else pure (typeOpt, spec, qual, stc)
    | .ENUM =>
        if typeOpt.isNone then do
          let ty ← prev.enum_declaration
          prev.dsAfter hasStc (some ty) spec qual stc
        else pure (typeOpt, spec, qual, stc)
    | .AUTO => prev.dsSetStorageClass hasStc typeOpt spec qual stc .AUTO
    | .REGISTER => prev.dsSetStorageClass hasStc typeOpt spec qual stc .REGISTER
    | .STATIC => prev.dsSetStorageClass hasStc typeOpt spec qual stc .STATIC
    | .EXTERNKW => prev.dsSetStorageClass hasStc typeOpt spec qual stc .EXTERNKW
    | .TYPEDEFKW => prev.dsSetStorageClass hasStc typeOpt spec qual stc .TYPEDEFKW
    | _ => pure (typeOpt, spec, qual, stc)
  /- The set_specifier macro of parse.c: duplicate bits are diagnosed
  (without exiting) and the bit is or-ed in. -/
  dsSetSpecifier := fun hasStc typeOpt spec qual stc d => do
    if (spec &&& d) != 0 then
      errorM "Duplicate type specifier."
    let _ ← nextS
    prev.dsAfter hasStc typeOpt (spec ||| d) qual stc
  /- The set_qualifier macro of parse.c: duplicate qualifiers are
  diagnosed (without exiting) and the bit is or-ed in. -/
  dsSetQualifier := fun hasStc typeOpt spec qual stc d => do
    if (qual &&& d) != 0 then
      errorM "Duplicate type qualifier."
    let _ ← nextS
    prev.dsAfter hasStc typeOpt spec (qual ||| d) stc
  /- The set_storage_class macro of parse.c: at most one storage class,
  and none at all in specifier-qualifier-list contexts. -/
  dsSetStorageClass := fun hasStc typeOpt spec qual stc tokv => do
    if !hasStc then
      errorM "Unexpected storage class in qualifier list."
    else if stc.isSome then
      errorM "Multiple storage class specifiers."
    let _ ← nextS
    prev.dsAfter hasStc typeOpt spec qual (if hasStc then some tokv else stc)
  /- parse.c declaration_specifiers: run the token loop, then map the
  accumulated state to a type; at least one type specifier is required. -/
  declaration_specifiers := fun hasStc => do
    let (typeOpt, spec, qual, stc) ← prev.dsLoop hasStc none 0 0 none
    match typeOpt with
    | some ty => do
        if (qual &&& ty.qualifier) != 0 then
          errorM "Duplicate type qualifier."
        pure (ty.withQualifier (ty.qualifier ||| qual), stc)
    | none =>
        if spec != 0 then do
          let ty ← get_basic_type_from_specifier spec
          pure (ty.withQualifier (ty.qualifier ||| qual), stc)
        else do
          errorM "Missing type specifier."
          exitOne
  /- parse.c declaration: parse specifiers, decide (symtype, linkage)
  from the storage class and scope depth, then handle each declarator. -/
  declaration := fun parent => do
    let (base, stc) ← prev.declaration_specifiers true
    let s ← getS
    let sl :=
      match stc with
      | some Tok.EXTERNKW => (Symtype.SYM_DECLARATION, Linkage.LINK_EXTERN)
      | some Tok.STATIC => (Symtype.SYM_TENTATIVE, Linkage.LINK_INTERN)
      | some Tok.TYPEDEFKW => (Symtype.SYM_TYPEDEF, Linkage.LINK_NONE)
      | _ =>
          if s.nsIdent.currentDepth == 0 then
            (Symtype.SYM_TENTATIVE, Linkage.LINK_EXTERN)
          else
            (Symtype.SYM_DEFINITION, Linkage.LINK_NONE)
    prev.declarationLoop parent base sl.1 sl.2
  /- The declarator loop of parse.c declaration: register each symbol,
  then dispatch on the following token between pure declaration,
  initializer and function definition. -/
  declarationLoop := fun parent base symtype linkage => do
    let (o, nameOpt) ← prev.declarator (some base) true
    match nameOpt with
    | none => do
        let _ ← consume .semi
        pure parent
    | some name => do
        let ty := o.getD base
        let symId ← symAddIdent name ty symtype linkage
        let s ← getS
        if s.nsIdent.currentDepth != 0 then
          cfgRegisterLocal symId
        let t ← peekS
        match t with
        | .semi => do
            let _ ← consume .semi
            pure parent
        | .assign => do
            let s1 ← getS
            if (symAt s1 symId).symtype == Symtype.SYM_DECLARATION then do
              errorM ("Extern symbol " ++ name ++ " cannot be initialized.")
              exitOne
            else if (symAt s1 symId).depth == 0
                && (symAt s1 symId).symtype == Symtype.SYM_DEFINITION then do
              errorM ("Symbol " ++ name ++ " was already defined.")
              exitOne
            else do
              let _ ← consume .assign
              updSymM symId (fun sy => { sy with symtype := .SYM_DEFINITION })
              let s2 ← getS
              let parent ←
                if (symAt s2 symId).depth == 0 || (symAt s2 symId).n != 0 then do
                  let h ← prev.initializer s2.cfgHead (var_direct symId (symAt s2 symId))
                  modifyS (fun s3 => { s3 with cfgHead := h })
                  pure parent
                else prev.initializer parent (var_direct symId (symAt s2 symId))
              let t2 ← peekS
              if t2 != .comma then do
                let _ ← consume .semi
                pure parent
              else do
                let _ ← consume .comma
                prev.declarationLoop parent base symtype linkage
        | .lbrace => do
            let s1 ← getS
            if !(isFunction ((symAt s1 symId).type)) || (symAt s1 symId).depth != 0 then do
              errorM "Invalid function definition."
              exitOne
            else do
              updSymM symId (fun sy => { sy with symtype := .SYM_DEFINITION })
              modifyS (fun s2 => { s2 with cfgFun := some symId })
              pushScopeIdent
              define_builtin__func__ name
              prev.paramRegLoop symId 0
              let parent ← prev.block parent
              popScopeIdent
              pure parent
        | _ => do
            let _ ← consume .comma
            prev.declarationLoop parent base symtype linkage
  /- The parameter-registration loop of the function-definition arm of
  parse.c declaration: each named parameter is added to ns_ident. -/
  paramRegLoop := fun symId i => do
    let s ← getS
    if i < nmembersF ((symAt s symId).type) then do
      let m := getMemberF ((symAt s symId).type) i
      match m.1 with
      | none => do
          errorM "Missing parameter name."
          exitOne
      | some nm => do
          let pid ← symAddIdent nm m.2.1 .SYM_DEFINITION .LINK_NONE
          cfgRegisterParam pid
          prev.paramRegLoop symId (i + 1)
    else pure ()
  /- parse.c initializer: a brace form enters object_initializer;
  otherwise an assignment expression is evaluated and assigned, with the
  file-scope immediate requirement and completion of an incomplete
  char[] from a string literal. -/
  initializer := fun b target0 => do
    let target := { target0 with type := unwrapped target0.type }
    let t ← peekS
    if t == .lbrace then prev.object_initializer b target
    else do
      let b ← prev.assignment_expression b
      let e ← getExpr b
      let s ← getS
      let symDepth :=
        match target.symbol with
        | some si => (symAt s si).depth
        | none => 0
      if symDepth == 0 && e.kind != VKind.IMMEDIATE then do
        errorM "Initializer must be computable at load time."
        exitOne
      else do
        let target ←
          if target.kind == VKind.DIRECT && target.type.size == 0 then do
            match target.symbol with
            | some si => do
                updSymM si (fun sy => { sy with type := sy.type.withSize e.type.size })
                pure { target with type := e.type }
            | none => pure target
          else pure target
        let _ ← evalAssign b target e
        pure b
  /- parse.c object_initializer: brace-enclosed initializers for union,
  struct and array targets, with zero-fill of unmentioned members and
  completion of an incomplete array from the element count. -/
  object_initializer := fun b target0 => do
    let filled := target0.offset
    let ty := target0.type
    let _ ← consume .lbrace
    let target := { target0 with lvalue := true }
    let b ←
      match ty.kind with
      | .T_UNION => do
          let m0 := getMemberF ty 0
          let b ←
            if size_of m0.2.1 < ty.size then do
              let zt :=
                { target with type :=
                    if ty.size % 8 != 0 then typeInitArray (some basic_type__char) ty.size
                    else typeInitArray (some basic_type__long) (ty.size / 8) }
              prev.zeroInitialize b zt
              pure b
            else pure b
          let b ← prev.initializer b { target with type := m0.2.1 }
          let t ← peekS
          if t != .rbrace then do
            errorM "Excess elements in union initializer."
            exitOne
          else pure b
      | .T_STRUCT => do
          let bi ← prev.structInitLoop b target ty filled 0
          prev.structZeroTail bi.1 target ty filled (bi.2 + 1)
          pure bi.1
      | .T_ARRAY => do
          let elemTy := ty.next.getD basic_type__int
          let bi ← prev.arrayInitLoop b target ty elemTy filled 0
          if ty.size == 0 then do
            match target.symbol with
            | some si =>
                updSymM si (fun sy =>
                  { sy with type := sy.type.withSize ((bi.2 + 1) * size_of elemTy) })
            | none => pure ()
            pure bi.1
          else do
            prev.arrayZeroTail bi.1 target elemTy filled (ty.size / size_of elemTy) (bi.2 + 1)
            pure bi.1
      | _ => do
          errorM "Block initializer only apply to aggregate or union type."
          exitOne
    let _ ← consume .rbrace
    pure b
  /- The member loop of the struct arm of parse.c object_initializer;
  returns the block and the loop counter at exit. -/
  structInitLoop := fun b target ty filled i =>
    if i < nmembersF ty then do
      let m := getMemberF ty i
      let b ← prev.initializer b
        { target with type := m.2.1, offset := filled + (m.2.2 : Int) }
      let t ← peekS
      if t == .comma then do
        let _ ← consume .comma
        let t2 ← peekS
        if t2 == .rbrace then pure (b, i)
        else prev.structInitLoop b target ty filled (i + 1)
      else pure (b, i)
    else pure (b, i)
  /- The zero-fill tail of the struct arm of parse.c
  object_initializer. -/
  structZeroTail := fun b target ty filled i =>
    if i < nmembersF ty then do
      let m := getMemberF ty i
      prev.zeroInitialize b
        { target with type := m.2.1, offset := filled + (m.2.2 : Int) }
      prev.structZeroTail b target ty filled (i + 1)
    else pure ()
  /- The element loop of the array arm of parse.c object_initializer;
  an incomplete array (size 0) iterates until the closing brace. -/
  arrayInitLoop := fun b target ty elemTy filled i =>
    if ty.size == 0 || decide (i < ty.size / size_of elemTy) then do
      let b ← prev.initializer b
        { target with type := elemTy,
                      offset := filled + (i : Int) * (size_of elemTy : Int) }
      let t ← peekS
      if t == .comma then do
        let _ ← consume .comma
        let t2 ← peekS
        if t2 == .rbrace then pure (b, i)
        else prev.arrayInitLoop b target ty elemTy filled (i + 1)
      else pure (b, i)
    else pure (b, i)
  /- The zero-fill tail of the array arm of parse.c
  object_initializer. -/
  arrayZeroTail := fun b target elemTy filled bound i =>
    if i < bound then do
      prev.zeroInitialize b
        { target with type := elemTy,
                      offset := filled + (i : Int) * (size_of elemTy : Int) }
      prev.arrayZeroTail b target elemTy filled bound (i + 1)
    else pure ()
  /- parse.c parse: initialize a CFG and parse top-level declarations
  until the entry has emitted instructions, a function was defined, or
  the input ends. -/
  parse := do
    let t ← peekS
    if t == .END then pure 0
    else do
      cfgInitCurrent
      prev.parseLoop
  parseLoop := do
    let t ← peekS
    if t != .END then do
      modifyS (fun s => { s with cfgFun := none })
      let s ← getS
      let _ ← prev.declaration s.cfgBody
      let s2 ← getS
      if (blk s2 s2.cfgHead).code.length != 0 || s2.cfgFun.isSome then pure 1
      else prev.parseLoop
    else pure 0

/-- The fuel-indexed interpreter. -/
def interp : Nat → Interp
  | 0 => interpNone
  | n + 1 => interpStep (interp n)

/-- parse.c zeroInitialize (see interpStep for the body). -/
def zeroInitialize (fuel : Nat) : Nat → Var → EM Unit := (interp fuel).zeroInitialize

/-- parse.c zeroInitMembers (see interpStep for the body). -/
def zeroInitMembers (fuel : Nat) : Nat → Var → Typ → Nat → EM Unit := (interp fuel).zeroInitMembers

/-- parse.c zeroInitElems (see interpStep for the body). -/
def zeroInitElems (fuel : Nat) : Nat → Var → Typ → Nat → EM Unit := (interp fuel).zeroInitElems

/-- parse.c primary_expression (see interpStep for the body). -/
def primary_expression (fuel : Nat) : Nat → EM Nat := (interp fuel).primary_expression

/-- parse.c postfix_expression (see interpStep for the body). -/
def postfix_expression (fuel : Nat) : Nat → EM Nat := (interp fuel).postfix_expression

/-- parse.c postfixLoop (see interpStep for the body). -/
def postfixLoop (fuel : Nat) : Nat → Var → EM Nat := (interp fuel).postfixLoop

/-- parse.c unary_expression (see interpStep for the body). -/
def unary_expression (fuel : Nat) : Nat → EM Nat := (interp fuel).unary_expression

/-- parse.c cast_expression (see interpStep for the body). -/
def cast_expression (fuel : Nat) : Nat → EM Nat := (interp fuel).cast_expression

/-- parse.c multiplicative_expression (see interpStep for the body). -/
def multiplicative_expression (fuel : Nat) : Nat → EM Nat := (interp fuel).multiplicative_expression

/-- parse.c multiplicativeLoop (see interpStep for the body). -/
def multiplicativeLoop (fuel : Nat) : Nat → EM Nat := (interp fuel).multiplicativeLoop

/-- parse.c additive_expression (see interpStep for the body). -/
def additive_expression (fuel : Nat) : Nat → EM Nat := (interp fuel).additive_expression

/-- parse.c additiveLoop (see interpStep for the body). -/
def additiveLoop (fuel : Nat) : Nat → EM Nat := (interp fuel).additiveLoop

/-- parse.c shift_expression (see interpStep for the body). -/
def shift_expression (fuel : Nat) : Nat → EM Nat := (interp fuel).shift_expression

/-- parse.c shiftLoop (see interpStep for the body). -/
def shiftLoop (fuel : Nat) : Nat → EM Nat := (interp fuel).shiftLoop

/-- parse.c relational_expression (see interpStep for the body). -/
def relational_expression (fuel : Nat) : Nat → EM Nat := (interp fuel).relational_expression

/-- parse.c relationalLoop (see interpStep for the body). -/
def relationalLoop (fuel : Nat) : Nat → EM Nat := (interp fuel).relationalLoop

/-- parse.c equality_expression (see interpStep for the body). -/
def equality_expression (fuel : Nat) : Nat → EM Nat := (interp fuel).equality_expression

/-- parse.c equalityLoop (see interpStep for the body). -/
def equalityLoop (fuel : Nat) : Nat → EM Nat := (interp fuel).equalityLoop

/-- parse.c and_expression (see interpStep for the body). -/
def and_expression (fuel : Nat) : Nat → EM Nat := (interp fuel).and_expression

/-- parse.c andLoop (see interpStep for the body). -/
def andLoop (fuel : Nat) : Nat → EM Nat := (interp fuel).andLoop

/-- parse.c exclusive_or_expression (see interpStep for the body). -/
def exclusive_or_expression (fuel : Nat) : Nat → EM Nat := (interp fuel).exclusive_or_expression

/-- parse.c xorLoop (see interpStep for the body). -/
def xorLoop (fuel : Nat) : Nat → EM Nat := (interp fuel).xorLoop

/-- parse.c inclusive_or_expression (see interpStep for the body). -/
def inclusive_or_expression (fuel : Nat) : Nat → EM Nat := (interp fuel).inclusive_or_expression

/-- parse.c orLoop (see interpStep for the body). -/
def orLoop (fuel : Nat) : Nat → EM Nat := (interp fuel).orLoop

/-- parse.c logical_and_expression (see interpStep for the body). -/
def logical_and_expression (fuel : Nat) : Nat → EM Nat := (interp fuel).logical_and_expression

/-- parse.c logical_or_expression (see interpStep for the body). -/
def logical_or_expression (fuel : Nat) : Nat → EM Nat := (interp fuel).logical_or_expression

/-- parse.c conditional_expression (see interpStep for the body). -/
def conditional_expression (fuel : Nat) : Nat → EM Nat := (interp fuel).conditional_expression

/-- parse.c constant_expression (see interpStep for the body). -/
def constant_expression (fuel : Nat) : EM Var := (interp fuel).constant_expression

/-- parse.c assignment_expression (see interpStep for the body). -/
def assignment_expression (fuel : Nat) : Nat → EM Nat := (interp fuel).assignment_expression

/-- parse.c compoundAssign (see interpStep for the body). -/
def compoundAssign (fuel : Nat) : Nat → Var → Tok → IrOp → EM Nat := (interp fuel).compoundAssign

/-- parse.c expression (see interpStep for the body). -/
def expression (fuel : Nat) : Nat → EM Nat := (interp fuel).expression

/-- parse.c expressionCommaLoop (see interpStep for the body). -/
def expressionCommaLoop (fuel : Nat) : Nat → EM Nat := (interp fuel).expressionCommaLoop

/-- parse.c if_statement (see interpStep for the body). -/
def if_statement (fuel : Nat) : Nat → EM Nat := (interp fuel).if_statement

/-- parse.c do_statement (see interpStep for the body). -/
def do_statement (fuel : Nat) : Nat → EM Nat := (interp fuel).do_statement

/-- parse.c while_statement (see interpStep for the body). -/
def while_statement (fuel : Nat) : Nat → EM Nat := (interp fuel).while_statement

/-- parse.c for_statement (see interpStep for the body). -/
def for_statement (fuel : Nat) : Nat → EM Nat := (interp fuel).for_statement

/-- parse.c switch_statement (see interpStep for the body). -/
def switch_statement (fuel : Nat) : Nat → EM Nat := (interp fuel).switch_statement

/-- parse.c statement (see interpStep for the body). -/
def statement (fuel : Nat) : Nat → EM Nat := (interp fuel).statement

/-- parse.c exprStatement (see interpStep for the body). -/
def exprStatement (fuel : Nat) : Nat → EM Nat := (interp fuel).exprStatement

/-- parse.c block (see interpStep for the body). -/
def block (fuel : Nat) : Nat → EM Nat := (interp fuel).block

/-- parse.c blockLoop (see interpStep for the body). -/
def blockLoop (fuel : Nat) : Nat → EM Nat := (interp fuel).blockLoop

/-- parse.c parameter_list (see interpStep for the body). -/
def parameter_list (fuel : Nat) : Option Typ → EM Typ := (interp fuel).parameter_list

/-- parse.c parameterLoop (see interpStep for the body). -/
def parameterLoop (fuel : Nat) : Typ → EM Typ := (interp fuel).parameterLoop

/-- parse.c direct_declarator_array (see interpStep for the body). -/
def direct_declarator_array (fuel : Nat) : Option Typ → EM (Option Typ) := (interp fuel).direct_declarator_array

/-- parse.c pointer (see interpStep for the body). -/
def pointer (fuel : Nat) : Option Typ → EM Typ := (interp fuel).pointer

/-- parse.c pointerQualLoop (see interpStep for the body). -/
def pointerQualLoop (fuel : Nat) : Typ → EM Typ := (interp fuel).pointerQualLoop

/-- parse.c declarator (see interpStep for the body). -/
def declarator (fuel : Nat) : Option Typ → Bool → EM (Option Typ × Option String) := (interp fuel).declarator

/-- parse.c declPointerLoop (see interpStep for the body). -/
def declPointerLoop (fuel : Nat) : Option Typ → EM (Option Typ) := (interp fuel).declPointerLoop

/-- parse.c direct_declarator (see interpStep for the body). -/
def direct_declarator (fuel : Nat) : Option Typ → Bool → EM (Option Typ × Option String) := (interp fuel).direct_declarator

/-- parse.c directDeclSuffixLoop (see interpStep for the body). -/
def directDeclSuffixLoop (fuel : Nat) : Option Typ → Option Typ → Option Typ → Option String → EM (Option Typ × Option String) := (interp fuel).directDeclSuffixLoop

/-- parse.c member_declaration_list (see interpStep for the body). -/
def member_declaration_list (fuel : Nat) : Typ → EM Typ := (interp fuel).member_declaration_list

/-- parse.c memberDeclLoop (see interpStep for the body). -/
def memberDeclLoop (fuel : Nat) : NamespaceT → Typ → EM (NamespaceT × Typ) := (interp fuel).memberDeclLoop

/-- parse.c memberDeclaratorLoop (see interpStep for the body). -/
def memberDeclaratorLoop (fuel : Nat) : NamespaceT → Typ → Typ → EM (NamespaceT × Typ) := (interp fuel).memberDeclaratorLoop

/-- parse.c struct_or_union_declaration (see interpStep for the body). -/
def struct_or_union_declaration (fuel : Nat) : EM (Option Typ) := (interp fuel).struct_or_union_declaration

/-- parse.c enumerator_list (see interpStep for the body). -/
def enumerator_list (fuel : Nat) : EM Unit := (interp fuel).enumerator_list

/-- parse.c enumeratorLoop (see interpStep for the body). -/
def enumeratorLoop (fuel : Nat) : Int → EM Unit := (interp fuel).enumeratorLoop

/-- parse.c enum_declaration (see interpStep for the body). -/
def enum_declaration (fuel : Nat) : EM Typ := (interp fuel).enum_declaration

/-- parse.c dsAfter (see interpStep for the body). -/
def dsAfter (fuel : Nat) : Bool → Option Typ → Nat → Nat → Option Tok → EM (Option Typ × Nat × Nat × Option Tok) := (interp fuel).dsAfter

/-- parse.c dsLoop (see interpStep for the body). -/
def dsLoop (fuel : Nat) : Bool → Option Typ → Nat → Nat → Option Tok → EM (Option Typ × Nat × Nat × Option Tok) := (interp fuel).dsLoop

/-- parse.c dsSetSpecifier (see interpStep for the body). -/
def dsSetSpecifier (fuel : Nat) : Bool → Option Typ → Nat → Nat → Option Tok → Nat → EM (Option Typ × Nat × Nat × Option Tok) := (interp fuel).dsSetSpecifier

/-- parse.c dsSetQualifier (see interpStep for the body). -/
def dsSetQualifier (fuel : Nat) : Bool → Option Typ → Nat → Nat → Option Tok → Nat → EM (Option Typ × Nat × Nat × Option Tok) := (interp fuel).dsSetQualifier

/-- parse.c dsSetStorageClass (see interpStep for the body). -/
def dsSetStorageClass (fuel : Nat) : Bool → Option Typ → Nat → Nat → Option Tok → Tok → EM (Option Typ × Nat × Nat × Option Tok) := (interp fuel).dsSetStorageClass

/-- parse.c declaration_specifiers (see interpStep for the body). -/
def declaration_specifiers (fuel : Nat) : Bool → EM (Typ × Option Tok) := (interp fuel).declaration_specifiers

/-- parse.c declaration (see interpStep for the body). -/
def declaration (fuel : Nat) : Nat → EM Nat := (interp fuel).declaration

/-- parse.c declarationLoop (see interpStep for the body). -/
def declarationLoop (fuel : Nat) : Nat → Typ → Symtype → Linkage → EM Nat := (interp fuel).declarationLoop

/-- parse.c paramRegLoop (see interpStep for the body). -/
def paramRegLoop (fuel : Nat) : Nat → Nat → EM Unit := (interp fuel).paramRegLoop

/-- parse.c initializer (see interpStep for the body). -/
def initializer (fuel : Nat) : Nat → Var → EM Nat := (interp fuel).initializer

/-- parse.c object_initializer (see interpStep for the body). -/
def object_initializer (fuel : Nat) : Nat → Var → EM Nat := (interp fuel).object_initializer

/-- parse.c structInitLoop (see interpStep for the body). -/
def structInitLoop (fuel : Nat) : Nat → Var → Typ → Int → Nat → EM (Nat × Nat) := (interp fuel).structInitLoop

/-- parse.c structZeroTail (see interpStep for the body). -/
def structZeroTail (fuel : Nat) : Nat → Var → Typ → Int → Nat → EM Unit := (interp fuel).structZeroTail

/-- parse.c arrayInitLoop (see interpStep for the body). -/
def arrayInitLoop (fuel : Nat) : Nat → Var → Typ → Typ → Int → Nat → EM (Nat × Nat) := (interp fuel).arrayInitLoop

/-- parse.c arrayZeroTail (see interpStep for the body). -/
def arrayZeroTail (fuel : Nat) : Nat → Var → Typ → Int → Nat → Nat → EM Unit := (interp fuel).arrayZeroTail

/-- parse.c parse (see interpStep for the body). -/
def parse (fuel : Nat) : EM Int := (interp fuel).parse

/-- parse.c parseLoop (see interpStep for the body). -/
def parseLoop (fuel : Nat) : EM Int := (interp fuel).parseLoop

/-! ### Test-state builders, observers and verification predicates -/

/-- The temporary symbol minted by createVar. -/
def tempSym (ty : Typ) : Symb :=
  { name := "t", type := ty, symtype := .SYM_DEFINITION, linkage := .LINK_NONE,
    depth := 0, enum_value := 0, n := 0 }

/-- The state transformation of one iteration of switchWireLoop. -/
def swStep (e v : Var) (l condId : Nat) (s : St) : St :=
  let c := s.blocks.length
  let t : Var := { kind := .DIRECT, type := basic_type__int, symbol := some s.syms.length,
                   offset := 0, imm := 0, string := none, lvalue := false }
  let s1 : St := { s with blocks := s.blocks ++ [BlockT.empty] }
  let s2 : St := { s1 with syms := s1.syms ++ [tempSym basic_type__int] }
  let s3 := updBlock s2 c (fun bl => { bl with code := bl.code ++ [.binop .IR_OP_EQ t v e] })
  let s4 := updBlock s3 c (fun bl => { bl with expr := t })
  let s5 := updBlock s4 c (fun bl => { bl with jump1 := some l })
  updBlock s5 condId (fun bl => { bl with jump0 := some c })

/-- Did the run end with exit(1)? -/
def resExited {α : Type} : Res α → Bool
  | .exited _ => true
  | _ => false

/-- The diagnostics of the final state of a run. -/
def resErrors {α : Type} : Res α → List String
  | .ok _ s => s.errors
  | .exited s => s.errors
  | .fuelOut => []

/-- The kind of the operand returned by a successful run. -/
def resVarKind : Res Var → Option VKind
  | .ok v _ => some v.kind
  | _ => none

/-- Build the depth-0 ns_ident entries for a list of prepared symbols. -/
def mkEntries : Nat → List (String × Typ) → List (String × Nat × Nat)
  | _, [] => []
  | i, p :: rest => (p.1, i, 0) :: mkEntries (i + 1) rest

/-- A prepared file-scope symbol for test states. -/
def mkSym (nm : String) (ty : Typ) : Symb :=
  { name := nm, type := ty, symtype := .SYM_DEFINITION, linkage := .LINK_NONE,
    depth := 0, enum_value := 0, n := 0 }

/-- A minimal parser state: block 0 is the current (parent) block, the
given tokens are pending, and the given symbols are bound at file
scope in ns_ident. -/
def baseSt (ts : List Tok) (ss : List (String × Typ)) : St :=
  { toks := ts, blocks := [BlockT.empty],
    syms := ss.map (fun p => mkSym p.1 p.2),
    nsIdent := { entries := mkEntries 0 ss, currentDepth := 0, pushes := 0, pops := 0 },
    nsTag := NamespaceT.empty,
    cfgHead := 0, cfgBody := 0, cfgFun := none,
    breakTarget := none, continueTarget := none, switchCtx := none, errors := [] }

/-- A parser state with a current-CFG pair: block 0 is the head block,
block 1 the body (parent) block, as set up by cfg_init_current. -/
def cfgSt (ts : List Tok) (depth : Nat) : St :=
  { toks := ts, blocks := [BlockT.empty, BlockT.empty], syms := [],
    nsIdent := { entries := [], currentDepth := depth, pushes := 0, pops := 0 },
    nsTag := NamespaceT.empty,
    cfgHead := 0, cfgBody := 1, cfgFun := none,
    breakTarget := none, continueTarget := none, switchCtx := none, errors := [] }

/-- A direct reference to symbol si (the shape var_direct produces). -/
def dvar (si : Nat) (ty : Typ) : Var :=
  { kind := .DIRECT, type := ty, symbol := some si, offset := 0,
    imm := 0, string := none, lvalue := true }

/-- A temporary minted by create_var for symbol slot si. -/
def tvar (si : Nat) (ty : Typ) : Var :=
  { kind := .DIRECT, type := ty, symbol := some si, offset := 0,
    imm := 0, string := none, lvalue := false }

/-- The code of the block in which an expression run ended. -/
def runExprCode (ts : List Tok) (ss : List (String × Typ)) : List Ir :=
  match expression 24 0 (baseSt ts ss) with
  | .ok b s => (blk s b).code
  | _ => []

/-- The jump pair of the parent block after a statement run. -/
def runStmtJumps (ts : List Tok) : Option Nat × Option Nat :=
  match statement 24 0 (baseSt ts []) with
  | .ok _ s => ((blk s 0).jump0, (blk s 0).jump1)
  | _ => (none, none)

/-- The element target of the array initializer for symbol 0 at a byte
offset. -/
def elemTarget (off : Int) : Var :=
  { kind := .DIRECT, type := basic_type__int, symbol := some 0, offset := off,
    imm := 0, string := none, lvalue := true }

/-- The switch context collected by add_switch_case after the cases
cs (value, label) in source order were seen, with optional default. -/
def mkSwitchCtx (cs : List (Var × Nat)) (dflt : Option Nat) : SwitchContext :=
  { default_label := dflt, case_label := cs.map Prod.snd,
    case_value := cs.map Prod.fst, n := cs.length }

def c4msg : String := "Constant expression must be computable at compile time."

/-- The continuation of constant_expression after the conditional-expression
parse: the tail/IMMEDIATE check against head block hd. -/
def c4k (hd : Nat) (tail : Nat) : EM Var := do
  let st ← getS
  if tail ≠ hd ∨ (blk st tail).expr.kind ≠ VKind.IMMEDIATE then do
    errorM c4msg
    exitOne
  else pure ((blk st tail).expr)

/-- The specifier bitmasks accepted by get_basic_type_from_specifier. -/
def specMasks : List Nat :=
  [0x0001, 0x0002, 0x0012, 0x0022, 0x0004, 0x0014, 0x000C, 0x001C,
   0x0024, 0x002C, 0x0008, 0x0010, 0x0018, 0x0020, 0x0028,
   0x0040, 0x0050, 0x0048, 0x0058, 0x00C0, 0x00D0, 0x00D8,
   0x0060, 0x0068, 0x00E0, 0x00E8, 0x0100, 0x0200, 0x0240]

/-- Depth and push/pop bookkeeping of one namespace is balanced between
two observation points: the depth is restored and the numbers of
push_scope and pop_scope calls in between agree. -/
def nsB (n1 n2 : NamespaceT) : Prop :=
  n2.currentDepth = n1.currentDepth ∧ n2.pushes + n1.pops = n1.pushes + n2.pops

/-- Both namespaces of the parser state are balanced between two states. -/
def Bal (s1 s2 : St) : Prop := nsB s1.nsIdent s2.nsIdent ∧ nsB s1.nsTag s2.nsTag

/-- An action preserves scope balance on every successful run. -/
def Pres {α : Type} (m : EM α) : Prop :=
  ∀ s r s2, m s = .ok r s2 → Bal s s2

/-- A namespace value kept unchanged in depth and push/pop counters. -/
def nsKeep (n1 n2 : NamespaceT) : Prop :=
  n2.currentDepth = n1.currentDepth ∧ n2.pushes = n1.pushes ∧ n2.pops = n1.pops

/-- Every function of the interpreter record preserves scope balance
on successful runs. -/
structure InterpPres (I : Interp) : Prop where
  zeroInitialize : ∀ b v, Pres (I.zeroInitialize b v)
  zeroInitMembers : ∀ b v t i, Pres (I.zeroInitMembers b v t i)
  zeroInitElems : ∀ b v t i, Pres (I.zeroInitElems b v t i)
  primary_expression : ∀ b, Pres (I.primary_expression b)
  postfix_expression : ∀ b, Pres (I.postfix_expression b)
  postfixLoop : ∀ b v, Pres (I.postfixLoop b v)
  unary_expression : ∀ b, Pres (I.unary_expression b)
  cast_expression : ∀ b, Pres (I.cast_expression b)
  multiplicative_expression : ∀ b, Pres (I.multiplicative_expression b)
  multiplicativeLoop : ∀ b, Pres (I.multiplicativeLoop b)
  additive_expression : ∀ b, Pres (I.additive_expression b)
  additiveLoop : ∀ b, Pres (I.additiveLoop b)
  shift_expression : ∀ b, Pres (I.shift_expression b)
  shiftLoop : ∀ b, Pres (I.shiftLoop b)
  relational_expression : ∀ b, Pres (I.relational_expression b)
  relationalLoop : ∀ b, Pres (I.relationalLoop b)
  equality_expression : ∀ b, Pres (I.equality_expression b)
  equalityLoop : ∀ b, Pres (I.equalityLoop b)
  and_expression : ∀ b, Pres (I.and_expression b)
  andLoop : ∀ b, Pres (I.andLoop b)
  exclusive_or_expression : ∀ b, Pres (I.exclusive_or_expression b)
  xorLoop : ∀ b, Pres (I.xorLoop b)
  inclusive_or_expression : ∀ b, Pres (I.inclusive_or_expression b)
  orLoop : ∀ b, Pres (I.orLoop b)
  logical_and_expression : ∀ b, Pres (I.logical_and_expression b)
  logical_or_expression : ∀ b, Pres (I.logical_or_expression b)
  conditional_expression : ∀ b, Pres (I.conditional_expression b)
  constant_expression : Pres I.constant_expression
  assignment_expression : ∀ b, Pres (I.assignment_expression b)
  compoundAssign : ∀ b v t op, Pres (I.compoundAssign b v t op)
  expression : ∀ b, Pres (I.expression b)
  expressionCommaLoop : ∀ b, Pres (I.expressionCommaLoop b)
  if_statement : ∀ b, Pres (I.if_statement b)
  do_statement : ∀ b, Pres (I.do_statement b)
  while_statement : ∀ b, Pres (I.while_statement b)
  for_statement : ∀ b, Pres (I.for_statement b)
  switch_statement : ∀ b, Pres (I.switch_statement b)
  statement : ∀ b, Pres (I.statement b)
  exprStatement : ∀ b, Pres (I.exprStatement b)
  block : ∀ b, Pres (I.block b)
  blockLoop : ∀ b, Pres (I.blockLoop b)
  parameter_list : ∀ o, Pres (I.parameter_list o)
  parameterLoop : ∀ t, Pres (I.parameterLoop t)
  direct_declarator_array : ∀ o, Pres (I.direct_declarator_array o)
  pointer : ∀ o, Pres (I.pointer o)
  pointerQualLoop : ∀ t, Pres (I.pointerQualLoop t)
  declarator : ∀ o b, Pres (I.declarator o b)
  declPointerLoop : ∀ o, Pres (I.declPointerLoop o)
  direct_declarator : ∀ o b, Pres (I.direct_declarator o b)
  directDeclSuffixLoop : ∀ a b c d, Pres (I.directDeclSuffixLoop a b c d)
  member_declaration_list : ∀ t, Pres (I.member_declaration_list t)
  memberDeclLoop : ∀ ns t, Pres (I.memberDeclLoop ns t)
  memberDeclaratorLoop : ∀ ns t u, Pres (I.memberDeclaratorLoop ns t u)
  struct_or_union_declaration : Pres I.struct_or_union_declaration
  enumerator_list : Pres I.enumerator_list
  enumeratorLoop : ∀ i, Pres (I.enumeratorLoop i)
  enum_declaration : Pres I.enum_declaration
  dsAfter : ∀ a b c d e, Pres (I.dsAfter a b c d e)
  dsLoop : ∀ a b c d e, Pres (I.dsLoop a b c d e)
  dsSetSpecifier : ∀ a b c d e f, Pres (I.dsSetSpecifier a b c d e f)
  dsSetQualifier : ∀ a b c d e f, Pres (I.dsSetQualifier a b c d e f)
  dsSetStorageClass : ∀ a b c d e f, Pres (I.dsSetStorageClass a b c d e f)
  declaration_specifiers : ∀ a, Pres (I.declaration_specifiers a)
  declaration : ∀ b, Pres (I.declaration b)
  declarationLoop : ∀ a b c d, Pres (I.declarationLoop a b c d)
  paramRegLoop : ∀ a b, Pres (I.paramRegLoop a b)
  initializer : ∀ a b, Pres (I.initializer a b)
  object_initializer : ∀ a b, Pres (I.object_initializer a b)
  structInitLoop : ∀ a b c d e, Pres (I.structInitLoop a b c d e)
  structZeroTail : ∀ a b c d e, Pres (I.structZeroTail a b c d e)
  arrayInitLoop : ∀ a b c d e f, Pres (I.arrayInitLoop a b c d e f)
  arrayZeroTail : ∀ a b c d e f, Pres (I.arrayZeroTail a b c d e f)
  parse : Pres I.parse
  parseLoop : Pres I.parseLoop

/-- Tag observer used to discriminate run outcomes. -/
def resTag {α : Type} : Res α → Nat
  | .ok _ _ => 0
  | .exited _ => 1
  | .fuelOut => 2

/-! ### Verification lemmas and the claim theorems -/

theorem listSet_length {α : Type} (l : List α) (i : Nat) (a : α) :
    (listSet l i a).length = l.length := by
  induction l generalizing i with
  | nil => rfl
  | cons x xs ih =>
    cases i with
    | zero => rfl
    | succ n => simp [listSet, ih]

theorem getD_listSet_self {α : Type} (l : List α) (i : Nat) (a d : α)
    (h : i < l.length) : (listSet l i a).getD i d = a := by
  induction l generalizing i with
  | nil => simp at h
  | cons x xs ih =>
    cases i with
    | zero => rfl
    | succ n =>
      simp only [listSet, List.getD, List.getElem?_cons_succ]
      exact ih n (by simpa using h)

theorem getD_listSet_ne {α : Type} (l : List α) (i j : Nat) (a d : α)
    (h : i ≠ j) : (listSet l j a).getD i d = l.getD i d := by
  induction l generalizing i j with
  | nil => rfl
  | cons x xs ih =>
    cases j with
    | zero =>
      cases i with
      | zero => exact absurd rfl h
      | succ n => rfl
    | succ m =>
      cases i with
      | zero => rfl
      | succ n =>
        simp only [listSet, List.getD, List.getElem?_cons_succ]
        exact ih n m (by omega)

theorem blk_updBlock_self (s : St) (i : Nat) (f : BlockT → BlockT)
    (h : i < s.blocks.length) : blk (updBlock s i f) i = f (blk s i) := by
  simp only [blk, updBlock]
  exact getD_listSet_self _ _ _ _ h

theorem blk_updBlock_ne (s : St) (i j : Nat) (f : BlockT → BlockT)
    (h : i ≠ j) : blk (updBlock s j f) i = blk s i := by
  simp only [blk, updBlock]
  exact getD_listSet_ne _ _ _ _ _ h

theorem blk_append_lt (s : St) (b : BlockT) (i : Nat) (h : i < s.blocks.length) :
    blk { s with blocks := s.blocks ++ [b] } i = blk s i := by
  simp [blk, List.getD, List.getElem?_append_left h]

theorem blk_append_self (s : St) (b : BlockT) :
    blk { s with blocks := s.blocks ++ [b] } s.blocks.length = b := by
  simp [blk, List.getD]

theorem em_run_bind {α β : Type} (x : EM α) (f : α → EM β) (s : St) :
    (x >>= f) s = match x s with
      | .ok a s1 => f a s1
      | .exited s1 => .exited s1
      | .fuelOut => .fuelOut := rfl

theorem em_run_pure {α : Type} (a : α) (s : St) : (pure a : EM α) s = .ok a s := rfl

theorem switchWireLoop_cons (e v : Var) (l condId : Nat) (rest : List (Var × Nat)) (s : St) :
    switchWireLoop e ((v, l) :: rest) condId s
      = switchWireLoop e rest s.blocks.length (swStep e v l condId s) := by
  show (do
    let c ← cfgBlockInitM
    let r ← evalExprB c .IR_OP_EQ v e
    setExprM c r
    setJump1 c (some l)
    setJump0 condId (some c)
    switchWireLoop e rest c : EM Nat) s = _
  cases hg : (v.kind == VKind.IMMEDIATE && e.kind == VKind.IMMEDIATE
      && isInteger v.type && isInteger e.type) with
  | false =>
      simp only [em_run_bind, cfgBlockInitM, evalExprB, hg, Bool.false_eq_true, if_false,
        createVar, emitIr, updBlockM, modifyS, setExprM, setJump1, setJump0, em_run_pure]
      rfl
  | true =>
      simp only [em_run_bind, cfgBlockInitM, evalExprB, hg, if_true, foldBinop,
        createVar, emitIr, updBlockM, modifyS, setExprM, setJump1, setJump0, em_run_pure]
      rfl

theorem swStep_blocks_length (e v : Var) (l condId : Nat) (s : St) :
    (swStep e v l condId s).blocks.length = s.blocks.length + 1 := by
  simp [swStep, updBlock, listSet_length]

theorem swStep_syms (e v : Var) (l condId : Nat) (s : St) :
    (swStep e v l condId s).syms = s.syms ++ [tempSym basic_type__int] := by
  simp [swStep, updBlock]

theorem swStep_blk_cond (e v : Var) (l condId : Nat) (s : St) (h : condId < s.blocks.length) :
    blk (swStep e v l condId s) condId = { blk s condId with jump0 := some s.blocks.length } := by
  have hne : condId ≠ s.blocks.length := by omega
  have h1 : condId < (s.blocks ++ [BlockT.empty]).length := by simp; omega
  unfold swStep
  rw [blk_updBlock_self _ _ _ (by simpa [updBlock, listSet_length] using h1)]
  rw [blk_updBlock_ne _ _ _ _ hne, blk_updBlock_ne _ _ _ _ hne, blk_updBlock_ne _ _ _ _ hne]
  simp [blk, List.getD, List.getElem?_append_left h]

theorem swStep_blk_new (e v : Var) (l condId : Nat) (s : St) (h : condId < s.blocks.length) :
    blk (swStep e v l condId s) s.blocks.length =
      { code := [.binop .IR_OP_EQ
          { kind := .DIRECT, type := basic_type__int, symbol := some s.syms.length,
            offset := 0, imm := 0, string := none, lvalue := false } v e],
        expr := { kind := .DIRECT, type := basic_type__int, symbol := some s.syms.length,
                  offset := 0, imm := 0, string := none, lvalue := false },
        jump0 := none,
        jump1 := some l } := by
  have hne : s.blocks.length ≠ condId := by omega
  have hlen : s.blocks.length < (s.blocks ++ [BlockT.empty]).length := by simp
  unfold swStep
  rw [blk_updBlock_ne _ _ _ _ hne]
  rw [blk_updBlock_self _ _ _ (by simpa [updBlock, listSet_length] using hlen)]
  rw [blk_updBlock_self _ _ _ (by simpa [updBlock, listSet_length] using hlen)]
  rw [blk_updBlock_self _ _ _ (by simpa [listSet_length] using hlen)]
  simp [blk, List.getD, BlockT.empty]

theorem swStep_blk_frame (e v : Var) (l condId : Nat) (s : St) (j : Nat)
    (hj : j < s.blocks.length) (hne : j ≠ condId) :
    blk (swStep e v l condId s) j = blk s j := by
  have hne2 : j ≠ s.blocks.length := by omega
  unfold swStep
  rw [blk_updBlock_ne _ _ _ _ hne, blk_updBlock_ne _ _ _ _ hne2,
      blk_updBlock_ne _ _ _ _ hne2, blk_updBlock_ne _ _ _ _ hne2]
  simp [blk, List.getD, List.getElem?_append_left hj]

theorem switchWireLoop_spec (e : Var) :
    ∀ (cs : List (Var × Nat)) (condId : Nat) (s : St),
      condId < s.blocks.length →
      match switchWireLoop e cs condId s with
      | .ok last s2 =>
          s2.blocks.length = s.blocks.length + cs.length
          ∧ (cs = [] → last = condId ∧ s2 = s)
          ∧ (cs ≠ [] →
              last = s.blocks.length + cs.length - 1
              ∧ blk s2 condId = { blk s condId with jump0 := some s.blocks.length }
              ∧ (∀ j, j < s.blocks.length → j ≠ condId → blk s2 j = blk s j)
              ∧ (∀ i, (h : i < cs.length) →
                  (blk s2 (s.blocks.length + i)).jump1 = some (cs.get ⟨i, h⟩).2
                  ∧ (blk s2 (s.blocks.length + i)).code
                      = [Ir.binop .IR_OP_EQ ((blk s2 (s.blocks.length + i)).expr)
                          (cs.get ⟨i, h⟩).1 e]
                  ∧ (blk s2 (s.blocks.length + i)).jump0
                      = if i + 1 < cs.length then some (s.blocks.length + i + 1) else none))
      | _ => False := by
  intro cs
  induction cs with
  | nil =>
      intro condId s _
      show match Res.ok condId s with | .ok last s2 => _ | _ => False
      exact ⟨by simp, fun _ => ⟨rfl, rfl⟩, fun hne => absurd rfl hne⟩
  | cons p rest ih =>
      intro condId s hc
      obtain ⟨v, l⟩ := p
      rw [switchWireLoop_cons]
      have hsw : (swStep e v l condId s).blocks.length = s.blocks.length + 1 :=
        swStep_blocks_length e v l condId s
      have hlt : s.blocks.length < (swStep e v l condId s).blocks.length := by omega
      have hcne : condId ≠ s.blocks.length := by omega
      have hmain := ih s.blocks.length (swStep e v l condId s) hlt
      cases hres : switchWireLoop e rest s.blocks.length (swStep e v l condId s) with
      | exited s2 => rw [hres] at hmain; exact hmain
      | fuelOut => rw [hres] at hmain; exact hmain
      | ok last s2 =>
        rw [hres] at hmain
        obtain ⟨hlen, hnil, hcons⟩ := hmain
        refine ⟨by simp only [List.length_cons]; omega, fun h => by simp at h, fun _ => ?_⟩
        cases rest with
        | nil =>
            obtain ⟨hlast, hs2⟩ := hnil rfl
            subst hs2
            subst hlast
            refine ⟨by simp only [List.length_cons, List.length_nil]; omega, ?_, ?_, ?_⟩
            · exact swStep_blk_cond e v l condId s hc
            · intro j hj hjne
              exact swStep_blk_frame e v l condId s j hj hjne
            · intro i h
              simp only [List.length_cons, List.length_nil] at h
              interval_cases i
              have hnew := swStep_blk_new e v l condId s hc
              simp only [Nat.add_zero, hnew]
              exact ⟨rfl, rfl, by simp⟩
        | cons q rest2 =>
            have hrne : (q :: rest2) ≠ ([] : List (Var × Nat)) := by simp
            obtain ⟨hlast, hcond2, hframe2, hchain⟩ := hcons hrne
            subst hlast
            refine ⟨?_, ?_, ?_, ?_⟩
            · rw [hsw]
              simp only [List.length_cons]
              omega
            · have hf := hframe2 condId (by omega) hcne
              rw [hf]
              exact swStep_blk_cond e v l condId s hc
            · intro j hj hjne
              have hf := hframe2 j (by omega) (by omega)
              rw [hf]
              exact swStep_blk_frame e v l condId s j hj hjne
            · intro i h
              cases i with
              | zero =>
                  have h0 : blk s2 s.blocks.length
                      = { blk (swStep e v l condId s) s.blocks.length
                          with jump0 := some ((swStep e v l condId s).blocks.length) } := by
                    rw [hcond2]
                  have hnew := swStep_blk_new e v l condId s hc
                  rw [Nat.add_zero, h0, hnew]
                  refine ⟨rfl, rfl, ?_⟩
                  simp only [List.length_cons]
                  rw [if_pos (by omega), hsw]
              | succ k =>
                  simp only [List.length_cons] at h
                  have hk : k < (q :: rest2).length := by simp only [List.length_cons]; omega
                  have hik := hchain k hk
                  have hidx : (swStep e v l condId s).blocks.length + k
                      = s.blocks.length + (k + 1) := by omega
                  rw [hidx] at hik
                  refine ⟨?_, ?_, ?_⟩
                  · rw [hik.1]
                    rfl
                  · exact hik.2.1
                  · rw [hik.2.2]
                    by_cases hcnd : k + 1 < (q :: rest2).length
                    · rw [if_pos hcnd, if_pos (by simp only [List.length_cons] at hcnd ⊢; omega)]
                    · rw [if_neg hcnd, if_neg (by simp only [List.length_cons] at hcnd ⊢; omega)]

/-- C1 (code evaluated at the failing input): for `if (1) ; else ;` the
then block is block 1 and the else block is block 3, yet the parent's
sole jump target is block 3 (the else side), because the else arm of
if_statement overwrites the pruned jump[0] unconditionally.  Without an
else branch the pruning is as specified, and for a zero immediate with
an else branch the else target is correct. -/
theorem c1_if_true_else_jumps_to_else :
    runStmtJumps [.IF, .lpar, .INTEGER_CONSTANT 1, .rpar, .semi, .ELSE, .semi]
      = (some 3, none)
    ∧ runStmtJumps [.IF, .lpar, .INTEGER_CONSTANT 1, .rpar, .semi] = (some 1, none)
    ∧ runStmtJumps [.IF, .lpar, .INTEGER_CONSTANT 0, .rpar, .semi] = (some 2, none)
    ∧ runStmtJumps [.IF, .lpar, .INTEGER_CONSTANT 0, .rpar, .semi, .ELSE, .semi]
      = (some 3, none) := by
  refine ⟨rfl, rfl, rfl, rfl⟩

/-- C5: comparison normalization. -/
theorem c5_comparison_normalization (ta tb : Typ) :
    (runExprCode [.IDENTIFIER "a", .ltTok, .IDENTIFIER "b"] [("a", ta), ("b", tb)]
      = [.binop .IR_OP_GT (tvar 2 basic_type__int) (dvar 1 tb) (dvar 0 ta)])
    ∧ (runExprCode [.IDENTIFIER "a", .gtTok, .IDENTIFIER "b"] [("a", ta), ("b", tb)]
      = [.binop .IR_OP_GT (tvar 2 basic_type__int) (dvar 0 ta) (dvar 1 tb)])
    ∧ (runExprCode [.IDENTIFIER "a", .LEQ, .IDENTIFIER "b"] [("a", ta), ("b", tb)]
      = [.binop .IR_OP_GE (tvar 2 basic_type__int) (dvar 1 tb) (dvar 0 ta)])
    ∧ (runExprCode [.IDENTIFIER "a", .GEQ, .IDENTIFIER "b"] [("a", ta), ("b", tb)]
      = [.binop .IR_OP_GE (tvar 2 basic_type__int) (dvar 0 ta) (dvar 1 tb)])
    ∧ (runExprCode [.IDENTIFIER "a", .EQ, .IDENTIFIER "b"] [("a", ta), ("b", tb)]
      = [.binop .IR_OP_EQ (tvar 2 basic_type__int) (dvar 0 ta) (dvar 1 tb)])
    ∧ (runExprCode [.IDENTIFIER "a", .NEQ, .IDENTIFIER "b"] [("a", ta), ("b", tb)]
      = [.binop .IR_OP_EQ (tvar 2 basic_type__int) (dvar 0 ta) (dvar 1 tb),
         .binop .IR_OP_EQ (tvar 3 basic_type__int) (var_int 0) (tvar 2 basic_type__int)]) := by
  refine ⟨rfl, rfl, rfl, rfl, rfl, rfl⟩

/-- C3 counterexample: sizeof applied to a function type reports its
diagnostics through error but the process does not exit: both sizeof
diagnostics are recorded, evaluation continues, the expression operand
is still produced (size 0) and the whole input is consumed. -/
theorem c3_sizeof_error_does_not_exit :
    (resExited (expression 24 0
        (baseSt [.SIZEOF, .IDENTIFIER "f"] [("f", typeInitFunction (some basic_type__int))]))
      = false)
    ∧ (resErrors (expression 24 0
        (baseSt [.SIZEOF, .IDENTIFIER "f"] [("f", typeInitFunction (some basic_type__int))]))
      = ["Cannot apply sizeof to function type.", "Cannot apply sizeof to incomplete type."])
    ∧ ((match expression 24 0
          (baseSt [.SIZEOF, .IDENTIFIER "f"] [("f", typeInitFunction (some basic_type__int))]) with
        | .ok b s => some ((blk s b).expr, s.toks)
        | _ => none) = some (var_int 0, [])) := by
  refine ⟨rfl, rfl, rfl⟩

/-- C3 amended: diagnostics raised at sites followed by exit(1), such
as an undefined symbol, terminate immediately with the diagnostic
recorded; but the sizeof diagnostics are reported through error and
parsing continues normally. -/
theorem c3_amended_fatal_vs_nonfatal :
    (resExited (expression 24 0 (baseSt [.IDENTIFIER "g"] [])) = true)
    ∧ (resErrors (expression 24 0 (baseSt [.IDENTIFIER "g"] []))
      = ["Undefined symbol g."])
    ∧ (resExited (expression 24 0
        (baseSt [.SIZEOF, .IDENTIFIER "f"] [("f", typeInitFunction (some basic_type__int))]))
      = false)
    ∧ ((match expression 24 0
          (baseSt [.SIZEOF, .IDENTIFIER "f"] [("f", typeInitFunction (some basic_type__int))]) with
        | .ok b s => some ((blk s b).expr.imm, s.errors.length)
        | _ => none) = some (0, 2)) := by
  refine ⟨rfl, rfl, rfl, rfl⟩

/-- C6: the (symtype, linkage) table of the declaration parser, checked
end to end through declaration_specifiers and the declarator loop. -/
theorem c6_symtype_linkage_table :
    ((match declaration 24 1 (cfgSt [.EXTERNKW, .INTKW, .IDENTIFIER "x", .semi] 0) with
      | .ok _ s => some ((symAt s 0).symtype, (symAt s 0).linkage, (symAt s 0).depth)
      | _ => none) = some (.SYM_DECLARATION, .LINK_EXTERN, 0))
    ∧ ((match declaration 24 1 (cfgSt [.STATIC, .INTKW, .IDENTIFIER "x", .semi] 0) with
      | .ok _ s => some ((symAt s 0).symtype, (symAt s 0).linkage, (symAt s 0).depth)
      | _ => none) = some (.SYM_TENTATIVE, .LINK_INTERN, 0))
    ∧ ((match declaration 24 1 (cfgSt [.TYPEDEFKW, .INTKW, .IDENTIFIER "x", .semi] 0) with
      | .ok _ s => some ((symAt s 0).symtype, (symAt s 0).linkage, (symAt s 0).depth)
      | _ => none) = some (.SYM_TYPEDEF, .LINK_NONE, 0))
    ∧ ((match declaration 24 1 (cfgSt [.INTKW, .IDENTIFIER "x", .semi] 0) with
      | .ok _ s => some ((symAt s 0).symtype, (symAt s 0).linkage, (symAt s 0).depth)
      | _ => none) = some (.SYM_TENTATIVE, .LINK_EXTERN, 0))
    ∧ ((match declaration 24 1 (cfgSt [.INTKW, .IDENTIFIER "x", .semi] 2) with
      | .ok _ s => some ((symAt s 0).symtype, (symAt s 0).linkage, (symAt s 0).depth)
      | _ => none) = some (.SYM_DEFINITION, .LINK_NONE, 2)) := by
  refine ⟨rfl, rfl, rfl, rfl, rfl⟩

/-- C8: array initializer lowering (scenario S3).  For the statement
int a[] = 1,2,3,4 in braces, the incomplete array type is patched to
byte size 16 (length 4) on the symbol and exactly four assignments are
emitted at offsets 0,4,8,12; for int a[4] with elements 1,2 the two
mentioned elements are assigned and the unmentioned tail elements are
zero-initialized at offsets 8,12. -/
theorem c8_array_initializer :
    ((match declaration 30 1 (cfgSt [.INTKW, .IDENTIFIER "a", .lbrack, .rbrack, .assign,
        .lbrace, .INTEGER_CONSTANT 1, .comma, .INTEGER_CONSTANT 2, .comma,
        .INTEGER_CONSTANT 3, .comma, .INTEGER_CONSTANT 4, .rbrace, .semi] 0) with
      | .ok _ s => some ((symAt s 0).type.size, (blk s 0).code)
      | _ => none)
      = some (16,
        [.assign (elemTarget 0) (var_int 1), .assign (elemTarget 4) (var_int 2),
         .assign (elemTarget 8) (var_int 3), .assign (elemTarget 12) (var_int 4)]))
    ∧ ((match declaration 30 1 (cfgSt [.INTKW, .IDENTIFIER "a", .lbrack, .INTEGER_CONSTANT 4,
        .rbrack, .assign, .lbrace, .INTEGER_CONSTANT 1, .comma, .INTEGER_CONSTANT 2,
        .rbrace, .semi] 0) with
      | .ok _ s => some ((symAt s 0).type.size, (blk s 0).code)
      | _ => none)
      = some (16,
        [.assign (elemTarget 0) (var_int 1), .assign (elemTarget 4) (var_int 2),
         .assign (elemTarget 8) (var_zero 4), .assign (elemTarget 12) (var_zero 4)])) := by
  refine ⟨rfl, rfl⟩

/-- C10: a file-scope symbol that has become a DEFINITION rejects a
second initializer: the first parse call defines x, the second exits
with the already-defined diagnostic. -/
theorem c10_redefinition_rejected (v1 v2 : Int) :
    (resExited ((do let _ ← parse 30; parse 30 : EM Int)
        (baseSt [.INTKW, .IDENTIFIER "x", .assign, .INTEGER_CONSTANT v1, .semi,
                 .INTKW, .IDENTIFIER "x", .assign, .INTEGER_CONSTANT v2, .semi, .END] []))
      = true)
    ∧ (resErrors ((do let _ ← parse 30; parse 30 : EM Int)
        (baseSt [.INTKW, .IDENTIFIER "x", .assign, .INTEGER_CONSTANT v1, .semi,
                 .INTKW, .IDENTIFIER "x", .assign, .INTEGER_CONSTANT v2, .semi, .END] []))
      = ["Symbol x was already defined."])
    ∧ ((match parse 30
          (baseSt [.INTKW, .IDENTIFIER "x", .assign, .INTEGER_CONSTANT v1, .semi, .END] []) with
        | .ok r s => some (r, (symAt s 0).symtype, (symAt s 0).depth)
        | _ => none) = some (1, .SYM_DEFINITION, 0)) := by
  refine ⟨rfl, rfl, rfl⟩

theorem zipMapFstSnd (cs : List (Var × Nat)) :
    (cs.map Prod.fst).zip (cs.map Prod.snd) = cs := by
  induction cs with
  | nil => rfl
  | cons c rest ih => simp [List.zip, ih]

theorem updBlock_len (s : St) (i : Nat) (f : BlockT → BlockT) :
    (updBlock s i f).blocks.length = s.blocks.length := by
  simp [updBlock, listSet_length]

theorem setJump0_run (b : Nat) (t : Option Nat) (s : St) :
    setJump0 b t s = .ok () (updBlock s b (fun bl => { bl with jump0 := t })) := rfl

/-- C2: switch lowering builds a chain of fresh comparison blocks after the
parent: block i of the chain computes EQ(v_i, e), jump1 is the i-th case
label, jump0 the next comparison block (source order), the last jump0 is
the default label if declared else the post-switch block; with no cases
and no default the parent jumps directly to the post-switch block.
Stated over switchWire, the wiring tail of switch_statement. -/
theorem c2_switch_chain :
    ∀ (e : Var) (cs : List (Var × Nat)) (dflt : Option Nat) (parent nxt : Nat) (s : St),
      parent < s.blocks.length →
      match switchWire e (mkSwitchCtx cs dflt) parent nxt s with
      | .ok _ s2 =>
          (cs = [] → dflt = none →
              s2 = updBlock s parent (fun bl => { bl with jump0 := some nxt }))
          ∧ (cs = [] → dflt.isSome →
              s2 = updBlock s parent
                (fun bl => { bl with jump0 := some (dflt.getD nxt) }))
          ∧ (cs ≠ [] →
              s2.blocks.length = s.blocks.length + cs.length
              ∧ (blk s2 parent).jump0 = some s.blocks.length
              ∧ (∀ j, j < s.blocks.length → j ≠ parent → blk s2 j = blk s j)
              ∧ (∀ i, (h : i < cs.length) →
                  (blk s2 (s.blocks.length + i)).jump1 = some (cs.get ⟨i, h⟩).2
                  ∧ (blk s2 (s.blocks.length + i)).code
                      = [Ir.binop .IR_OP_EQ ((blk s2 (s.blocks.length + i)).expr)
                          (cs.get ⟨i, h⟩).1 e]
                  ∧ (blk s2 (s.blocks.length + i)).jump0
                      = if i + 1 < cs.length then some (s.blocks.length + i + 1)
                        else some (dflt.getD nxt)))
      | _ => False := by
  intro e cs dflt parent nxt s hp
  cases cs with
  | nil =>
      cases dflt with
      | none =>
          exact ⟨fun _ _ => rfl, fun _ h => by simp at h, fun h => absurd rfl h⟩
      | some d =>
          exact ⟨fun _ h => by simp at h, fun _ _ => rfl, fun h => absurd rfl h⟩
  | cons c rest =>
      have hzip : ((mkSwitchCtx (c :: rest) dflt).case_value).zip
          ((mkSwitchCtx (c :: rest) dflt).case_label) = c :: rest :=
        zipMapFstSnd (c :: rest)
      have hspec := switchWireLoop_spec e (c :: rest) parent s hp
      show (do let cond ← switchWireLoop e
                  (((mkSwitchCtx (c :: rest) dflt).case_value).zip
                    ((mkSwitchCtx (c :: rest) dflt).case_label)) parent
               setJump0 cond (some ((mkSwitchCtx (c :: rest) dflt).default_label.getD nxt))
             : EM Unit) s
          |> (fun r => match r with
              | .ok _ s2 =>
                  (c :: rest = [] → dflt = none →
                      s2 = updBlock s parent (fun bl => { bl with jump0 := some nxt }))
                  ∧ (c :: rest = [] → dflt.isSome →
                      s2 = updBlock s parent
                        (fun bl => { bl with jump0 := some (dflt.getD nxt) }))
                  ∧ (c :: rest ≠ [] →
                      s2.blocks.length = s.blocks.length + (c :: rest).length
                      ∧ (blk s2 parent).jump0 = some s.blocks.length
                      ∧ (∀ j, j < s.blocks.length → j ≠ parent → blk s2 j = blk s j)
                      ∧ (∀ i, (h : i < (c :: rest).length) →
                          (blk s2 (s.blocks.length + i)).jump1
                              = some ((c :: rest).get ⟨i, h⟩).2
                          ∧ (blk s2 (s.blocks.length + i)).code
                              = [Ir.binop .IR_OP_EQ
                                  ((blk s2 (s.blocks.length + i)).expr)
                                  ((c :: rest).get ⟨i, h⟩).1 e]
                          ∧ (blk s2 (s.blocks.length + i)).jump0
                              = if i + 1 < (c :: rest).length
                                then some (s.blocks.length + i + 1)
                                else some (dflt.getD nxt)))
              | _ => False)
      rw [hzip, em_run_bind]
      cases hres : switchWireLoop e (c :: rest) parent s with
      | exited s2 => rw [hres] at hspec; exact hspec
      | fuelOut => rw [hres] at hspec; exact hspec
      | ok last s1 =>
        rw [hres] at hspec
        obtain ⟨hlen, _, hcons⟩ := hspec
        obtain ⟨hlast, hcond, hframe, hchain⟩ := hcons (by simp)
        subst hlast
        have hlenpos : (c :: rest).length = rest.length + 1 := rfl
        have hlastlt : s.blocks.length + (c :: rest).length - 1 < s1.blocks.length := by
          rw [hlen]; omega
        have hplast : parent ≠ s.blocks.length + (c :: rest).length - 1 := by omega
        refine ⟨fun h _ => by simp at h, fun h _ => by simp at h, fun _ => ?_⟩
        refine ⟨?_, ?_, ?_, ?_⟩
        · rw [updBlock_len]; exact hlen
        · rw [blk_updBlock_ne s1 parent _ _ hplast, hcond]
        · intro j hj hjp
          have hjlast : j ≠ s.blocks.length + (c :: rest).length - 1 := by omega
          rw [blk_updBlock_ne s1 j _ _ hjlast]
          exact hframe j hj hjp
        · intro i h
          by_cases hi : i + 1 < (c :: rest).length
          · have hne : s.blocks.length + i
                ≠ s.blocks.length + (c :: rest).length - 1 := by omega
            rw [blk_updBlock_ne s1 _ _ _ hne]
            obtain ⟨h1, h2, h3⟩ := hchain i h
            exact ⟨h1, h2, by rw [h3, if_pos hi, if_pos hi]⟩
          · have hieq : s.blocks.length + (c :: rest).length - 1
                = s.blocks.length + i := by omega
            rw [← hieq, blk_updBlock_self s1 _ _ hlastlt]
            obtain ⟨h1, h2, _⟩ := hchain i h
            rw [← hieq] at h1 h2
            exact ⟨h1, h2, by rw [if_neg hi]; rfl⟩

/-- Witness: the general switchWire property at a concrete input. -/
theorem c2_switch_chain_witness :
    (0 : Nat) < (baseSt [] []).blocks.length
    ∧ match switchWire (var_int 7) (mkSwitchCtx [(var_int 1, 5)] none) 0 9
          (baseSt [] []) with
      | .ok _ s2 =>
          (blk s2 0).jump0 = some 1
          ∧ (blk s2 1).jump1 = some 5
          ∧ (blk s2 1).jump0 = some 9
      | _ => False := by
  have h0 : (0 : Nat) < (baseSt [] []).blocks.length := by decide
  refine ⟨h0, ?_⟩
  have h := (c2_switch_chain (var_int 7) [(var_int 1, 5)] none 0 9 (baseSt [] []) h0)
  revert h
  cases hres : switchWire (var_int 7) (mkSwitchCtx [(var_int 1, 5)] none) 0 9
      (baseSt [] []) with
  | exited s2 => exact fun h => h
  | fuelOut => exact fun h => h
  | ok u s2 =>
      intro h
      obtain ⟨_, _, h3⟩ := h
      obtain ⟨_, hc, _, hchain⟩ := h3 (by simp)
      obtain ⟨h1, _, h3⟩ := hchain 0 (by simp)
      rw [if_neg (by decide)] at h3
      exact ⟨hc, h1, h3⟩

theorem em_run_getS {α : Type} (f : St → EM α) (s : St) : (getS >>= f) s = f s s := rfl

/-- C4: the constant-expression production succeeds iff the
conditional-expression parsed into a fresh head block leaves the tail
equal to the head and yields an operand of kind IMMEDIATE; otherwise
the diagnostic is raised and the run exits; on success the returned
Var is the IMMEDIATE operand taken from the head block. -/
theorem c4_constant_expression :
    ∀ (fuel : Nat) (s : St),
      (match conditional_expression fuel s.blocks.length
          { s with blocks := s.blocks ++ [BlockT.empty] } with
       | .ok tail s2 =>
           (tail = s.blocks.length → (blk s2 tail).expr.kind = VKind.IMMEDIATE →
               constant_expression (fuel + 1) s = .ok ((blk s2 tail).expr) s2
               ∧ ((blk s2 tail).expr).kind = VKind.IMMEDIATE)
           ∧ (¬ (tail = s.blocks.length ∧ (blk s2 tail).expr.kind = VKind.IMMEDIATE) →
               constant_expression (fuel + 1) s
                 = .exited { s2 with errors := s2.errors ++ [c4msg] })
       | .exited s2 => constant_expression (fuel + 1) s = .exited s2
       | .fuelOut => constant_expression (fuel + 1) s = .fuelOut) := by
  intro fuel s
  have h1 : constant_expression (fuel + 1) s
      = ((conditional_expression fuel s.blocks.length >>= c4k s.blocks.length)
          { s with blocks := s.blocks ++ [BlockT.empty] }) := rfl
  rw [em_run_bind] at h1
  cases hres : conditional_expression fuel s.blocks.length
      { s with blocks := s.blocks ++ [BlockT.empty] } with
  | exited s2 => rw [hres] at h1; exact h1
  | fuelOut => rw [hres] at h1; exact h1
  | ok tail s2 =>
      rw [hres] at h1
      have h2 : constant_expression (fuel + 1) s = c4k s.blocks.length tail s2 := h1
      unfold c4k at h2
      rw [em_run_getS] at h2
      constructor
      · intro htail hkind
        rw [if_neg (by push_neg; exact ⟨htail, hkind⟩)] at h2
        exact ⟨h2, hkind⟩
      · intro hne
        rw [if_pos (not_and_or.mp hne)] at h2
        exact h2

/-- Witness: the characterization at a concrete success and a concrete
failure, with the hypotheses discharged by evaluation. -/
theorem c4_constant_expression_witness :
    (match constant_expression 16 (baseSt [.INTEGER_CONSTANT 3, .semi] []) with
     | .ok v _ => v.kind = VKind.IMMEDIATE ∧ v = var_int 3
     | _ => False)
    ∧ resExited (constant_expression 16
        (baseSt [.IDENTIFIER "a", .semi] [("a", basic_type__int)])) = true := by
  constructor
  · have h := c4_constant_expression 15 (baseSt [.INTEGER_CONSTANT 3, .semi] [])
    have h2 := h.1 rfl rfl
    rw [h2.1]
    exact ⟨h2.2, rfl⟩
  · have h := c4_constant_expression 15
        (baseSt [.IDENTIFIER "a", .semi] [("a", basic_type__int)])
    have h2 := h.2 (by decide)
    rw [h2]
    rfl

theorem resExited_pure {α : Type} (a : α) (s : St) :
    resExited ((pure a : EM α) s) = false := rfl

theorem resExited_error_exit {α : Type} (msg : String) (s : St) :
    resExited ((do errorM msg; exitOne : EM α) s) = true := rfl

/-- C7: the three type-specifier keywords signed, long, int may appear in
any permutation and accumulate the same specifier bitmask, so the whole
declaration-specifier parse is invariant under the reordering; the mask
is resolved by the fixed table (0x018 to signed int, 0x0D8 to long,
the lacc representation of signed long long int), and every mask outside
the table is diagnosed as an invalid type specification and exits. -/
theorem c7_specifier_permutation :
    (∀ (l rest : List Tok) (s : St) (hasStc : Bool),
        l.Perm [Tok.SIGNED, Tok.LONG, Tok.INTKW] →
        declaration_specifiers 12 hasStc { s with toks := l ++ rest }
          = declaration_specifiers 12 hasStc
              { s with toks := [Tok.SIGNED, Tok.LONG, Tok.INTKW] ++ rest })
    ∧ (∀ s : St, get_basic_type_from_specifier 0x018 s = .ok basic_type__int s)
    ∧ (∀ s : St, get_basic_type_from_specifier 0x0D8 s = .ok basic_type__long s)
    ∧ (∀ (spec : Nat) (s : St),
        resExited (get_basic_type_from_specifier spec s) = true ↔ spec ∉ specMasks) := by
  refine ⟨?_, fun s => rfl, fun s => rfl, ?_⟩
  · intro l rest s hasStc hp
    have hmem : l ∈ [Tok.SIGNED, Tok.LONG, Tok.INTKW].permutations' :=
      List.mem_permutations'.mpr hp
    have hperms : [Tok.SIGNED, Tok.LONG, Tok.INTKW].permutations'
        = [[Tok.SIGNED, Tok.LONG, Tok.INTKW], [Tok.LONG, Tok.SIGNED, Tok.INTKW],
           [Tok.LONG, Tok.INTKW, Tok.SIGNED], [Tok.SIGNED, Tok.INTKW, Tok.LONG],
           [Tok.INTKW, Tok.SIGNED, Tok.LONG], [Tok.INTKW, Tok.LONG, Tok.SIGNED]] := rfl
    rw [hperms] at hmem
    simp only [List.mem_cons, List.not_mem_nil, or_false] at hmem
    rcases hmem with h | h | h | h | h | h <;> subst h <;> rfl
  · intro spec s
    constructor
    · intro hex hmem
      simp only [specMasks, List.mem_cons, List.not_mem_nil, or_false] at hmem
      rcases hmem with h|h|h|h|h|h|h|h|h|h|h|h|h|h|h|h|h|h|h|h|h|h|h|h|h|h|h|h|h <;>
        subst h <;> exact Bool.false_ne_true hex
    · intro hnot
      simp only [specMasks, List.mem_cons, List.not_mem_nil, or_false, not_or] at hnot
      obtain ⟨n1, n2, n3, n4, n5, n6, n7, n8, n9, n10, n11, n12, n13, n14, n15,
        n16, n17, n18, n19, n20, n21, n22, n23, n24, n25, n26, n27, n28, n29⟩ := hnot
      unfold get_basic_type_from_specifier
      rw [if_neg n1,
          if_neg (not_or.mpr ⟨n2, n3⟩),
          if_neg n4,
          if_neg (by push_neg; exact ⟨n5, n6, n7, n8⟩),
          if_neg (not_or.mpr ⟨n9, n10⟩),
          if_neg (by push_neg; exact ⟨n11, n12, n13⟩),
          if_neg (not_or.mpr ⟨n14, n15⟩),
          if_neg (by push_neg; exact ⟨n16, n17, n18, n19, n20, n21, n22⟩),
          if_neg (by push_neg; exact ⟨n23, n24, n25, n26⟩),
          if_neg n27,
          if_neg (not_or.mpr ⟨n28, n29⟩)]
      rfl

/-- Witness: the permutation invariance at the swapped order long signed
int, and the table error at the mask 0x003. -/
theorem c7_specifier_permutation_witness :
    [Tok.LONG, Tok.SIGNED, Tok.INTKW].Perm [Tok.SIGNED, Tok.LONG, Tok.INTKW]
    ∧ declaration_specifiers 12 true
        { baseSt [] [] with toks := [Tok.LONG, Tok.SIGNED, Tok.INTKW] ++ [Tok.semi] }
      = declaration_specifiers 12 true
        { baseSt [] [] with toks := [Tok.SIGNED, Tok.LONG, Tok.INTKW] ++ [Tok.semi] }
    ∧ resExited (get_basic_type_from_specifier 0x003 (baseSt [] [])) = true
    ∧ (0x003 : Nat) ∉ specMasks := by
  have hperm := List.Perm.swap Tok.SIGNED Tok.LONG [Tok.INTKW]
  refine ⟨hperm,
    c7_specifier_permutation.1 [Tok.LONG, Tok.SIGNED, Tok.INTKW] [Tok.semi]
      (baseSt [] []) true hperm, ?_, by decide⟩
  exact (c7_specifier_permutation.2.2.2 0x003 (baseSt [] [])).mpr (by decide)

theorem nsKeep_rfl (n : NamespaceT) : nsKeep n n := ⟨rfl, rfl, rfl⟩

theorem bal_refl (s : St) : Bal s s := ⟨⟨rfl, rfl⟩, ⟨rfl, rfl⟩⟩

theorem bal_trans {s1 s2 s3 : St} (h1 : Bal s1 s2) (h2 : Bal s2 s3) : Bal s1 s3 := by
  obtain ⟨⟨a1, a2⟩, ⟨a3, a4⟩⟩ := h1
  obtain ⟨⟨b1, b2⟩, ⟨b3, b4⟩⟩ := h2
  exact ⟨⟨b1.trans a1, by omega⟩, ⟨b3.trans a3, by omega⟩⟩

theorem bal_of_keep {s1 s2 : St}
    (h1 : nsKeep s1.nsIdent s2.nsIdent) (h2 : nsKeep s1.nsTag s2.nsTag) :
    Bal s1 s2 := by
  obtain ⟨a1, a2, a3⟩ := h1
  obtain ⟨b1, b2, b3⟩ := h2
  exact ⟨⟨a1, by omega⟩, ⟨b1, by omega⟩⟩

/-- Successful run of a bind splits into successful runs of the parts. -/
theorem bind_ok {α β : Type} {m : EM α} {f : α → EM β} {s s2 : St} {r : β}
    (h : (m >>= f) s = .ok r s2) :
    ∃ a s1, m s = .ok a s1 ∧ f a s1 = .ok r s2 := by
  have hb : (m >>= f) s = match m s with
    | .ok a s1 => f a s1
    | .exited s1 => .exited s1
    | .fuelOut => .fuelOut := rfl
  rw [h] at hb
  cases hm : m s with
  | ok a s1 => rw [hm] at hb; exact ⟨a, s1, rfl, hb.symm⟩
  | exited s1 => rw [hm] at hb; exact absurd hb (by simp)
  | fuelOut => rw [hm] at hb; exact absurd hb (by simp)

theorem pres_bind {α β : Type} {m : EM α} {f : α → EM β}
    (hm : Pres m) (hf : ∀ a, Pres (f a)) : Pres (m >>= f) := by
  intro s r s2 h
  obtain ⟨a, s1, h1, h2⟩ := bind_ok h
  exact bal_trans (hm s a s1 h1) (hf a s1 r s2 h2)

theorem pres_pure {α : Type} (a : α) : Pres (pure a : EM α) := by
  intro s r s2 h
  cases h
  exact bal_refl s

theorem pres_exitOne {α : Type} : Pres (exitOne : EM α) := by
  intro s r s2 h
  exact absurd h (by simp [exitOne])

theorem pres_fuelOutM {α : Type} : Pres (fuelOutM : EM α) := by
  intro s r s2 h
  exact absurd h (by simp [fuelOutM])

theorem pres_modify (f : St → St)
    (hf : ∀ s, nsKeep s.nsIdent (f s).nsIdent ∧ nsKeep s.nsTag (f s).nsTag) :
    Pres (modifyS f) := by
  intro s r s2 h
  cases h
  exact bal_of_keep (hf s).1 (hf s).2

theorem pres_getS : Pres getS := by
  intro s r s2 h; cases h; exact bal_refl s

theorem pres_peekS : Pres peekS := by
  intro s r s2 h; cases h; exact bal_refl s

theorem pres_peekn2 : Pres peekn2 := by
  intro s r s2 h; cases h; exact bal_refl s

theorem pres_nextS : Pres nextS := by
  intro s r s2 h; cases h; exact bal_refl s

theorem pres_getExpr (b : Nat) : Pres (getExpr b) := by
  intro s r s2 h; cases h; exact bal_refl s

theorem pres_symLookupIdent (n : String) : Pres (symLookupIdent n) := by
  intro s r s2 h; cases h; exact bal_refl s

theorem pres_symLookupTag (n : String) : Pres (symLookupTag n) := by
  intro s r s2 h; cases h; exact bal_refl s

theorem pres_errorM (msg : String) : Pres (errorM msg) :=
  pres_modify _ (fun s => ⟨nsKeep_rfl _, nsKeep_rfl _⟩)

theorem pres_updBlockM (i : Nat) (f : BlockT → BlockT) : Pres (updBlockM i f) :=
  pres_modify _ (fun s => ⟨nsKeep_rfl _, nsKeep_rfl _⟩)

theorem pres_updSymM (i : Nat) (f : Symb → Symb) : Pres (updSymM i f) :=
  pres_modify _ (fun s => ⟨nsKeep_rfl _, nsKeep_rfl _⟩)

theorem pres_setExprM (b : Nat) (v : Var) : Pres (setExprM b v) :=
  pres_updBlockM _ _

theorem pres_setJump0 (b : Nat) (t : Option Nat) : Pres (setJump0 b t) :=
  pres_updBlockM _ _

theorem pres_setJump1 (b : Nat) (t : Option Nat) : Pres (setJump1 b t) :=
  pres_updBlockM _ _

theorem pres_emitIr (b : Nat) (op : Ir) : Pres (emitIr b op) :=
  pres_updBlockM _ _

theorem pres_cfgBlockInitM : Pres cfgBlockInitM := by
  intro s r s2 h; cases h; exact bal_refl s

theorem pres_createVar (ty : Typ) : Pres (createVar ty) := by
  intro s r s2 h; cases h; exact bal_refl s

theorem pres_consume (k : Tok) : Pres (consume k) := by
  unfold consume
  apply pres_bind pres_peekS
  intro t
  by_cases hc : t.sameKind k = true
  · rw [if_pos hc]; exact pres_nextS
  · rw [if_neg hc]
    exact pres_bind (pres_errorM _) (fun _ => pres_exitOne)

theorem nsAdd_spec (ns : NamespaceT) (syms : List Symb) (name : String) (ty : Typ)
    (st : Symtype) (lk : Linkage) :
    nsKeep ns (nsAdd ns syms name ty st lk).2.1 := by
  unfold nsAdd
  cases List.find? (fun e => e.1 = name && e.2.2 == ns.currentDepth) ns.entries <;>
    exact ⟨rfl, rfl, rfl⟩

theorem pres_symAddIdent (n : String) (ty : Typ) (st : Symtype) (lk : Linkage) :
    Pres (symAddIdent n ty st lk) := by
  intro s r s2 h
  have h2 : Res.ok (nsAdd s.nsIdent s.syms n ty st lk).1
      { s with nsIdent := (nsAdd s.nsIdent s.syms n ty st lk).2.1,
               syms := (nsAdd s.nsIdent s.syms n ty st lk).2.2 } = Res.ok r s2 := h
  injection h2 with h3 h4
  subst h4
  exact bal_of_keep (nsAdd_spec s.nsIdent s.syms n ty st lk) (nsKeep_rfl _)

theorem pres_symAddTag (n : String) (ty : Typ) (st : Symtype) (lk : Linkage) :
    Pres (symAddTag n ty st lk) := by
  intro s r s2 h
  have h2 : Res.ok (nsAdd s.nsTag s.syms n ty st lk).1
      { s with nsTag := (nsAdd s.nsTag s.syms n ty st lk).2.1,
               syms := (nsAdd s.nsTag s.syms n ty st lk).2.2 } = Res.ok r s2 := h
  injection h2 with h3 h4
  subst h4
  exact bal_of_keep (nsKeep_rfl _) (nsAdd_spec s.nsTag s.syms n ty st lk)

theorem pres_symAddLocal (ns : NamespaceT) (n : String) (ty : Typ)
    (st : Symtype) (lk : Linkage) : Pres (symAddLocal ns n ty st lk) := by
  intro s r s2 h
  have h2 : Res.ok ((nsAdd ns s.syms n ty st lk).1, (nsAdd ns s.syms n ty st lk).2.1)
      { s with syms := (nsAdd ns s.syms n ty st lk).2.2 } = Res.ok r s2 := h
  injection h2 with h3 h4
  subst h4
  exact bal_refl _

theorem pres_evalExprB (b : Nat) (op : IrOp) (l r : Var) : Pres (evalExprB b op l r) := by
  unfold evalExprB
  by_cases hc : (l.kind == VKind.IMMEDIATE && r.kind == VKind.IMMEDIATE
      && isInteger l.type && isInteger r.type) = true
  · rw [if_pos hc]
    cases foldBinop op l.imm r.imm with
    | some v => exact pres_pure _
    | none =>
        exact pres_bind (pres_createVar _)
          (fun t => pres_bind (pres_emitIr _ _) (fun _ => pres_pure _))
  · rw [if_neg hc]
    exact pres_bind (pres_createVar _)
      (fun t => pres_bind (pres_emitIr _ _) (fun _ => pres_pure _))

theorem pres_evalExprU (b : Nat) (op : IrOp) (v : Var) : Pres (evalExprU b op v) :=
  pres_bind (pres_createVar _) (fun t => pres_bind (pres_emitIr _ _) (fun _ => pres_pure _))

theorem pres_evalAssign (b : Nat) (t v : Var) : Pres (evalAssign b t v) :=
  pres_bind (pres_emitIr _ _) (fun _ => pres_pure _)

theorem pres_evalDeref (b : Nat) (v : Var) : Pres (evalDeref b v) := pres_pure _

theorem pres_evalAddr (b : Nat) (v : Var) : Pres (evalAddr b v) :=
  pres_bind (pres_createVar _) (fun t => pres_bind (pres_emitIr _ _) (fun _ => pres_pure _))

theorem pres_evalCast (b : Nat) (v : Var) (ty : Typ) : Pres (evalCast b v ty) :=
  pres_bind (pres_createVar _) (fun t => pres_bind (pres_emitIr _ _) (fun _ => pres_pure _))

theorem pres_paramEmit (b : Nat) (v : Var) : Pres (paramEmit b v) := pres_emitIr _ _

theorem pres_evalCall (b : Nat) (f : Var) : Pres (evalCall b f) :=
  pres_bind (pres_createVar _) (fun t => pres_bind (pres_emitIr _ _) (fun _ => pres_pure _))

theorem pres_evalReturn (b : Nat) (ty : Typ) : Pres (evalReturn b ty) :=
  pres_bind (pres_getExpr _) (fun v => pres_bind (pres_emitIr _ _) (fun _ => pres_pure _))

theorem pres_evalConditional (c : Var) (t f : Nat) : Pres (evalConditional c t f) := by
  intro s r s2 h
  exact pres_createVar _ s r s2 h

theorem pres_evalLogicalAnd (a b c : Nat) : Pres (evalLogicalAnd a b c) :=
  pres_bind pres_cfgBlockInitM (fun n =>
    pres_bind (pres_setJump0 _ _) (fun _ =>
      pres_bind (pres_setJump1 _ _) (fun _ =>
        pres_bind (pres_setJump0 _ _) (fun _ =>
          pres_bind (pres_createVar _) (fun t =>
            pres_bind (pres_setExprM _ _) (fun _ => pres_pure _))))))

theorem pres_evalLogicalOr (a b c : Nat) : Pres (evalLogicalOr a b c) :=
  pres_bind pres_cfgBlockInitM (fun n =>
    pres_bind (pres_setJump0 _ _) (fun _ =>
      pres_bind (pres_setJump1 _ _) (fun _ =>
        pres_bind (pres_setJump0 _ _) (fun _ =>
          pres_bind (pres_createVar _) (fun t =>
            pres_bind (pres_setExprM _ _) (fun _ => pres_pure _))))))

theorem pres_cfgInitCurrent : Pres cfgInitCurrent :=
  pres_bind pres_cfgBlockInitM (fun h =>
    pres_bind pres_cfgBlockInitM (fun b =>
      pres_modify _ (fun s => ⟨nsKeep_rfl _, nsKeep_rfl _⟩)))

theorem pres_cfgRegisterLocal (i : Nat) : Pres (cfgRegisterLocal i) := pres_pure _

theorem pres_cfgRegisterParam (i : Nat) : Pres (cfgRegisterParam i) := pres_pure _

theorem pres_add_switch_case (l : Nat) (v : Var) : Pres (add_switch_case l v) := by
  apply pres_modify
  intro s
  unfold_let
  cases s.switchCtx <;> exact ⟨nsKeep_rfl _, nsKeep_rfl _⟩

theorem pres_define_builtin__func__ (n : String) : Pres (define_builtin__func__ n) :=
  pres_bind (pres_symAddIdent _ _ _ _) (fun i =>
    pres_bind pres_getS (fun s =>
      pres_bind (pres_evalAssign _ _ _) (fun _ => pres_pure _)))

theorem pres_get_basic_type_from_specifier (spec : Nat) :
    Pres (get_basic_type_from_specifier spec) := by
  unfold get_basic_type_from_specifier
  by_cases h0 : spec = 0x0001
  · rw [if_pos h0]; exact pres_pure _
  · rw [if_neg h0]
    by_cases h1 : spec = 0x0002 ∨ spec = 0x0012
    · rw [if_pos h1]; exact pres_pure _
    · rw [if_neg h1]
      by_cases h2 : spec = 0x0022
      · rw [if_pos h2]; exact pres_pure _
      · rw [if_neg h2]
        by_cases h3 : spec = 0x0004 ∨ spec = 0x0014 ∨ spec = 0x000C ∨ spec = 0x001C
        · rw [if_pos h3]; exact pres_pure _
        · rw [if_neg h3]
          by_cases h4 : spec = 0x0024 ∨ spec = 0x002C
          · rw [if_pos h4]; exact pres_pure _
          · rw [if_neg h4]
            by_cases h5 : spec = 0x0008 ∨ spec = 0x0010 ∨ spec = 0x0018
            · rw [if_pos h5]; exact pres_pure _
            · rw [if_neg h5]
              by_cases h6 : spec = 0x0020 ∨ spec = 0x0028
              · rw [if_pos h6]; exact pres_pure _
              · rw [if_neg h6]
                by_cases h7 : spec = 0x0040 ∨ spec = 0x0050 ∨ spec = 0x0048 ∨ spec = 0x0058 ∨ spec = 0x00C0 ∨ spec = 0x00D0 ∨ spec = 0x00D8
                · rw [if_pos h7]; exact pres_pure _
                · rw [if_neg h7]
                  by_cases h8 : spec = 0x0060 ∨ spec = 0x0068 ∨ spec = 0x00E0 ∨ spec = 0x00E8
                  · rw [if_pos h8]; exact pres_pure _
                  · rw [if_neg h8]
                    by_cases h9 : spec = 0x0100
                    · rw [if_pos h9]; exact pres_pure _
                    · rw [if_neg h9]
                      by_cases h10 : spec = 0x0200 ∨ spec = 0x0240
                      · rw [if_pos h10]; exact pres_pure _
                      · rw [if_neg h10]
                        exact pres_bind (pres_errorM _) (fun _ => pres_exitOne)

theorem pres_switchWireLoop (e : Var) (cs : List (Var × Nat)) (c : Nat) :
    Pres (switchWireLoop e cs c) := by
  induction cs generalizing c with
  | nil => exact pres_pure c
  | cons p rest ih =>
      obtain ⟨v, l⟩ := p
      exact pres_bind pres_cfgBlockInitM (fun c2 =>
        pres_bind (pres_evalExprB _ _ _ _) (fun r =>
          pres_bind (pres_setExprM _ _) (fun _ =>
            pres_bind (pres_setJump1 _ _) (fun _ =>
              pres_bind (pres_setJump0 _ _) (fun _ => ih c2)))))

theorem pres_switchWire (e : Var) (ctx : SwitchContext) (parent nxt : Nat) :
    Pres (switchWire e ctx parent nxt) := by
  unfold switchWire
  by_cases hc : (ctx.n == 0 && ctx.default_label.isNone) = true
  · rw [if_pos hc]; exact pres_setJump0 _ _
  · rw [if_neg hc]
    exact pres_bind (pres_switchWireLoop _ _ _) (fun c => pres_setJump0 _ _)

theorem pres_block_scopes (m1 : EM Tok) (m : EM Nat) (m2 : EM Tok)
    (hm1 : Pres m1) (hm : Pres m) (hm2 : Pres m2) :
    Pres (do
      let _ ← m1
      pushScopeIdent
      pushScopeTag
      let p ← m
      let _ ← m2
      popScopeTag
      popScopeIdent
      pure p) := by
  intro s r s2 heq
  obtain ⟨_, s1, h1, heq⟩ := bind_ok heq
  obtain ⟨_, sp1, hp1, heq⟩ := bind_ok heq
  obtain ⟨_, sp2, hp2, heq⟩ := bind_ok heq
  obtain ⟨p, s4, h4, heq⟩ := bind_ok heq
  obtain ⟨_, s5, h5, heq⟩ := bind_ok heq
  obtain ⟨_, s6, h6, heq⟩ := bind_ok heq
  obtain ⟨_, s7, h7, heq⟩ := bind_ok heq
  cases heq
  cases hp1
  cases hp2
  cases h6
  cases h7
  have b1 := hm1 _ _ _ h1
  have b4 := hm _ _ _ h4
  have b5 := hm2 _ _ _ h5
  simp only [Bal, nsB, pushScopeV, popScopeV] at b1 b4 b5 ⊢
  omega

theorem pres_fundef_scopes (m0 : EM Unit) (mp : EM Unit) (m : EM Nat)
    (h0 : Pres m0) (hp : Pres mp) (hm : Pres m) :
    Pres (do
      pushScopeIdent
      m0
      mp
      let p ← m
      popScopeIdent
      pure p) := by
  intro s r s2 heq
  obtain ⟨_, sp1, hp1, heq⟩ := bind_ok heq
  obtain ⟨_, s1, h1, heq⟩ := bind_ok heq
  obtain ⟨_, s3, h3, heq⟩ := bind_ok heq
  obtain ⟨p, s4, h4, heq⟩ := bind_ok heq
  obtain ⟨_, s5, h5, heq⟩ := bind_ok heq
  cases heq
  cases hp1
  cases h5
  have b1 := h0 _ _ _ h1
  have b3 := hp _ _ _ h3
  have b4 := hm _ _ _ h4
  simp only [Bal, nsB, pushScopeV, popScopeV] at b1 b3 b4 ⊢
  omega

theorem interpPres_none : InterpPres interpNone := by
  constructor <;> intros <;> exact pres_fuelOutM

theorem presStep_zeroInitialize (I : Interp) (hI : InterpPres I) :
    ∀ b v, Pres ((interpStep I).zeroInitialize b v) := by
  intro b v
  unfold interpStep
  repeat' first
    | apply pres_pure
    | apply pres_errorM
    | apply pres_exitOne
    | apply pres_evalAssign
    | apply hI.zeroInitMembers
    | apply hI.zeroInitElems
    | apply pres_bind
    | split
    | simp only []
    | intro _

theorem presStep_zeroInitMembers (I : Interp) (hI : InterpPres I) :
    ∀ b v t i, Pres ((interpStep I).zeroInitMembers b v t i) := by
  intro b v t i
  unfold interpStep
  repeat' first
    | apply pres_pure
    | apply hI.zeroInitialize
    | apply hI.zeroInitMembers
    | apply pres_bind
    | split
    | simp only []
    | intro _

theorem presStep_zeroInitElems (I : Interp) (hI : InterpPres I) :
    ∀ b v t i, Pres ((interpStep I).zeroInitElems b v t i) := by
  intro b v t i
  unfold interpStep
  repeat' first
    | apply pres_pure
    | apply hI.zeroInitialize
    | apply hI.zeroInitElems
    | apply pres_bind
    | split
    | simp only []
    | intro _

theorem presStep_primary_expression (I : Interp) (hI : InterpPres I) :
    ∀ b, Pres ((interpStep I).primary_expression b) := by
  intro b
  unfold interpStep
  repeat' first
    | apply pres_pure
    | apply pres_consume
    | apply pres_nextS
    | apply pres_getS
    | apply pres_errorM
    | apply pres_exitOne
    | apply pres_setExprM
    | apply pres_symLookupIdent
    | apply hI.expression
    | apply pres_bind
    | split
    | simp only []
    | intro _

theorem presStep_postfix_expression (I : Interp) (hI : InterpPres I) :
    ∀ b, Pres ((interpStep I).postfix_expression b) := by
  intro b
  unfold interpStep
  repeat' first
    | apply pres_pure
    | apply pres_getExpr
    | apply hI.primary_expression
    | apply hI.postfixLoop
    | apply pres_bind
    | split
    | simp only []
    | intro _

theorem presStep_postfixLoop (I : Interp) (hI : InterpPres I) :
    ∀ b v, Pres ((interpStep I).postfixLoop b v) := by
  intro b v
  unfold interpStep
  repeat' first
    | apply pres_pure
    | apply pres_consume
    | apply pres_peekS
    | apply pres_setExprM
    | apply pres_createVar
    | apply pres_evalExprB
    | apply pres_evalAssign
    | apply hI.postfixLoop
    | apply pres_bind
    | split
    | simp only []
    | intro _

theorem presStep_unary_expression (I : Interp) (hI : InterpPres I) :
    ∀ b, Pres ((interpStep I).unary_expression b) := by
  intro b
  unfold interpStep
  repeat' first
    | apply pres_pure
    | apply pres_consume
    | apply pres_peekS
    | apply pres_peekn2
    | apply pres_getExpr
    | apply pres_errorM
    | apply pres_cfgBlockInitM
    | apply pres_setExprM
    | apply pres_evalExprB
    | apply pres_evalExprU
    | apply pres_evalAssign
    | apply pres_evalDeref
    | apply pres_evalAddr
    | apply hI.postfix_expression
    | apply hI.unary_expression
    | apply hI.cast_expression
    | apply hI.declarator
    | apply hI.declaration_specifiers
    | apply pres_bind
    | split
    | simp only []
    | intro _

theorem presStep_cast_expression (I : Interp) (hI : InterpPres I) :
    ∀ b, Pres ((interpStep I).cast_expression b) := by
  intro b
  unfold interpStep
  repeat' first
    | apply pres_pure
    | apply pres_consume
    | apply pres_peekS
    | apply pres_peekn2
    | apply pres_getS
    | apply pres_getExpr
    | apply pres_setExprM
    | apply pres_evalCast
    | apply pres_symLookupIdent
    | apply hI.unary_expression
    | apply hI.cast_expression
    | apply hI.declarator
    | apply hI.declaration_specifiers
    | apply pres_bind
    | split
    | simp only []
    | intro _

theorem presStep_multiplicative_expression (I : Interp) (hI : InterpPres I) :
    ∀ b, Pres ((interpStep I).multiplicative_expression b) := by
  intro b
  unfold interpStep
  repeat' first
    | apply pres_pure
    | apply hI.cast_expression
    | apply hI.multiplicativeLoop
    | apply pres_bind
    | split
    | simp only []
    | intro _

theorem presStep_multiplicativeLoop (I : Interp) (hI : InterpPres I) :
    ∀ b, Pres ((interpStep I).multiplicativeLoop b) := by
  intro b
  unfold interpStep
  repeat' first
    | apply pres_pure
    | apply pres_consume
    | apply pres_peekS
    | apply pres_getExpr
    | apply pres_setExprM
    | apply pres_evalExprB
    | apply hI.cast_expression
    | apply hI.multiplicativeLoop
    | apply pres_bind
    | split
    | simp only []
    | intro _

theorem presStep_additive_expression (I : Interp) (hI : InterpPres I) :
    ∀ b, Pres ((interpStep I).additive_expression b) := by
  intro b
  unfold interpStep
  repeat' first
    | apply pres_pure
    | apply hI.multiplicative_expression
    | apply hI.additiveLoop
    | apply pres_bind
    | split
    | simp only []
    | intro _

theorem presStep_additiveLoop (I : Interp) (hI : InterpPres I) :
    ∀ b, Pres ((interpStep I).additiveLoop b) := by
  intro b
  unfold interpStep
  repeat' first
    | apply pres_pure
    | apply pres_consume
    | apply pres_peekS
    | apply pres_getExpr
    | apply pres_setExprM
    | apply pres_evalExprB
    | apply hI.multiplicative_expression
    | apply hI.additiveLoop
    | apply pres_bind
    | split
    | simp only []
    | intro _

theorem presStep_shift_expression (I : Interp) (hI : InterpPres I) :
    ∀ b, Pres ((interpStep I).shift_expression b) := by
  intro b
  unfold interpStep
  repeat' first
    | apply pres_pure
    | apply hI.additive_expression
    | apply hI.shiftLoop
    | apply pres_bind
    | split
    | simp only []
    | intro _

theorem presStep_shiftLoop (I : Interp) (hI : InterpPres I) :
    ∀ b, Pres ((interpStep I).shiftLoop b) := by
  intro b
  unfold interpStep
  repeat' first
    | apply pres_pure
    | apply pres_consume
    | apply pres_peekS
    | apply pres_getExpr
    | apply pres_setExprM
    | apply pres_evalExprB
    | apply hI.additive_expression
    | apply hI.shiftLoop
    | apply pres_bind
    | split
    | simp only []
    | intro _

theorem presStep_relational_expression (I : Interp) (hI : InterpPres I) :
    ∀ b, Pres ((interpStep I).relational_expression b) := by
  intro b
  unfold interpStep
  repeat' first
    | apply pres_pure
    | apply hI.shift_expression
    | apply hI.relationalLoop
    | apply pres_bind
    | split
    | simp only []
    | intro _

theorem presStep_relationalLoop (I : Interp) (hI : InterpPres I) :
    ∀ b, Pres ((interpStep I).relationalLoop b) := by
  intro b
  unfold interpStep
  repeat' first
    | apply pres_pure
    | apply pres_consume
    | apply pres_peekS
    | apply pres_getExpr
    | apply pres_setExprM
    | apply pres_evalExprB
    | apply hI.shift_expression
    | apply hI.relationalLoop
    | apply pres_bind
    | split
    | simp only []
    | intro _

theorem presStep_equality_expression (I : Interp) (hI : InterpPres I) :
    ∀ b, Pres ((interpStep I).equality_expression b) := by
  intro b
  unfold interpStep
  repeat' first
    | apply pres_pure
    | apply hI.relational_expression
    | apply hI.equalityLoop
    | apply pres_bind
    | split
    | simp only []
    | intro _

theorem presStep_equalityLoop (I : Interp) (hI : InterpPres I) :
    ∀ b, Pres ((interpStep I).equalityLoop b) := by
  intro b
  unfold interpStep
  repeat' first
    | apply pres_pure
    | apply pres_consume
    | apply pres_peekS
    | apply pres_getExpr
    | apply pres_setExprM
    | apply pres_evalExprB
    | apply hI.relational_expression
    | apply hI.equalityLoop
    | apply pres_bind
    | split
    | simp only []
    | intro _

theorem presStep_and_expression (I : Interp) (hI : InterpPres I) :
    ∀ b, Pres ((interpStep I).and_expression b) := by
  intro b
  unfold interpStep
  repeat' first
    | apply pres_pure
    | apply hI.equality_expression
    | apply hI.andLoop
    | apply pres_bind
    | split
    | simp only []
    | intro _

theorem presStep_andLoop (I : Interp) (hI : InterpPres I) :
    ∀ b, Pres ((interpStep I).andLoop b) := by
  intro b
  unfold interpStep
  repeat' first
    | apply pres_pure
    | apply pres_consume
    | apply pres_peekS
    | apply pres_getExpr
    | apply pres_setExprM
    | apply pres_evalExprB
    | apply hI.equality_expression
    | apply hI.andLoop
    | apply pres_bind
    | split
    | simp only []
    | intro _

theorem presStep_exclusive_or_expression (I : Interp) (hI : InterpPres I) :
    ∀ b, Pres ((interpStep I).exclusive_or_expression b) := by
  intro b
  unfold interpStep
  repeat' first
    | apply pres_pure
    | apply hI.and_expression
    | apply hI.xorLoop
    | apply pres_bind
    | split
    | simp only []
    | intro _

theorem presStep_xorLoop (I : Interp) (hI : InterpPres I) :
    ∀ b, Pres ((interpStep I).xorLoop b) := by
  intro b
  unfold interpStep
  repeat' first
    | apply pres_pure
    | apply pres_consume
    | apply pres_peekS
    | apply pres_getExpr
    | apply pres_setExprM
    | apply pres_evalExprB
    | apply hI.and_expression
    | apply hI.xorLoop
    | apply pres_bind
    | split
    | simp only []
    | intro _

theorem presStep_inclusive_or_expression (I : Interp) (hI : InterpPres I) :
    ∀ b, Pres ((interpStep I).inclusive_or_expression b) := by
  intro b
  unfold interpStep
  repeat' first
    | apply pres_pure
    | apply hI.exclusive_or_expression
    | apply hI.orLoop
    | apply pres_bind
    | split
    | simp only []
    | intro _

theorem presStep_orLoop (I : Interp) (hI : InterpPres I) :
    ∀ b, Pres ((interpStep I).orLoop b) := by
  intro b
  unfold interpStep
  repeat' first
    | apply pres_pure
    | apply pres_consume
    | apply pres_peekS
    | apply pres_getExpr
    | apply pres_setExprM
    | apply pres_evalExprB
    | apply hI.exclusive_or_expression
    | apply hI.orLoop
    | apply pres_bind
    | split
    | simp only []
    | intro _

theorem presStep_logical_and_expression (I : Interp) (hI : InterpPres I) :
    ∀ b, Pres ((interpStep I).logical_and_expression b) := by
  intro b
  unfold interpStep
  repeat' first
    | apply pres_pure
    | apply pres_consume
    | apply pres_peekS
    | apply pres_cfgBlockInitM
    | apply pres_evalLogicalAnd
    | apply hI.inclusive_or_expression
    | apply hI.logical_and_expression
    | apply pres_bind
    | split
    | simp only []
    | intro _

theorem presStep_logical_or_expression (I : Interp) (hI : InterpPres I) :
    ∀ b, Pres ((interpStep I).logical_or_expression b) := by
  intro b
  unfold interpStep
  repeat' first
    | apply pres_pure
    | apply pres_consume
    | apply pres_peekS
    | apply pres_cfgBlockInitM
    | apply pres_evalLogicalOr
    | apply hI.logical_and_expression
    | apply hI.logical_or_expression
    | apply pres_bind
    | split
    | simp only []
    | intro _

theorem presStep_conditional_expression (I : Interp) (hI : InterpPres I) :
    ∀ b, Pres ((interpStep I).conditional_expression b) := by
  intro b
  unfold interpStep
  repeat' first
    | apply pres_pure
    | apply pres_consume
    | apply pres_peekS
    | apply pres_getS
    | apply pres_cfgBlockInitM
    | apply pres_setExprM
    | apply pres_setJump0
    | apply pres_setJump1
    | apply pres_evalConditional
    | apply hI.logical_or_expression
    | apply hI.conditional_expression
    | apply hI.expression
    | apply pres_bind
    | split
    | simp only []
    | intro _

theorem presStep_constant_expression (I : Interp) (hI : InterpPres I) :
    Pres ((interpStep I).constant_expression) := by
  unfold interpStep
  repeat' first
    | apply pres_pure
    | apply pres_getS
    | apply pres_errorM
    | apply pres_exitOne
    | apply pres_cfgBlockInitM
    | apply hI.conditional_expression
    | apply pres_bind
    | split
    | simp only []
    | intro _

theorem presStep_assignment_expression (I : Interp) (hI : InterpPres I) :
    ∀ b, Pres ((interpStep I).assignment_expression b) := by
  intro b
  unfold interpStep
  repeat' first
    | apply pres_pure
    | apply pres_consume
    | apply pres_peekS
    | apply pres_getExpr
    | apply pres_setExprM
    | apply pres_evalAssign
    | apply hI.conditional_expression
    | apply hI.assignment_expression
    | apply hI.compoundAssign
    | apply pres_bind
    | split
    | simp only []
    | intro _

theorem presStep_compoundAssign (I : Interp) (hI : InterpPres I) :
    ∀ b v t op, Pres ((interpStep I).compoundAssign b v t op) := by
  intro b v t op
  unfold interpStep
  repeat' first
    | apply pres_pure
    | apply pres_consume
    | apply pres_getExpr
    | apply pres_setExprM
    | apply pres_evalExprB
    | apply pres_evalAssign
    | apply hI.assignment_expression
    | apply pres_bind
    | split
    | simp only []
    | intro _

theorem presStep_expression (I : Interp) (hI : InterpPres I) :
    ∀ b, Pres ((interpStep I).expression b) := by
  intro b
  unfold interpStep
  repeat' first
    | apply pres_pure
    | apply hI.assignment_expression
    | apply hI.expressionCommaLoop
    | apply pres_bind
    | split
    | simp only []
    | intro _

theorem presStep_expressionCommaLoop (I : Interp) (hI : InterpPres I) :
    ∀ b, Pres ((interpStep I).expressionCommaLoop b) := by
  intro b
  unfold interpStep
  repeat' first
    | apply pres_pure
    | apply pres_consume
    | apply pres_peekS
    | apply hI.assignment_expression
    | apply hI.expressionCommaLoop
    | apply pres_bind
    | split
    | simp only []
    | intro _

theorem presStep_if_statement (I : Interp) (hI : InterpPres I) :
    ∀ b, Pres ((interpStep I).if_statement b) := by
  intro b
  unfold interpStep
  repeat' first
    | apply pres_pure
    | apply pres_consume
    | apply pres_peekS
    | apply pres_getS
    | apply pres_cfgBlockInitM
    | apply pres_setJump0
    | apply pres_setJump1
    | apply hI.expression
    | apply hI.statement
    | apply pres_bind
    | split
    | simp only []
    | intro _

theorem presStep_do_statement (I : Interp) (hI : InterpPres I) :
    ∀ b, Pres ((interpStep I).do_statement b) := by
  intro b
  unfold interpStep
  repeat' first
    | apply pres_pure
    | apply pres_consume
    | apply pres_getS
    | apply pres_cfgBlockInitM
    | apply pres_setJump0
    | apply pres_setJump1
    | apply hI.expression
    | apply hI.statement
    | apply pres_modify
    | exact ⟨nsKeep_rfl _, nsKeep_rfl _⟩
    | apply pres_bind
    | split
    | simp only []
    | intro _

theorem presStep_while_statement (I : Interp) (hI : InterpPres I) :
    ∀ b, Pres ((interpStep I).while_statement b) := by
  intro b
  unfold interpStep
  repeat' first
    | apply pres_pure
    | apply pres_consume
    | apply pres_getS
    | apply pres_cfgBlockInitM
    | apply pres_setJump0
    | apply pres_setJump1
    | apply hI.expression
    | apply hI.statement
    | apply pres_modify
    | exact ⟨nsKeep_rfl _, nsKeep_rfl _⟩
    | apply pres_bind
    | split
    | simp only []
    | intro _

theorem presStep_for_statement (I : Interp) (hI : InterpPres I) :
    ∀ b, Pres ((interpStep I).for_statement b) := by
  intro b
  unfold interpStep
  repeat' first
    | apply pres_pure
    | apply pres_consume
    | apply pres_peekS
    | apply pres_getS
    | apply pres_cfgBlockInitM
    | apply pres_setJump0
    | apply pres_setJump1
    | apply hI.expression
    | apply hI.statement
    | apply pres_modify
    | exact ⟨nsKeep_rfl _, nsKeep_rfl _⟩
    | apply pres_bind
    | split
    | simp only []
    | intro _

theorem presStep_switch_statement (I : Interp) (hI : InterpPres I) :
    ∀ b, Pres ((interpStep I).switch_statement b) := by
  intro b
  unfold interpStep
  repeat' first
    | apply pres_pure
    | apply pres_consume
    | apply pres_getS
    | apply pres_cfgBlockInitM
    | apply pres_setJump0
    | apply pres_switchWire
    | apply hI.expression
    | apply hI.statement
    | apply pres_modify
    | exact ⟨nsKeep_rfl _, nsKeep_rfl _⟩
    | apply pres_bind
    | split
    | simp only []
    | intro _

theorem presStep_statement (I : Interp) (hI : InterpPres I) :
    ∀ b, Pres ((interpStep I).statement b) := by
  intro b
  unfold interpStep
  repeat' first
    | apply pres_pure
    | apply pres_consume
    | apply pres_peekS
    | apply pres_nextS
    | apply pres_getS
    | apply pres_errorM
    | apply pres_cfgBlockInitM
    | apply pres_setExprM
    | apply pres_setJump0
    | apply pres_evalReturn
    | apply pres_symLookupIdent
    | apply pres_add_switch_case
    | apply hI.constant_expression
    | apply hI.expression
    | apply hI.if_statement
    | apply hI.do_statement
    | apply hI.while_statement
    | apply hI.for_statement
    | apply hI.switch_statement
    | apply hI.statement
    | apply hI.exprStatement
    | apply hI.block
    | apply hI.declaration
    | apply pres_modify
    | exact ⟨nsKeep_rfl _, nsKeep_rfl _⟩
    | apply pres_bind
    | split
    | simp only []
    | intro _

theorem presStep_exprStatement (I : Interp) (hI : InterpPres I) :
    ∀ b, Pres ((interpStep I).exprStatement b) := by
  intro b
  unfold interpStep
  repeat' first
    | apply pres_pure
    | apply pres_consume
    | apply hI.expression
    | apply pres_bind
    | split
    | simp only []
    | intro _

theorem presStep_block (I : Interp) (hI : InterpPres I) :
    ∀ b, Pres ((interpStep I).block b) := by
  intro b
  unfold interpStep
  repeat' first
    | apply pres_block_scopes
    | apply pres_pure
    | apply pres_consume
    | apply hI.blockLoop
    | apply pres_bind
    | split
    | simp only []
    | intro _

theorem presStep_blockLoop (I : Interp) (hI : InterpPres I) :
    ∀ b, Pres ((interpStep I).blockLoop b) := by
  intro b
  unfold interpStep
  repeat' first
    | apply pres_pure
    | apply pres_peekS
    | apply hI.statement
    | apply hI.blockLoop
    | apply pres_bind
    | split
    | simp only []
    | intro _

theorem presStep_parameter_list (I : Interp) (hI : InterpPres I) :
    ∀ o, Pres ((interpStep I).parameter_list o) := by
  intro o
  unfold interpStep
  repeat' first
    | apply pres_pure
    | apply hI.parameterLoop
    | apply pres_bind
    | split
    | simp only []
    | intro _

theorem presStep_parameterLoop (I : Interp) (hI : InterpPres I) :
    ∀ t, Pres ((interpStep I).parameterLoop t) := by
  intro t
  unfold interpStep
  repeat' first
    | apply pres_pure
    | apply pres_consume
    | apply pres_peekS
    | apply pres_errorM
    | apply pres_exitOne
    | apply hI.parameterLoop
    | apply hI.declarator
    | apply hI.declaration_specifiers
    | apply pres_bind
    | split
    | simp only []
    | intro _

theorem presStep_direct_declarator_array (I : Interp) (hI : InterpPres I) :
    ∀ o, Pres ((interpStep I).direct_declarator_array o) := by
  intro o
  unfold interpStep
  repeat' first
    | apply pres_pure
    | apply pres_consume
    | apply pres_peekS
    | apply pres_errorM
    | apply pres_exitOne
    | apply hI.constant_expression
    | apply hI.direct_declarator_array
    | apply pres_bind
    | split
    | simp only []
    | intro _

theorem presStep_pointer (I : Interp) (hI : InterpPres I) :
    ∀ o, Pres ((interpStep I).pointer o) := by
  intro o
  unfold interpStep
  repeat' first
    | apply pres_pure
    | apply pres_consume
    | apply hI.pointerQualLoop
    | apply pres_bind
    | split
    | simp only []
    | intro _

theorem presStep_pointerQualLoop (I : Interp) (hI : InterpPres I) :
    ∀ t, Pres ((interpStep I).pointerQualLoop t) := by
  intro t
  unfold interpStep
  repeat' first
    | apply pres_pure
    | apply pres_peekS
    | apply pres_nextS
    | apply pres_errorM
    | apply hI.pointerQualLoop
    | apply pres_bind
    | split
    | simp only []
    | intro _

theorem presStep_declarator (I : Interp) (hI : InterpPres I) :
    ∀ o b, Pres ((interpStep I).declarator o b) := by
  intro o b
  unfold interpStep
  repeat' first
    | apply pres_pure
    | apply hI.declPointerLoop
    | apply hI.direct_declarator
    | apply pres_bind
    | split
    | simp only []
    | intro _

theorem presStep_declPointerLoop (I : Interp) (hI : InterpPres I) :
    ∀ o, Pres ((interpStep I).declPointerLoop o) := by
  intro o
  unfold interpStep
  repeat' first
    | apply pres_pure
    | apply pres_peekS
    | apply hI.pointer
    | apply hI.declPointerLoop
    | apply pres_bind
    | split
    | simp only []
    | intro _

theorem presStep_direct_declarator (I : Interp) (hI : InterpPres I) :
    ∀ o b, Pres ((interpStep I).direct_declarator o b) := by
  intro o b
  unfold interpStep
  repeat' first
    | apply pres_pure
    | apply pres_consume
    | apply pres_peekS
    | apply pres_errorM
    | apply pres_exitOne
    | apply hI.declarator
    | apply hI.directDeclSuffixLoop
    | apply pres_bind
    | split
    | simp only []
    | intro _

theorem presStep_directDeclSuffixLoop (I : Interp) (hI : InterpPres I) :
    ∀ a b c d, Pres ((interpStep I).directDeclSuffixLoop a b c d) := by
  intro a b c d
  unfold interpStep
  repeat' first
    | apply pres_pure
    | apply pres_consume
    | apply pres_peekS
    | apply hI.parameter_list
    | apply hI.direct_declarator_array
    | apply hI.directDeclSuffixLoop
    | apply pres_bind
    | split
    | simp only []
    | intro _

theorem presStep_member_declaration_list (I : Interp) (hI : InterpPres I) :
    ∀ t, Pres ((interpStep I).member_declaration_list t) := by
  intro t
  unfold interpStep
  repeat' first
    | apply pres_pure
    | apply hI.memberDeclLoop
    | apply pres_bind
    | split
    | simp only []
    | intro _

theorem presStep_memberDeclLoop (I : Interp) (hI : InterpPres I) :
    ∀ ns t, Pres ((interpStep I).memberDeclLoop ns t) := by
  intro ns t
  unfold interpStep
  repeat' first
    | apply pres_pure
    | apply pres_consume
    | apply pres_peekS
    | apply hI.memberDeclLoop
    | apply hI.memberDeclaratorLoop
    | apply hI.declaration_specifiers
    | apply pres_bind
    | split
    | simp only []
    | intro _

theorem presStep_memberDeclaratorLoop (I : Interp) (hI : InterpPres I) :
    ∀ ns t u, Pres ((interpStep I).memberDeclaratorLoop ns t u) := by
  intro ns t u
  unfold interpStep
  repeat' first
    | apply pres_pure
    | apply pres_consume
    | apply pres_peekS
    | apply pres_errorM
    | apply pres_exitOne
    | apply pres_symAddLocal
    | apply hI.declarator
    | apply hI.memberDeclaratorLoop
    | apply pres_bind
    | split
    | simp only []
    | intro _

theorem presStep_struct_or_union_declaration (I : Interp) (hI : InterpPres I) :
    Pres ((interpStep I).struct_or_union_declaration) := by
  unfold interpStep
  repeat' first
    | apply pres_pure
    | apply pres_consume
    | apply pres_peekS
    | apply pres_nextS
    | apply pres_getS
    | apply pres_errorM
    | apply pres_exitOne
    | apply pres_updSymM
    | apply pres_symLookupTag
    | apply pres_symAddTag
    | apply hI.member_declaration_list
    | apply pres_bind
    | split
    | simp only []
    | intro _

theorem presStep_enumerator_list (I : Interp) (hI : InterpPres I) :
    Pres ((interpStep I).enumerator_list) := by
  unfold interpStep
  repeat' first
    | apply pres_pure
    | apply pres_consume
    | apply hI.enumeratorLoop
    | apply pres_bind
    | split
    | simp only []
    | intro _

theorem presStep_enumeratorLoop (I : Interp) (hI : InterpPres I) :
    ∀ i, Pres ((interpStep I).enumeratorLoop i) := by
  intro i
  unfold interpStep
  repeat' first
    | apply pres_pure
    | apply pres_consume
    | apply pres_peekS
    | apply pres_errorM
    | apply pres_updSymM
    | apply pres_symAddIdent
    | apply hI.constant_expression
    | apply hI.enumeratorLoop
    | apply pres_bind
    | split
    | simp only []
    | intro _

theorem presStep_enum_declaration (I : Interp) (hI : InterpPres I) :
    Pres ((interpStep I).enum_declaration) := by
  unfold interpStep
  repeat' first
    | apply pres_pure
    | apply pres_consume
    | apply pres_peekS
    | apply pres_getS
    | apply pres_errorM
    | apply pres_exitOne
    | apply pres_updSymM
    | apply pres_symLookupTag
    | apply pres_symAddTag
    | apply hI.enumerator_list
    | apply pres_bind
    | split
    | simp only []
    | intro _

theorem presStep_dsAfter (I : Interp) (hI : InterpPres I) :
    ∀ a b c d e, Pres ((interpStep I).dsAfter a b c d e) := by
  intro a b c d e
  unfold interpStep
  repeat' first
    | apply pres_pure
    | apply pres_errorM
    | apply pres_exitOne
    | apply hI.dsLoop
    | apply pres_bind
    | split
    | simp only []
    | intro _

theorem presStep_dsLoop (I : Interp) (hI : InterpPres I) :
    ∀ a b c d e, Pres ((interpStep I).dsLoop a b c d e) := by
  intro a b c d e
  unfold interpStep
  repeat' first
    | apply pres_pure
    | apply pres_consume
    | apply pres_peekS
    | apply pres_getS
    | apply pres_symLookupIdent
    | apply hI.struct_or_union_declaration
    | apply hI.enum_declaration
    | apply hI.dsAfter
    | apply hI.dsSetSpecifier
    | apply hI.dsSetQualifier
    | apply hI.dsSetStorageClass
    | apply pres_bind
    | split
    | simp only []
    | intro _

theorem presStep_dsSetSpecifier (I : Interp) (hI : InterpPres I) :
    ∀ a b c d e f, Pres ((interpStep I).dsSetSpecifier a b c d e f) := by
  intro a b c d e f
  unfold interpStep
  repeat' first
    | apply pres_pure
    | apply pres_nextS
    | apply pres_errorM
    | apply hI.dsAfter
    | apply pres_bind
    | split
    | simp only []
    | intro _

theorem presStep_dsSetQualifier (I : Interp) (hI : InterpPres I) :
    ∀ a b c d e f, Pres ((interpStep I).dsSetQualifier a b c d e f) := by
  intro a b c d e f
  unfold interpStep
  repeat' first
    | apply pres_pure
    | apply pres_nextS
    | apply pres_errorM
    | apply hI.dsAfter
    | apply pres_bind
    | split
    | simp only []
    | intro _

theorem presStep_dsSetStorageClass (I : Interp) (hI : InterpPres I) :
    ∀ a b c d e f, Pres ((interpStep I).dsSetStorageClass a b c d e f) := by
  intro a b c d e f
  unfold interpStep
  repeat' first
    | apply pres_pure
    | apply pres_nextS
    | apply pres_errorM
    | apply hI.dsAfter
    | apply pres_bind
    | split
    | simp only []
    | intro _

theorem presStep_declaration_specifiers (I : Interp) (hI : InterpPres I) :
    ∀ a, Pres ((interpStep I).declaration_specifiers a) := by
  intro a
  unfold interpStep
  repeat' first
    | apply pres_pure
    | apply pres_errorM
    | apply pres_exitOne
    | apply pres_get_basic_type_from_specifier
    | apply hI.dsLoop
    | apply pres_bind
    | split
    | simp only []
    | intro _

theorem presStep_declaration (I : Interp) (hI : InterpPres I) :
    ∀ b, Pres ((interpStep I).declaration b) := by
  intro b
  unfold interpStep
  repeat' first
    | apply pres_pure
    | apply pres_getS
    | apply hI.declaration_specifiers
    | apply hI.declarationLoop
    | apply pres_bind
    | split
    | simp only []
    | intro _

theorem presStep_declarationLoop (I : Interp) (hI : InterpPres I) :
    ∀ a b c d, Pres ((interpStep I).declarationLoop a b c d) := by
  intro a b c d
  unfold interpStep
  repeat' first
    | apply pres_fundef_scopes
    | apply pres_pure
    | apply pres_define_builtin__func__
    | apply pres_consume
    | apply pres_peekS
    | apply pres_getS
    | apply pres_errorM
    | apply pres_exitOne
    | apply pres_updSymM
    | apply pres_symAddIdent
    | apply pres_cfgRegisterLocal
    | apply hI.block
    | apply hI.declarator
    | apply hI.declarationLoop
    | apply hI.paramRegLoop
    | apply hI.initializer
    | apply pres_modify
    | exact ⟨nsKeep_rfl _, nsKeep_rfl _⟩
    | apply pres_bind
    | split
    | simp only []
    | intro _

theorem presStep_paramRegLoop (I : Interp) (hI : InterpPres I) :
    ∀ a b, Pres ((interpStep I).paramRegLoop a b) := by
  intro a b
  unfold interpStep
  repeat' first
    | apply pres_pure
    | apply pres_getS
    | apply pres_errorM
    | apply pres_exitOne
    | apply pres_symAddIdent
    | apply pres_cfgRegisterParam
    | apply hI.paramRegLoop
    | apply pres_bind
    | split
    | simp only []
    | intro _

theorem presStep_initializer (I : Interp) (hI : InterpPres I) :
    ∀ a b, Pres ((interpStep I).initializer a b) := by
  intro a b
  unfold interpStep
  repeat' first
    | apply pres_pure
    | apply pres_peekS
    | apply pres_getS
    | apply pres_getExpr
    | apply pres_errorM
    | apply pres_exitOne
    | apply pres_updSymM
    | apply pres_evalAssign
    | apply hI.assignment_expression
    | apply hI.object_initializer
    | apply pres_bind
    | split
    | simp only []
    | intro _

theorem presStep_object_initializer (I : Interp) (hI : InterpPres I) :
    ∀ a b, Pres ((interpStep I).object_initializer a b) := by
  intro a b
  unfold interpStep
  repeat' first
    | apply pres_pure
    | apply pres_consume
    | apply pres_peekS
    | apply pres_errorM
    | apply pres_exitOne
    | apply pres_updSymM
    | apply hI.zeroInitialize
    | apply hI.initializer
    | apply hI.structInitLoop
    | apply hI.structZeroTail
    | apply hI.arrayInitLoop
    | apply hI.arrayZeroTail
    | apply pres_bind
    | split
    | simp only []
    | intro _

theorem presStep_structInitLoop (I : Interp) (hI : InterpPres I) :
    ∀ a b c d e, Pres ((interpStep I).structInitLoop a b c d e) := by
  intro a b c d e
  unfold interpStep
  repeat' first
    | apply pres_pure
    | apply pres_consume
    | apply pres_peekS
    | apply hI.initializer
    | apply hI.structInitLoop
    | apply pres_bind
    | split
    | simp only []
    | intro _

theorem presStep_structZeroTail (I : Interp) (hI : InterpPres I) :
    ∀ a b c d e, Pres ((interpStep I).structZeroTail a b c d e) := by
  intro a b c d e
  unfold interpStep
  repeat' first
    | apply pres_pure
    | apply hI.zeroInitialize
    | apply hI.structZeroTail
    | apply pres_bind
    | split
    | simp only []
    | intro _

theorem presStep_arrayInitLoop (I : Interp) (hI : InterpPres I) :
    ∀ a b c d e f, Pres ((interpStep I).arrayInitLoop a b c d e f) := by
  intro a b c d e f
  unfold interpStep
  repeat' first
    | apply pres_pure
    | apply pres_consume
    | apply pres_peekS
    | apply hI.initializer
    | apply hI.arrayInitLoop
    | apply pres_bind
    | split
    | simp only []
    | intro _

theorem presStep_arrayZeroTail (I : Interp) (hI : InterpPres I) :
    ∀ a b c d e f, Pres ((interpStep I).arrayZeroTail a b c d e f) := by
  intro a b c d e f
  unfold interpStep
  repeat' first
    | apply pres_pure
    | apply hI.zeroInitialize
    | apply hI.arrayZeroTail
    | apply pres_bind
    | split
    | simp only []
    | intro _

theorem presStep_parse (I : Interp) (hI : InterpPres I) :
    Pres ((interpStep I).parse) := by
  unfold interpStep
  repeat' first
    | apply pres_pure
    | apply pres_peekS
    | apply pres_cfgInitCurrent
    | apply hI.parseLoop
    | apply pres_bind
    | split
    | simp only []
    | intro _

theorem presStep_parseLoop (I : Interp) (hI : InterpPres I) :
    Pres ((interpStep I).parseLoop) := by
  unfold interpStep
  repeat' first
    | apply pres_pure
    | apply pres_peekS
    | apply pres_getS
    | apply hI.declaration
    | apply hI.parseLoop
    | apply pres_modify
    | exact ⟨nsKeep_rfl _, nsKeep_rfl _⟩
    | apply pres_bind
    | split
    | simp only []
    | intro _

theorem interpPres_step (I : Interp) (hI : InterpPres I) : InterpPres (interpStep I) :=
  ⟨presStep_zeroInitialize I hI, presStep_zeroInitMembers I hI, presStep_zeroInitElems I hI, presStep_primary_expression I hI, presStep_postfix_expression I hI, presStep_postfixLoop I hI, presStep_unary_expression I hI, presStep_cast_expression I hI, presStep_multiplicative_expression I hI, presStep_multiplicativeLoop I hI, presStep_additive_expression I hI, presStep_additiveLoop I hI, presStep_shift_expression I hI, presStep_shiftLoop I hI, presStep_relational_expression I hI, presStep_relationalLoop I hI, presStep_equality_expression I hI, presStep_equalityLoop I hI, presStep_and_expression I hI, presStep_andLoop I hI, presStep_exclusive_or_expression I hI, presStep_xorLoop I hI, presStep_inclusive_or_expression I hI, presStep_orLoop I hI, presStep_logical_and_expression I hI, presStep_logical_or_expression I hI, presStep_conditional_expression I hI, presStep_constant_expression I hI, presStep_assignment_expression I hI, presStep_compoundAssign I hI, presStep_expression I hI, presStep_expressionCommaLoop I hI, presStep_if_statement I hI, presStep_do_statement I hI, presStep_while_statement I hI, presStep_for_statement I hI, presStep_switch_statement I hI, presStep_statement I hI, presStep_exprStatement I hI, presStep_block I hI, presStep_blockLoop I hI, presStep_parameter_list I hI, presStep_parameterLoop I hI, presStep_direct_declarator_array I hI, presStep_pointer I hI, presStep_pointerQualLoop I hI, presStep_declarator I hI, presStep_declPointerLoop I hI, presStep_direct_declarator I hI, presStep_directDeclSuffixLoop I hI, presStep_member_declaration_list I hI, presStep_memberDeclLoop I hI, presStep_memberDeclaratorLoop I hI, presStep_struct_or_union_declaration I hI, presStep_enumerator_list I hI, presStep_enumeratorLoop I hI, presStep_enum_declaration I hI, presStep_dsAfter I hI, presStep_dsLoop I hI, presStep_dsSetSpecifier I hI, presStep_dsSetQualifier I hI, presStep_dsSetStorageClass I hI, presStep_declaration_specifiers I hI, presStep_declaration I hI, presStep_declarationLoop I hI, presStep_paramRegLoop I hI, presStep_initializer I hI, presStep_object_initializer I hI, presStep_structInitLoop I hI, presStep_structZeroTail I hI, presStep_arrayInitLoop I hI, presStep_arrayZeroTail I hI, presStep_parse I hI, presStep_parseLoop I hI⟩

theorem interpPres_all (fuel : Nat) : InterpPres (interp fuel) := by
  induction fuel with
  | zero => exact interpPres_none
  | succ n ih => exact interpPres_step (interp n) ih

/-- C9: on every successful run of the parser entry points, push_scope
and pop_scope calls are matched one-for-one in each namespace and the
scope depths are restored: for the whole translation unit (parse), for
a statement, for a compound-statement block, for a declaration and for
a member declaration list. -/
theorem c9_scope_balance :
    (∀ (fuel : Nat) (s : St) (r : Int) (s2 : St), parse fuel s = .ok r s2 →
        s2.nsIdent.currentDepth = s.nsIdent.currentDepth
        ∧ s2.nsIdent.pushes + s.nsIdent.pops = s.nsIdent.pushes + s2.nsIdent.pops
        ∧ s2.nsTag.currentDepth = s.nsTag.currentDepth
        ∧ s2.nsTag.pushes + s.nsTag.pops = s.nsTag.pushes + s2.nsTag.pops)
    ∧ (∀ (fuel b : Nat) (s : St) (r : Nat) (s2 : St), statement fuel b s = .ok r s2 →
        s2.nsIdent.currentDepth = s.nsIdent.currentDepth
        ∧ s2.nsIdent.pushes + s.nsIdent.pops = s.nsIdent.pushes + s2.nsIdent.pops
        ∧ s2.nsTag.currentDepth = s.nsTag.currentDepth
        ∧ s2.nsTag.pushes + s.nsTag.pops = s.nsTag.pushes + s2.nsTag.pops)
    ∧ (∀ (fuel b : Nat) (s : St) (r : Nat) (s2 : St), block fuel b s = .ok r s2 →
        s2.nsIdent.currentDepth = s.nsIdent.currentDepth
        ∧ s2.nsIdent.pushes + s.nsIdent.pops = s.nsIdent.pushes + s2.nsIdent.pops
        ∧ s2.nsTag.currentDepth = s.nsTag.currentDepth
        ∧ s2.nsTag.pushes + s.nsTag.pops = s.nsTag.pushes + s2.nsTag.pops)
    ∧ (∀ (fuel b : Nat) (s : St) (r : Nat) (s2 : St), declaration fuel b s = .ok r s2 →
        s2.nsIdent.currentDepth = s.nsIdent.currentDepth
        ∧ s2.nsIdent.pushes + s.nsIdent.pops = s.nsIdent.pushes + s2.nsIdent.pops
        ∧ s2.nsTag.currentDepth = s.nsTag.currentDepth
        ∧ s2.nsTag.pushes + s.nsTag.pops = s.nsTag.pushes + s2.nsTag.pops)
    ∧ (∀ (fuel : Nat) (t : Typ) (s : St) (r : Typ) (s2 : St),
        member_declaration_list fuel t s = .ok r s2 →
        s2.nsIdent.currentDepth = s.nsIdent.currentDepth
        ∧ s2.nsIdent.pushes + s.nsIdent.pops = s.nsIdent.pushes + s2.nsIdent.pops
        ∧ s2.nsTag.currentDepth = s.nsTag.currentDepth
        ∧ s2.nsTag.pushes + s.nsTag.pops = s.nsTag.pushes + s2.nsTag.pops) := by
  refine ⟨?_, ?_, ?_, ?_, ?_⟩
  · intro fuel s r s2 h
    obtain ⟨⟨a, b⟩, ⟨c, d⟩⟩ := (interpPres_all fuel).parse s r s2 h
    exact ⟨a, b, c, d⟩
  · intro fuel b0 s r s2 h
    obtain ⟨⟨a, b⟩, ⟨c, d⟩⟩ := (interpPres_all fuel).statement b0 s r s2 h
    exact ⟨a, b, c, d⟩
  · intro fuel b0 s r s2 h
    obtain ⟨⟨a, b⟩, ⟨c, d⟩⟩ := (interpPres_all fuel).block b0 s r s2 h
    exact ⟨a, b, c, d⟩
  · intro fuel b0 s r s2 h
    obtain ⟨⟨a, b⟩, ⟨c, d⟩⟩ := (interpPres_all fuel).declaration b0 s r s2 h
    exact ⟨a, b, c, d⟩
  · intro fuel t s r s2 h
    obtain ⟨⟨a, b⟩, ⟨c, d⟩⟩ := (interpPres_all fuel).member_declaration_list t s r s2 h
    exact ⟨a, b, c, d⟩

/-- Witness: scope balance on a concrete successful parse, with the
success hypothesis discharged by evaluation. -/
theorem c9_scope_balance_witness :
    match parse 30 (baseSt [.INTKW, .IDENTIFIER "x", .semi, .END] []) with
    | .ok _ s2 => s2.nsIdent.currentDepth = 0 ∧ s2.nsTag.currentDepth = 0
        ∧ s2.nsIdent.pushes = s2.nsIdent.pops
    | _ => False := by
  have htag : resTag (parse 30 (baseSt [.INTKW, .IDENTIFIER "x", .semi, .END] [])) = 0 := rfl
  cases hres : parse 30 (baseSt [.INTKW, .IDENTIFIER "x", .semi, .END] []) with
  | ok r s2 =>
      obtain ⟨a, b, c, d⟩ := c9_scope_balance.1 30
        (baseSt [.INTKW, .IDENTIFIER "x", .semi, .END] []) r s2 hres
      refine ⟨?_, ?_, ?_⟩
      · rw [a]; rfl
      · rw [c]; rfl
      · have hp : (baseSt [.INTKW, .IDENTIFIER "x", .semi, .END] []).nsIdent.pushes = 0 := rfl
        have hq : (baseSt [.INTKW, .IDENTIFIER "x", .semi, .END] []).nsIdent.pops = 0 := rfl
        omega
  | exited s2 => rw [hres] at htag; simp [resTag] at htag
  | fuelOut => rw [hres] at htag; simp [resTag] at htag
